import Mathlib

/-!
# Drone fleet simulator: embedding and verified properties

The C++ sources (`vector2d`, `server`, `voronoi`, `canvas`, `drone`, `mainwindow`)
are embedded as pure functions.

* The simulation (`drone`, `mainwindow` and the `Vector2D` operations they call) is
  embedded in exact arithmetic: a `float` or `double` is an element of a linearly ordered
  field `K` (instantiated with `ℚ` or `ℝ` in the closed examples), and the `<cmath>`
  functions `sqrt`, `atan` and the constant `M_PI` are the fields of a `CMath K` record
  passed to the code that calls them. What is proved of it is a statement about the
  program run in exact arithmetic.
* The distance scans of `voronoi.cpp` and `canvas.cpp` and `Drone::addCollision` are
  embedded in machine arithmetic as well: every rounding operation is a field of a
  `FloatOps K` record, with `none` for a result that is not finite. The record `ieee`
  is IEEE 754 arithmetic (binary32 for `float`, binary64 for `double`, rounding to
  nearest, ties to even); `FloatOps.exact` is exact arithmetic.
* `std::numeric_limits<double>::max()` is the top element of `WithTop K`: a finite
  distance, the square root of a finite `float`, is below it; a distance that is not
  finite is not.
* The operations of Qt on colours (`hue()`, `saturation()`, `lightness()`, `setHsl`) are
  not part of the program; they are the fields of a `QtColor` record.
* Qt widgets (progress bars, images, `repaint`) carry no simulation state and are left out.
-/

set_option autoImplicit false

namespace DroneProject

/-! ## `<cmath>` -/

/-- The functions and constants of the C math library that the program calls. -/
structure CMath (K : Type) where
  sqrt : K → K
  atan : K → K
  pi : K

/-! ## Machine arithmetic -/

/-- The rounding operations of the machine: on `float` operands `fadd`, `fsub`, `fmul`;
on `double` operands `dmul`, `ddiv` and the `sqrt` of `<cmath>`; and `toFloat`, the
conversion `static_cast<float>` of a double. A finite machine number is the number it
represents, an element of `K`; an operation returns `none` when its result is not finite
(an infinity or a NaN). The conversion of a `float` to `double` is exact and has no
field. Since `+`, `-`, `*` and `sqrt` of an operand that is not finite are not finite
either, a chain of these operations is a chain of `Option.bind`. -/
structure FloatOps (K : Type) where
  fadd : K → K → Option K
  fsub : K → K → Option K
  fmul : K → K → Option K
  dmul : K → K → Option K
  ddiv : K → K → Option K
  toFloat : K → Option K
  sqrt : K → Option K

/-! ## vector2d.h / vector2d.cpp -/

/-- Class `Vector2D`: two coordinates. -/
structure Vector2D (K : Type) where
  x : K
  y : K
deriving DecidableEq

namespace Vector2D

variable {K : Type} [LinearOrderedField K]

/-- The method `Vector2D::set`, which overwrites both coordinates. -/
def set (_v : Vector2D K) (p_x p_y : K) : Vector2D K := ⟨p_x, p_y⟩

/-- The method `Vector2D::length` in exact arithmetic: `sqrt(x * x + y * y)`. The machine
evaluates the sum of squares in `float`; that is `lengthF`. -/
def length (m : CMath K) (v : Vector2D K) : K := m.sqrt (v.x * v.x + v.y * v.y)

/-- The method `Vector2D::orthoNormed`: `(y / l, -x / l)` with `l = length()`. -/
def orthoNormed (m : CMath K) (v : Vector2D K) : Vector2D K :=
  let l := v.length m
  ⟨v.y / l, -v.x / l⟩

/-- The friend `operator*(double, const Vector2D&)` in exact arithmetic: scalar
multiplication. The machine rounds each product to `double` and then to `float`; that is
`smulF`. -/
def smul (a : K) (v : Vector2D K) : Vector2D K := ⟨a * v.x, a * v.y⟩

/-- The friend `operator*(const Vector2D&, const Vector2D&)`: dot product. -/
def dot (u v : Vector2D K) : K := u.x * v.x + u.y * v.y

/-- The friend `operator+`. -/
def add (u v : Vector2D K) : Vector2D K := ⟨u.x + v.x, u.y + v.y⟩

/-- The friend binary `operator-`. -/
def sub (u v : Vector2D K) : Vector2D K := ⟨u.x - v.x, u.y - v.y⟩

/-- The friend unary `operator-`. -/
def neg (v : Vector2D K) : Vector2D K := ⟨-v.x, -v.y⟩

/-- The friend `operator^`: cross product. -/
def cross (u v : Vector2D K) : K := u.x * v.y - u.y * v.x

/-- The friend binary `operator-` in machine arithmetic: both differences are `float`
subtractions; `none` when a coordinate of the result is not finite. -/
def subF (f : FloatOps K) (u v : Vector2D K) : Option (Vector2D K) :=
  (f.fsub u.x v.x).bind fun x => (f.fsub u.y v.y).bind fun y => some ⟨x, y⟩

/-- The method `Vector2D::length` in machine arithmetic: `x * x + y * y` is evaluated in
`float` (two products, one sum), converted to `double` and passed to `sqrt`; `none` when
the result is not finite. -/
def lengthF (f : FloatOps K) (v : Vector2D K) : Option K :=
  (f.fmul v.x v.x).bind fun xx => (f.fmul v.y v.y).bind fun yy => (f.fadd xx yy).bind f.sqrt

/-- The friend `operator*(double, const Vector2D&)` in machine arithmetic:
`Vector2D(static_cast<float>(a * v.x), static_cast<float>(a * v.y))`, each product a
`double` multiplication. -/
def smulF (f : FloatOps K) (a : K) (v : Vector2D K) : Option (Vector2D K) :=
  ((f.dmul a v.x).bind f.toFloat).bind fun x =>
    ((f.dmul a v.y).bind f.toFloat).bind fun y => some ⟨x, y⟩

/-- The method `Vector2D::operator+=` in machine arithmetic: two `float` additions. -/
def addF (f : FloatOps K) (u v : Vector2D K) : Option (Vector2D K) :=
  (f.fadd u.x v.x).bind fun x => (f.fadd u.y v.y).bind fun y => some ⟨x, y⟩

end Vector2D

/-! ## QColor (Qt) -/

/-- A `QColor` value, by the way it was made: default-constructed (the invalid colour),
from red, green and blue components (the colour of a server, `Qt::white`), or from the
hue, saturation and lightness components handed to `setHsl`. -/
inductive QColor where
  | invalid
  | rgb (r g b : Nat)
  | hsl (h s l : Int)
deriving DecidableEq

namespace QColor

/-- The constant `Qt::white`. -/
def white : QColor := .rgb 255 255 255

end QColor

/-- The operations of Qt on a `QColor` that the program calls. In Qt `hue()` and
`saturation()` read the colour in the HSV model and `lightness()` reads it in the HSL
model, while `setHsl(h, s, l)` makes the colour from components of the HSL model; no
relation between the four is assumed here. -/
structure QtColor where
  hue : QColor → Int
  saturation : QColor → Int
  lightness : QColor → Int
  setHsl : QColor → Int → Int → Int → QColor

/-- The Qt template `qBound(min, val, max)`, which is `qMax(min, qMin(max, val))`. -/
def qBound (lo val hi : Int) : Int := max lo (min hi val)

/-! ## server.h / server.cpp -/

/-- Class `Server`: name, position and colour (the `neighbors` list is used by no
algorithm and is left out). -/
structure Server (K : Type) where
  name : String
  position : Vector2D K
  color : QColor
deriving DecidableEq

namespace Server

variable {K : Type}

/-- The getter `Server::getName`. -/
def getName (s : Server K) : String := s.name

/-- The getter `Server::getPosition`. -/
def getPosition (s : Server K) : Vector2D K := s.position

/-- The getter `Server::getColor`. -/
def getColor (s : Server K) : QColor := s.color

end Server

/-! ## voronoi.cpp -/

namespace Voronoi

variable {K : Type} [LinearOrderedField K]

/-- One iteration of the `for (const Server &server : servers)` loop of
`Voronoi::getColorForPoint`, on the loop state `(minDistance, color)`. The distance
`(server.getPosition() - point).length()` is computed in machine arithmetic. When it is
not finite (`none`: an infinity or a NaN) the test `distance < minDistance` is false,
since `minDistance` is at most the greatest double; when it is finite it is below the
greatest double, the top element. -/
def scanStep (f : FloatOps K) (q : QtColor) (point : Vector2D K) (st : WithTop K × QColor)
    (server : Server K) : WithTop K × QColor :=
  match (Vector2D.subF f server.getPosition point).bind (Vector2D.lengthF f) with
  | none => st
  | some distance =>
    if (distance : WithTop K) < st.1 then
      let color := server.getColor
      let lightness := q.lightness color
      let lightness := if distance < 50 then lightness + 20 else lightness - 10
      ((distance : WithTop K),
        q.setHsl color (q.hue color) (q.saturation color) (qBound 0 lightness 255))
    else st

/-- The method `Voronoi::getColorForPoint`: `minDistance` starts at the greatest double,
`color` default-constructed; the loop runs over the servers in list order. -/
def getColorForPoint (f : FloatOps K) (q : QtColor) (servers : List (Server K))
    (point : Vector2D K) : QColor :=
  (servers.foldl (scanStep f q point) (⊤, QColor.invalid)).2

end Voronoi

/-! ## canvas.h / canvas.cpp -/

namespace Canvas

variable {K : Type} [LinearOrderedField K]

/-- The constant `Canvas::droneIconSize`. -/
def droneIconSize : Int := 64

/-- The constant `Canvas::droneCollisionDistance`, which is `droneIconSize * 1.5`. -/
def droneCollisionDistance : K := (droneIconSize : K) * (3 / 2)

/-- The method `Canvas::findServerByName`: the loop returns at the first server whose
name matches; `none` is the `nullptr` returned after the loop. -/
def findServerByName : List (Server K) → String → Option (Server K)
  | [], _ => none
  | server :: rest, name =>
    if server.getName = name then some server else findServerByName rest name

/-- One iteration of the inner server loop of `Canvas::generateVoronoiImage`, on the
state `(minDistance, color)`, with the distance computed in machine arithmetic as in
`Voronoi.scanStep`. -/
def pixelStep (f : FloatOps K) (point : Vector2D K) (st : WithTop K × QColor)
    (server : Server K) : WithTop K × QColor :=
  match (Vector2D.subF f server.getPosition point).bind (Vector2D.lengthF f) with
  | none => st
  | some distance =>
    if (distance : WithTop K) < st.1 then ((distance : WithTop K), server.getColor) else st

/-- The colour `Canvas::generateVoronoiImage` paints at one pixel: `color` starts as
`Qt::white`, `minDistance` as the greatest double. -/
def pixelColor (f : FloatOps K) (servers : List (Server K)) (point : Vector2D K) : QColor :=
  (servers.foldl (pixelStep f point) (⊤, QColor.white)).2

end Canvas

/-! ## drone.h / drone.cpp -/

/-- The enumeration `Drone::droneStatus`, in declaration order. -/
inductive Drone.droneStatus where
  | landed
  | takeoff
  | landing
  | hovering
  | turning
  | flying
deriving DecidableEq

/-- The integer value of an enumerator, used by the comparison `status >= hovering`. -/
def Drone.droneStatus.toNat : Drone.droneStatus → Nat
  | .landed => 0
  | .takeoff => 1
  | .landing => 2
  | .hovering => 3
  | .turning => 4
  | .flying => 5

/-- Class `Drone`: the data members that carry simulation state. -/
structure Drone (K : Type) where
  status : Drone.droneStatus
  height : K
  name : String
  position : Vector2D K
  goalPosition : Vector2D K
  direction : Vector2D K
  V : Vector2D K
  ForceCollision : Vector2D K
  speed : K
  speedSetpoint : K
  power : K
  azimut : K
  showCollision : Bool
  targetServer : String
deriving DecidableEq

namespace Drone

variable {K : Type} [LinearOrderedField K]

/-- Max speed in pixels per second. -/
def maxSpeed : K := 50
/-- Max power of drone motors. -/
def maxPower : K := 200
/-- Takeoff speed in units per second. -/
def takeoffSpeed : K := 5 / 2
/-- Hovering height in units. -/
def hoveringHeight : K := 5
/-- Coefficient for collision avoidance. -/
def coefCollision : K := 1000
/-- Damping for motion simulation. -/
def damping : K := 2 / 10
/-- Charging speed in power per second. -/
def chargingSpeed : K := 10
/-- Power consumption in power per second. -/
def powerConsumption : K := 5

/-- The constructor `Drone::Drone(name)`. It assigns neither `height` nor `speedSetpoint`;
their indeterminate initial values are the arguments `height0` and `speedSetpoint0`. -/
def new (n : String) (height0 speedSetpoint0 : K) : Drone K where
  status := .landed
  height := height0
  name := n
  position := ⟨50, 50⟩
  goalPosition := ⟨550, 600⟩
  direction := ⟨0, 0⟩
  V := ⟨0, 0⟩
  ForceCollision := ⟨0, 0⟩
  speed := 0
  speedSetpoint := speedSetpoint0
  power := maxPower / 2
  azimut := 0
  showCollision := false
  targetServer := ""

/-- The method `Drone::start`: `status = takeoff; height = 0;`. -/
def start (d : Drone K) : Drone K := { d with status := .takeoff, height := 0 }

/-- The method `Drone::stop`: `status = landing;`. -/
def stop (d : Drone K) : Drone K := { d with status := .landing }

/-- The method `Drone::setSpeed`: `speedSetpoint = (s > maxSpeed ? maxSpeed : s);`. -/
def setSpeed (d : Drone K) (s : K) : Drone K :=
  { d with speedSetpoint := if s > maxSpeed then maxSpeed else s }

/-- The method `Drone::setInitialPosition`: `if (status == landed) position = pos;`. -/
def setInitialPosition (d : Drone K) (pos : Vector2D K) : Drone K :=
  if d.status = .landed then { d with position := pos } else d

/-- The method `Drone::setGoalPosition`. -/
def setGoalPosition (d : Drone K) (pos : Vector2D K) : Drone K := { d with goalPosition := pos }

/-- The getter `Drone::getPosition`. -/
def getPosition (d : Drone K) : Vector2D K := d.position

/-- The getter `Drone::getStatus`. -/
def getStatus (d : Drone K) : droneStatus := d.status

/-- The getter `Drone::getName`. -/
def getName (d : Drone K) : String := d.name

/-- The getter `Drone::getAzimut`. -/
def getAzimut (d : Drone K) : K := d.azimut

/-- The getter `Drone::getPower`: `100.0 * power / maxPower`. -/
def getPower (d : Drone K) : K := 100 * d.power / maxPower

/-- The method `Drone::hasCollision`. -/
def hasCollision (d : Drone K) : Bool := d.showCollision

/-- The method `Drone::setTargetServer`. -/
def setTargetServer (d : Drone K) (serverName : String) : Drone K :=
  { d with targetServer := serverName }

/-- The getter `Drone::getTargetServer`. -/
def getTargetServer (d : Drone K) : String := d.targetServer

/-- The method `Drone::update`, statement by statement: the state is passed through the
assignments and `if` statements of the source in their order, one `|>` stage each.
Division is the division of `K`: the quotients `maxPower * dt / distance` and
`1.0 / speed` are taken as they stand, and a theorem that depends on their value says
when the divisor is not zero. -/
def update (m : CMath K) (d : Drone K) (dt : K) : Drone K :=
  if d.status = .landed then
    d |> (fun d => { d with power := d.power + dt * chargingSpeed })
      |> (fun d => if d.power > maxPower then { d with power := maxPower } else d)
  else if d.status = .takeoff then
    d |> (fun d => { d with height := d.height + dt * takeoffSpeed })
      |> (fun d => if d.height ≥ hoveringHeight then
            { d with height := hoveringHeight, status := .hovering } else d)
      |> (fun d => { d with power := d.power - dt * powerConsumption })
      |> (fun d => if d.power < 20 + powerConsumption / takeoffSpeed then
            { d with status := .landing, speed := 0 } else d)
  else if d.status = .landing then
    d |> (fun d => { d with height := d.height - dt * takeoffSpeed })
      |> (fun d => if d.height ≤ 0 then
            { d with height := 0, status := .landed, showCollision := false } else d)
      |> (fun d => { d with power := d.power - dt * powerConsumption })
  else if d.status.toNat ≥ droneStatus.hovering.toNat then
    let toGoal := d.goalPosition.sub d.position
    let distance := toGoal.length m
    let damp := 1 - dt * (1 - damping)
    d |> (fun d => { d with
            V := ((Vector2D.smul damp d.V).add
              (Vector2D.smul (maxPower * dt / distance) toGoal)).add
                (Vector2D.smul dt d.ForceCollision) })
      |> (fun d => { d with position := d.position.add (Vector2D.smul dt d.V) })
      |> (fun d => { d with speed := d.V.length m })
      |> (fun d =>
          let Vn := Vector2D.smul (1 / d.speed) d.V
          if Vn.y = 0 then
            if Vn.x > 0 then { d with azimut := -90 } else { d with azimut := 90 }
          else if Vn.y > 0 then
            { d with azimut := 180 - 180 * m.atan (Vn.x / Vn.y) / m.pi }
          else
            { d with azimut := -180 * m.atan (Vn.x / Vn.y) / m.pi })
      |> (fun d => if toGoal.length m < 1 ∧ d.speed < 10 then
            { d with V := d.V.set 0 0, speed := 0, status := .landing } else d)
      |> (fun d => { d with power := d.power - dt * powerConsumption })
      |> (fun d => if d.power < 20 + powerConsumption / takeoffSpeed then
            { d with speed := 0, V := d.V.set 0 0, status := .landing } else d)
  else d

/-- The method `Drone::initCollision`. -/
def initCollision (d : Drone K) : Drone K :=
  { d with ForceCollision := d.ForceCollision.set 0 0, showCollision := false }

/-- The method `Drone::addCollision` in exact arithmetic. -/
def addCollision (m : CMath K) (d : Drone K) (B : Vector2D K) (threshold : K) : Drone K :=
  let AB := B.sub d.position
  let l := AB.length m
  if l < threshold then
    { d with
      ForceCollision := d.ForceCollision.add (Vector2D.smul (-coefCollision / threshold) AB),
      showCollision := true }
  else d

/-- The method `Drone::addCollision` in machine arithmetic. When `AB` or its length is
not finite the test `l < threshold` is false and the drone is left as it is. Otherwise
`-coefCollision / threshold` is a `double` division, the product with `AB` is
`operator*(double, const Vector2D&)` and `+=` adds in `float`; the result is `none` when
a coordinate of the new `ForceCollision` is not finite. -/
def addCollisionF (f : FloatOps K) (d : Drone K) (B : Vector2D K) (threshold : K) :
    Option (Drone K) :=
  match Vector2D.subF f B d.position with
  | none => some d
  | some AB =>
    match Vector2D.lengthF f AB with
    | none => some d
    | some l =>
      if l < threshold then
        ((f.ddiv (-coefCollision) threshold).bind fun a => Vector2D.smulF f a AB).bind
          fun force => (Vector2D.addF f d.ForceCollision force).bind
            fun sum => some { d with ForceCollision := sum, showCollision := true }
      else some d

end Drone

/-! ## mainwindow.cpp -/

namespace MainWindow

variable {K : Type} [LinearOrderedField K]

/-- What `MainWindow::update` keeps from one call to the next: its static locals `last`
and `steps`, and the drones of `mapDrones` in the iteration order of the map. -/
structure State (K : Type) where
  last : Int
  steps : Int
  mapDrones : List (Drone K)

/-- The state at the first call of `MainWindow::update`: `static int last =
elapsedTimer.elapsed(); static int steps = 5;`. -/
def State.initial (elapsed : Int) (mapDrones : List (Drone K)) : State K :=
  ⟨elapsed, 5, mapDrones⟩

/-- Goal resolution in the drone loop of `MainWindow::update`: `findServerByName` on the
target server name, and `setGoalPosition` when the result is not `nullptr`. -/
def resolveGoal (servers : List (Server K)) (drone : Drone K) : Drone K :=
  match Canvas.findServerByName servers drone.getTargetServer with
  | some targetServer => drone.setGoalPosition targetServer.getPosition
  | none => drone

/-- Collision handling in the drone loop of `MainWindow::update`: for a drone that is not
landed, `initCollision` and then `addCollision` for every other drone of the map that is
not landed and has another name. -/
def collisions (m : CMath K) (mapDrones : List (Drone K)) (drone : Drone K) : Drone K :=
  if drone.getStatus ≠ .landed then
    mapDrones.foldl
      (fun drone obs =>
        if obs.getStatus ≠ .landed ∧ obs.getName ≠ drone.getName then
          drone.addCollision m obs.getPosition Canvas.droneCollisionDistance
        else drone)
      drone.initCollision
  else drone

/-- The body of the drone loop of `MainWindow::update` for one drone: goal resolution,
collision handling, `drone->update(dt)`. -/
def updateDrone (m : CMath K) (servers : List (Server K)) (dt : K)
    (mapDrones : List (Drone K)) (drone : Drone K) : Drone K :=
  (collisions m mapDrones (resolveGoal servers drone)).update m dt

/-- One sub-step of `MainWindow::update`: the loop `for (auto &drone : mapDrones)`, each
drone updated in place, in order, seeing the drones before it already updated. -/
def subStep (m : CMath K) (servers : List (Server K)) (dt : K)
    (mapDrones : List (Drone K)) : List (Drone K) :=
  (List.range mapDrones.length).foldl
    (fun ds i =>
      match ds[i]? with
      | some drone => ds.set i (updateDrone m servers dt ds drone)
      | none => ds)
    mapDrones

/-- The method `MainWindow::update`, one tick: `current` is the value of
`elapsedTimer.elapsed()` read at the start and `d` the duration measured at the end.
The loop `for (int step = 0; step < steps; step++)` runs `steps` times (no time when
`steps <= 0`); `steps /= 2` is the C++ integer division, which truncates. -/
def update (m : CMath K) (servers : List (Server K)) (st : State K) (current d : Int) :
    State K :=
  let dt : K := ((current - st.last : Int) : K) / (1000 * (st.steps : K))
  { last := current
    steps := if d > 90 then st.steps.tdiv 2
      else if st.steps < 10 then st.steps + 1 else st.steps
    mapDrones := (subStep m servers dt)^[st.steps.toNat] st.mapDrones }

end MainWindow

/-! ## canvas.cpp: the mouse command; mainwindow.cpp: loading a drone -/

namespace Canvas

variable {K : Type} [LinearOrderedField K]

/-- The method `Canvas::mousePressEvent` on the drones of the map: the iterator skips the
drones that are not landed; the first landed drone, if there is one, gets
`setGoalPosition` of the mouse position and `start()`. -/
def mousePressEvent : List (Drone K) → Vector2D K → List (Drone K)
  | [], _ => []
  | drone :: rest, pos =>
    if drone.getStatus ≠ .landed then drone :: mousePressEvent rest pos
    else (drone.setGoalPosition pos).start :: rest

end Canvas

namespace MainWindow

variable {K : Type} [LinearOrderedField K]

/-- A drone as `MainWindow::loadJson` creates it: `new Drone(name)`,
`setInitialPosition(position)`, `setTargetServer(server)`. -/
def loadDrone (name : String) (position : Vector2D K) (server : String)
    (height0 speedSetpoint0 : K) : Drone K :=
  ((Drone.new name height0 speedSetpoint0).setInitialPosition position).setTargetServer server

end MainWindow

/-! ## Specification vocabulary -/

section SpecVocabulary

variable {K : Type} [LinearOrderedField K]

/-- Exact arithmetic as machine arithmetic: no operation rounds and every result is
finite; `sqrt` is the one of the math library `m`. -/
def FloatOps.exact (m : CMath K) : FloatOps K where
  fadd a b := some (a + b)
  fsub a b := some (a - b)
  fmul a b := some (a * b)
  dmul a b := some (a * b)
  ddiv a b := some (a / b)
  toFloat a := some a
  sqrt a := some (m.sqrt a)

/-- The distance from a server to a point as the two scans compute it,
`(server.getPosition() - point).length()` in machine arithmetic; `none` when it is not
finite. -/
def serverDistance (f : FloatOps K) (point : Vector2D K) (s : Server K) : Option K :=
  (Vector2D.subF f s.getPosition point).bind (Vector2D.lengthF f)

/-- The colour `getColorForPoint` makes from the colour `c` of a server chosen at a
given distance: `c.setHsl(c.hue(), c.saturation(), qBound(0, l, 255))`, with `l` the
value of `c.lightness()` raised by 20 within distance 50 and lowered by 10 otherwise. -/
def shadedColor (q : QtColor) (c : QColor) (distance : K) : QColor :=
  q.setHsl c (q.hue c) (q.saturation c)
    (qBound 0 (if distance < 50 then q.lightness c + 20 else q.lightness c - 10) 255)

/-- The common shape of the two distance scans, one iteration: a server whose distance
`dist s` is finite and below the least distance so far replaces it, with the colour
`g s d`. -/
def scanWith {S C : Type} (dist : S → Option K) (g : S → K → C) (st : WithTop K × C)
    (s : S) : WithTop K × C :=
  match dist s with
  | none => st
  | some d => if (d : WithTop K) < st.1 then ((d : WithTop K), g s d) else st

/-- Rounding of a number to the nearest integer, a tie going to the even one. -/
def roundHalfEven [FloorRing K] (x : K) : ℤ :=
  if x - (⌊x⌋ : K) < 1 / 2 then ⌊x⌋
  else if 1 / 2 < x - (⌊x⌋ : K) then ⌊x⌋ + 1
  else if ⌊x⌋ % 2 = 0 then ⌊x⌋ else ⌊x⌋ + 1

/-- Rounding of a number to the binary floating-point format of precision `p` and
exponent range `emin .. emax` (IEEE 754, rounding to nearest, ties to even): 0 stays 0;
otherwise `x` is rounded to a multiple of `2 ^ (e - (p - 1))`, where `e` is the exponent
of `x` (the `e` with `2 ^ e <= |x| < 2 ^ (e + 1)`), or `emin` for a subnormal `x`; the
result is `none`, an infinity, when the rounded magnitude reaches `2 ^ (emax + 1)`. -/
def roundTo [FloorRing K] (p : ℕ) (emin emax : ℤ) (x : K) : Option K :=
  if x = 0 then some 0
  else if |(roundHalfEven (x / (2 : K) ^ (max (Int.log 2 |x|) emin - ((p : ℤ) - 1))) : K)
        * (2 : K) ^ (max (Int.log 2 |x|) emin - ((p : ℤ) - 1))| < (2 : K) ^ (emax + 1) then
    some ((roundHalfEven (x / (2 : K) ^ (max (Int.log 2 |x|) emin - ((p : ℤ) - 1))) : K)
        * (2 : K) ^ (max (Int.log 2 |x|) emin - ((p : ℤ) - 1)))
  else none

/-- Rounding to `float`: IEEE 754 binary32, precision 24, exponents -126 .. 127. -/
def binary32 [FloorRing K] (x : K) : Option K := roundTo 24 (-126) 127 x

/-- Rounding to `double`: IEEE 754 binary64, precision 53, exponents -1022 .. 1023. -/
def binary64 [FloorRing K] (x : K) : Option K := roundTo 53 (-1022) 1023 x

/-- The velocity that `Drone::update` assigns to `V` in cruise, before the arrival and
low-power tests: `damp * V + (maxPower * dt / distance) * toGoal + dt * ForceCollision`. -/
def Drone.cruiseV (m : CMath K) (d : Drone K) (dt : K) : Vector2D K :=
  ((Vector2D.smul (1 - dt * (1 - Drone.damping)) d.V).add
    (Vector2D.smul (Drone.maxPower * dt / (d.goalPosition.sub d.position).length m)
      (d.goalPosition.sub d.position))).add (Vector2D.smul dt d.ForceCollision)

/-- The azimuth that `Drone::update` assigns in cruise, from the velocity `v` just
computed: the `if` cascade on `Vn = (1.0 / speed) * V` with `speed = V.length()`. -/
def Drone.cruiseAzimut (m : CMath K) (v : Vector2D K) : K :=
  if (Vector2D.smul (1 / v.length m) v).y = 0 then
    if (Vector2D.smul (1 / v.length m) v).x > 0 then -90 else 90
  else if (Vector2D.smul (1 / v.length m) v).y > 0 then
    180 - 180 * m.atan ((Vector2D.smul (1 / v.length m) v).x
      / (Vector2D.smul (1 / v.length m) v).y) / m.pi
  else
    -180 * m.atan ((Vector2D.smul (1 / v.length m) v).x
      / (Vector2D.smul (1 / v.length m) v).y) / m.pi

/-- The condition under which a cruise `update` ends in landing: the low-power test or
the arrival test (distance to goal below 1 and new speed below 10). -/
def Drone.cruiseLands (m : CMath K) (d : Drone K) (dt : K) : Prop :=
  d.power - dt * Drone.powerConsumption < 22 ∨
    ((d.goalPosition.sub d.position).length m < 1 ∧ (Drone.cruiseV m d dt).length m < 10)

instance Drone.cruiseLands.instDecidable (m : CMath K) (d : Drone K) (dt : K) :
    Decidable (Drone.cruiseLands m d dt) := by
  unfold Drone.cruiseLands
  exact inferInstance

/-- The divisors of the divisions that `Drone::update` evaluates without any test: in
cruise `distance` (in `maxPower * dt / distance`) and the new `speed` (in `1.0 / speed`);
none in the other branches. -/
def Drone.updateDivisors (m : CMath K) (d : Drone K) (dt : K) : List K :=
  if d.status = .landed ∨ d.status = .takeoff ∨ d.status = .landing then []
  else [(d.goalPosition.sub d.position).length m, (Drone.cruiseV m d dt).length m]

/-- The per-sub-step time of a tick of `MainWindow::update`:
`(current - last) / (1000.0 * steps)`. -/
def MainWindow.tickDt (st : MainWindow.State K) (current : Int) : K :=
  ((current - st.last : Int) : K) / (1000 * (st.steps : K))

/-- The simulator state after a sequence of ticks, each given by its `current` time and
its measured duration `d`. -/
def MainWindow.run (m : CMath K) (servers : List (Server K)) (st : MainWindow.State K)
    (ticks : List (Int × Int)) : MainWindow.State K :=
  ticks.foldl (fun st t => MainWindow.update m servers st t.1 t.2) st

/-- The rest invariant of a drone: in the statuses landed, takeoff and landing the
velocity is (0, 0) and the speed is 0. -/
def Drone.restInvariant (d : Drone K) : Prop :=
  (d.status = .landed ∨ d.status = .takeoff ∨ d.status = .landing) →
    d.V = ⟨0, 0⟩ ∧ d.speed = 0

/-- What acts on the drones of the simulator: a sub-step of a tick, with its `dt`, or a
mouse press at a position. -/
inductive SimEvent (K : Type) where
  | subStep (dt : K)
  | mousePress (pos : Vector2D K)

/-- The drones after one event. -/
def MainWindow.applyEvent (m : CMath K) (servers : List (Server K))
    (mapDrones : List (Drone K)) : SimEvent K → List (Drone K)
  | .subStep dt => MainWindow.subStep m servers dt mapDrones
  | .mousePress pos => Canvas.mousePressEvent mapDrones pos

/-- The drones after a sequence of events. -/
def MainWindow.reach (m : CMath K) (servers : List (Server K))
    (mapDrones : List (Drone K)) (events : List (SimEvent K)) : List (Drone K) :=
  events.foldl (MainWindow.applyEvent m servers) mapDrones

/-- The state after `k` calls of `update(dt)`. -/
def Drone.updates (m : CMath K) (dt : K) (k : Nat) (d : Drone K) : Drone K :=
  (fun s => Drone.update m s dt)^[k] d

end SpecVocabulary

/-! ## Concrete data for the closed examples -/

/-- The real-number math library: `sqrt`, `atan` and `M_PI` as the real square root,
arctangent and π. It is data for the closed examples over `ℝ`, not part of the program. -/
noncomputable def realMath : CMath ℝ := ⟨Real.sqrt, Real.arctan, Real.pi⟩

/-- IEEE 754 arithmetic over the reals: every `float` operation is the exact operation
rounded to binary32, every `double` operation the exact operation rounded to binary64;
a division by zero is not finite, nor is the square root of a negative number. It is
data for the closed examples, not part of the program. -/
noncomputable def ieee : FloatOps ℝ where
  fadd a b := binary32 (a + b)
  fsub a b := binary32 (a - b)
  fmul a b := binary32 (a * b)
  dmul a b := binary64 (a * b)
  ddiv a b := if b = 0 then none else binary64 (a / b)
  toFloat a := binary32 a
  sqrt a := if a < 0 then none else binary64 (Real.sqrt a)

/-- The operations of Qt on the colours of the closed examples: `setHsl` makes the colour
of the HSL components it is given; `hue()` is 0 for pure red and for `#804040`, 240 for
pure blue; `saturation()` is 255 for pure red and pure blue, 128 for `#804040`;
`lightness()` is 128 for pure red and pure blue, 96 for `#804040`. The entries for the
other colours are read by no example. -/
def qtSample : QtColor where
  hue c := if c = .rgb 0 0 255 then 240
    else if c = .rgb 255 0 0 ∨ c = .rgb 128 64 64 then 0 else -1
  saturation c := if c = .rgb 255 0 0 ∨ c = .rgb 0 0 255 then 255
    else if c = .rgb 128 64 64 then 128 else 0
  lightness c := if c = .rgb 255 0 0 ∨ c = .rgb 0 0 255 then 128
    else if c = .rgb 128 64 64 then 96 else 0
  setHsl _ h s l := .hsl h s l

/-- Server `A` of the two-server scenario: at (0, 0), red. -/
def serverA : Server ℝ := ⟨"A", ⟨0, 0⟩, .rgb 255 0 0⟩

/-- Server `B` of the two-server scenario: at (100, 0), blue. -/
def serverB : Server ℝ := ⟨"B", ⟨100, 0⟩, .rgb 0 0 255⟩

/-- Server `P` of the rounding scenario: at (4097, 1), red. -/
def serverP : Server ℝ := ⟨"P", ⟨4097, 1⟩, .rgb 255 0 0⟩

/-- Server `Q` of the rounding scenario: at (4097, 0), blue. -/
def serverQ : Server ℝ := ⟨"Q", ⟨4097, 0⟩, .rgb 0 0 255⟩

/-- Server `C` of the colour scenario: at (0, 0), of the colour `#804040`. -/
def serverC : Server ℝ := ⟨"C", ⟨0, 0⟩, .rgb 128 64 64⟩

/-- Server `F` of the overflow scenario: at (2 ^ 65, 0), red. The coordinate
36893488147419103232 is a `float`; its square, 2 ^ 130, is beyond the greatest one. -/
def serverF : Server ℝ := ⟨"F", ⟨36893488147419103232, 0⟩, .rgb 255 0 0⟩

/-- A drone in cruise: hovering at the hovering height over (50, 50), at rest, with its
goal at (550, 600) and power 100. -/
def hoveringDrone : Drone ℚ :=
  { Drone.new "d1" 0 0 with status := .hovering, height := 5 }

/-- A newly constructed drone, with 0 for the two members the constructor leaves unset. -/
def landedDrone : Drone ℚ := Drone.new "d1" 0 0

/-- A hovering drone with power 19.9, otherwise as constructed. -/
noncomputable def lowPowerDrone : Drone ℝ :=
  { Drone.new "d1" 5 0 with status := .hovering, power := 199 / 10 }

/-- A hovering drone at rest at (0, 0), half a unit away from its goal (1/2, 0), with
power 100 and no collision force. -/
noncomputable def nearGoalDrone : Drone ℝ :=
  { Drone.new "d1" 5 0 with status := .hovering, position := ⟨0, 0⟩, goalPosition := ⟨1 / 2, 0⟩ }

/-- A hovering drone over the reals with a given name and position, otherwise as
constructed: at rest, power 100, no collision force, azimut 0, goal (550, 600). -/
noncomputable def hoverAt (n : String) (pos : Vector2D ℝ) : Drone ℝ :=
  { Drone.new n 5 0 with status := .hovering, position := pos }

/-- A hovering drone at rest at (0, 0) with its goal at (0, 10), straight along +y, with
power 100, no collision force and azimut 0. -/
noncomputable def plusYDrone : Drone ℝ :=
  { hoverAt "d1" ⟨0, 0⟩ with goalPosition := ⟨0, 10⟩ }

/-- Two newly constructed drones: `d1` with the target server "A", `d2` with the target
server "Z". -/
noncomputable def goalFleet : List (Drone ℝ) :=
  [(Drone.new "d1" 0 0).setTargetServer "A", (Drone.new "d2" 0 0).setTargetServer "Z"]

/-! ## Lemmas on the two distance scans -/

section ScanLemmas

variable {K : Type} [LinearOrderedField K] {S C : Type}

theorem scanWith_of_none (dist : S → Option K) (g : S → K → C) (st : WithTop K × C) (s : S)
    (h : dist s = none) : scanWith dist g st s = st := by
  unfold scanWith
  rw [h]

theorem scanWith_of_lt (dist : S → Option K) (g : S → K → C) (st : WithTop K × C) (s : S)
    (d : K) (h : dist s = some d) (hlt : (↑d : WithTop K) < st.1) :
    scanWith dist g st s = ((↑d : WithTop K), g s d) := by
  unfold scanWith
  rw [h]
  exact if_pos hlt

theorem scanWith_of_not_lt (dist : S → Option K) (g : S → K → C) (st : WithTop K × C)
    (s : S) (d : K) (h : dist s = some d) (hlt : ¬ (↑d : WithTop K) < st.1) :
    scanWith dist g st s = st := by
  unfold scanWith
  rw [h]
  exact if_neg hlt

/-- A scan over servers none of which has a finite distance below the current minimum
leaves the state as it is. -/
theorem scanWith_keep (dist : S → Option K) (g : S → K → C) (l : List S) :
    ∀ st : WithTop K × C,
      (∀ t ∈ l, ∀ e : K, dist t = some e → ¬ (↑e : WithTop K) < st.1) →
      l.foldl (scanWith dist g) st = st := by
  induction l with
  | nil => intro st _; rfl
  | cons a rest ih =>
    intro st h
    rw [List.foldl_cons]
    have hstep : scanWith dist g st a = st := by
      cases hd : dist a with
      | none => exact scanWith_of_none dist g st a hd
      | some e =>
        exact scanWith_of_not_lt dist g st a e hd (h a (List.mem_cons_self a rest) e hd)
    rw [hstep]
    exact ih st (fun t ht => h t (List.mem_cons_of_mem a ht))

/-- A scan over servers whose finite distances all exceed `d` keeps the minimum above
`d`. -/
theorem scanWith_above (dist : S → Option K) (g : S → K → C) (d : K) (l : List S) :
    ∀ st : WithTop K × C, (↑d : WithTop K) < st.1 →
      (∀ t ∈ l, ∀ e : K, dist t = some e → d < e) →
      (↑d : WithTop K) < (l.foldl (scanWith dist g) st).1 := by
  induction l with
  | nil => intro st hst _; exact hst
  | cons a rest ih =>
    intro st hst h
    rw [List.foldl_cons]
    apply ih _ _ (fun t ht => h t (List.mem_cons_of_mem a ht))
    cases hd : dist a with
    | none => rw [scanWith_of_none dist g st a hd]; exact hst
    | some e =>
      by_cases hlt : (↑e : WithTop K) < st.1
      · rw [scanWith_of_lt dist g st a e hd hlt]
        exact WithTop.coe_lt_coe.mpr (h a (List.mem_cons_self a rest) e hd)
      · rw [scanWith_of_not_lt dist g st a e hd hlt]; exact hst

/-- A scan across a server at finite distance `d`, below the starting minimum, with every
finite distance before it above `d` and every finite distance after it at least `d`, ends
on that server. -/
theorem scanWith_split (dist : S → Option K) (g : S → K → C) (pre : List S) (s : S)
    (post : List S) (d : K) (st : WithTop K × C) (hst : (↑d : WithTop K) < st.1)
    (hd : dist s = some d)
    (hpre : ∀ t ∈ pre, ∀ e : K, dist t = some e → d < e)
    (hpost : ∀ t ∈ post, ∀ e : K, dist t = some e → d ≤ e) :
    (pre ++ s :: post).foldl (scanWith dist g) st = ((↑d : WithTop K), g s d) := by
  rw [List.foldl_append, List.foldl_cons,
    scanWith_of_lt dist g _ s d hd (scanWith_above dist g d pre st hst hpre)]
  apply scanWith_keep
  intro t ht e he
  exact not_lt.mpr (WithTop.coe_le_coe.mpr (hpost t ht e he))

/-- A list that holds a server at finite distance splits at the first server of least
finite distance. -/
theorem exists_least_split (dist : S → Option K) (l : List S) :
    (∃ t ∈ l, dist t ≠ none) →
    ∃ (pre : List S) (s : S) (post : List S) (d : K),
      l = pre ++ s :: post ∧ dist s = some d ∧
      (∀ t ∈ pre, ∀ e : K, dist t = some e → d < e) ∧
      (∀ t ∈ post, ∀ e : K, dist t = some e → d ≤ e) := by
  induction l with
  | nil => intro h; obtain ⟨t, ht, _⟩ := h; cases ht
  | cons a rest ih =>
    intro h
    by_cases hr : ∃ t ∈ rest, dist t ≠ none
    · obtain ⟨pre, s, post, d, hl, hd, hpre, hpost⟩ := ih hr
      have hall : ∀ t ∈ rest, ∀ e : K, dist t = some e → d ≤ e := by
        intro t ht e he
        rw [hl] at ht
        rcases List.mem_append.mp ht with h1 | h1
        · exact le_of_lt (hpre t h1 e he)
        · rcases List.mem_cons.mp h1 with h2 | h2
          · rw [h2, hd] at he
            exact le_of_eq (Option.some.inj he)
          · exact hpost t h2 e he
      cases ha : dist a with
      | none =>
        refine ⟨a :: pre, s, post, d, by rw [hl]; rfl, hd, ?_, hpost⟩
        intro t ht e he
        rcases List.mem_cons.mp ht with h1 | h1
        · rw [h1, ha] at he; cases he
        · exact hpre t h1 e he
      | some c =>
        by_cases hc : c ≤ d
        · refine ⟨[], a, rest, c, rfl, ha, (fun t ht => by cases ht), ?_⟩
          intro t ht e he
          exact le_trans hc (hall t ht e he)
        · refine ⟨a :: pre, s, post, d, by rw [hl]; rfl, hd, ?_, hpost⟩
          intro t ht e he
          rcases List.mem_cons.mp ht with h1 | h1
          · rw [h1, ha] at he
            rw [← Option.some.inj he]
            exact not_le.mp hc
          · exact hpre t h1 e he
    · have hnone : ∀ t ∈ rest, dist t = none := by
        intro t ht
        by_contra hne
        exact hr ⟨t, ht, hne⟩
      obtain ⟨t, ht, hne⟩ := h
      have hta : t = a := by
        rcases List.mem_cons.mp ht with h1 | h1
        · exact h1
        · exact absurd (hnone t h1) hne
      rw [hta] at hne
      cases ha : dist a with
      | none => exact absurd ha hne
      | some c =>
        refine ⟨[], a, rest, c, rfl, ha, (fun t ht => by cases ht), ?_⟩
        intro t ht e he
        rw [hnone t ht] at he
        cases he

/-- The loop body of `Voronoi::getColorForPoint` is a scan step with the shaded colour. -/
theorem scanStep_eq_scanWith (f : FloatOps K) (q : QtColor) (point : Vector2D K) :
    Voronoi.scanStep f q point
      = scanWith (serverDistance f point) (fun s d => shadedColor q s.getColor d) := by
  funext st s
  unfold Voronoi.scanStep scanWith serverDistance shadedColor
  rfl

/-- The loop body of `Canvas::generateVoronoiImage` is a scan step with the colour of the
server as it is. -/
theorem pixelStep_eq_scanWith (f : FloatOps K) (point : Vector2D K) :
    Canvas.pixelStep f point
      = scanWith (serverDistance f point) (fun s _ => s.getColor) := by
  funext st s
  unfold Canvas.pixelStep scanWith serverDistance
  rfl

/-- The result of `Voronoi::getColorForPoint` when no server has a finite distance. -/
theorem getColorForPoint_of_none (f : FloatOps K) (q : QtColor) (servers : List (Server K))
    (point : Vector2D K) (h : ∀ t ∈ servers, serverDistance f point t = none) :
    Voronoi.getColorForPoint f q servers point = QColor.invalid := by
  unfold Voronoi.getColorForPoint
  rw [scanStep_eq_scanWith, scanWith_keep]
  intro t ht e he
  rw [h t ht] at he
  cases he

/-- The result of `Voronoi::getColorForPoint` on a list split at the first server of
least finite distance. -/
theorem getColorForPoint_of_split (f : FloatOps K) (q : QtColor) (point : Vector2D K)
    (pre : List (Server K)) (s : Server K) (post : List (Server K)) (d : K)
    (hd : serverDistance f point s = some d)
    (hpre : ∀ t ∈ pre, ∀ e : K, serverDistance f point t = some e → d < e)
    (hpost : ∀ t ∈ post, ∀ e : K, serverDistance f point t = some e → d ≤ e) :
    Voronoi.getColorForPoint f q (pre ++ s :: post) point = shadedColor q s.getColor d := by
  unfold Voronoi.getColorForPoint
  rw [scanStep_eq_scanWith,
    scanWith_split _ _ pre s post d _ (WithTop.coe_lt_top d) hd hpre hpost]

/-- The pixel of `Canvas::generateVoronoiImage` when no server has a finite distance. -/
theorem pixelColor_of_none (f : FloatOps K) (servers : List (Server K))
    (point : Vector2D K) (h : ∀ t ∈ servers, serverDistance f point t = none) :
    Canvas.pixelColor f servers point = QColor.white := by
  unfold Canvas.pixelColor
  rw [pixelStep_eq_scanWith, scanWith_keep]
  intro t ht e he
  rw [h t ht] at he
  cases he

/-- The pixel of `Canvas::generateVoronoiImage` on a list split at the first server of
least finite distance. -/
theorem pixelColor_of_split (f : FloatOps K) (point : Vector2D K)
    (pre : List (Server K)) (s : Server K) (post : List (Server K)) (d : K)
    (hd : serverDistance f point s = some d)
    (hpre : ∀ t ∈ pre, ∀ e : K, serverDistance f point t = some e → d < e)
    (hpost : ∀ t ∈ post, ∀ e : K, serverDistance f point t = some e → d ≤ e) :
    Canvas.pixelColor f (pre ++ s :: post) point = s.getColor := by
  unfold Canvas.pixelColor
  rw [pixelStep_eq_scanWith,
    scanWith_split _ _ pre s post d _ (WithTop.coe_lt_top d) hd hpre hpost]

/-- In exact arithmetic the computed distance is the Euclidean distance, and is finite. -/
theorem serverDistance_exact (m : CMath K) (point : Vector2D K) (s : Server K) :
    serverDistance (FloatOps.exact m) point s = some ((s.getPosition.sub point).length m) :=
  rfl

end ScanLemmas

/-! ## IEEE 754 rounding, evaluated -/

section Rounding

variable {K : Type} [LinearOrderedField K] [FloorRing K]

/-- A number within distance 1/2 of an integer rounds to it. -/
theorem roundHalfEven_of_abs_lt (x : K) (n : ℤ) (h : |x - (n : K)| < 1 / 2) :
    roundHalfEven x = n := by
  rw [abs_lt] at h
  obtain ⟨h1, h2⟩ := h
  unfold roundHalfEven
  by_cases hx : (n : K) ≤ x
  · have hf : ⌊x⌋ = n := Int.floor_eq_iff.mpr ⟨hx, by linarith⟩
    rw [hf, if_pos h2]
  · have hx2 : x < (n : K) := not_le.mp hx
    have hf : ⌊x⌋ = n - 1 := Int.floor_eq_iff.mpr ⟨by push_cast; linarith, by push_cast; linarith⟩
    rw [hf]
    have c1 : ¬ (x - ((n - 1 : ℤ) : K) < 1 / 2) := by push_cast; linarith
    have c2 : (1 / 2 : K) < x - ((n - 1 : ℤ) : K) := by push_cast; linarith
    rw [if_neg c1, if_pos c2]
    ring

/-- A tie just above an even integer rounds down to it. -/
theorem roundHalfEven_tie_floor (x : K) (n : ℤ) (h : x = (n : K) + 1 / 2) (he : n % 2 = 0) :
    roundHalfEven x = n := by
  have hf : ⌊x⌋ = n := Int.floor_eq_iff.mpr ⟨by rw [h]; linarith, by rw [h]; linarith⟩
  unfold roundHalfEven
  rw [hf]
  have c1 : ¬ (x - (n : K) < 1 / 2) := by rw [h]; simp
  have c2 : ¬ ((1 / 2 : K) < x - (n : K)) := by rw [h]; simp
  rw [if_neg c1, if_neg c2, if_pos he]

/-- A tie just below an even integer rounds up to it. -/
theorem roundHalfEven_tie_ceil (x : K) (n : ℤ) (h : x = (n : K) - 1 / 2) (he : n % 2 = 0) :
    roundHalfEven x = n := by
  have hf : ⌊x⌋ = n - 1 :=
    Int.floor_eq_iff.mpr ⟨by rw [h]; push_cast; linarith, by rw [h]; push_cast; linarith⟩
  unfold roundHalfEven
  rw [hf]
  have c1 : ¬ (x - ((n - 1 : ℤ) : K) < 1 / 2) := by rw [h]; push_cast; linarith
  have c2 : ¬ ((1 / 2 : K) < x - ((n - 1 : ℤ) : K)) := by rw [h]; push_cast; linarith
  have c3 : ¬ ((n - 1) % 2 = 0) := by omega
  rw [if_neg c1, if_neg c2, if_neg c3]
  ring

/-- The exponent of a positive number caught between two consecutive powers of two. -/
theorem log_two_eq (x : K) (e : ℤ) (h1 : (2 : K) ^ e ≤ x) (h2 : x < (2 : K) ^ (e + 1)) :
    Int.log 2 x = e := by
  have hpos : (0 : K) < x := lt_of_lt_of_le (zpow_pos (by norm_num) e) h1
  have a : e ≤ Int.log 2 x :=
    (Int.zpow_le_iff_le_log (by norm_num) hpos).mp (by exact_mod_cast h1)
  have b : Int.log 2 x < e + 1 :=
    (Int.lt_zpow_iff_log_lt (by norm_num) hpos).mp (by exact_mod_cast h2)
  omega

/-- The value of `roundTo` on a number of known exponent `e`, at least `emin`, from the
rounding `n` of its quotient by the spacing `2 ^ (e - (p - 1))`. -/
theorem roundTo_eq (p : ℕ) (emin emax : ℤ) (x : K) (e n : ℤ)
    (h1 : (2 : K) ^ e ≤ |x|) (h2 : |x| < (2 : K) ^ (e + 1)) (hemin : emin ≤ e)
    (hr : roundHalfEven (x / (2 : K) ^ (e - ((p : ℤ) - 1))) = n)
    (hmax : |(n : K) * (2 : K) ^ (e - ((p : ℤ) - 1))| < (2 : K) ^ (emax + 1)) :
    roundTo p emin emax x = some ((n : K) * (2 : K) ^ (e - ((p : ℤ) - 1))) := by
  have hx : x ≠ 0 := by
    intro h0
    rw [h0, abs_zero] at h1
    exact absurd h1 (not_le.mpr (zpow_pos (by norm_num) e))
  have hlog : Int.log 2 |x| = e := log_two_eq |x| e h1 h2
  unfold roundTo
  rw [if_neg hx, hlog, max_eq_left hemin, hr, if_pos hmax]

/-- The value of `roundTo` on a number of known exponent `e`, at least `emin`, whose
rounded magnitude reaches `2 ^ (emax + 1)`: an infinity. -/
theorem roundTo_overflow (p : ℕ) (emin emax : ℤ) (x : K) (e n : ℤ)
    (h1 : (2 : K) ^ e ≤ |x|) (h2 : |x| < (2 : K) ^ (e + 1)) (hemin : emin ≤ e)
    (hr : roundHalfEven (x / (2 : K) ^ (e - ((p : ℤ) - 1))) = n)
    (hmax : (2 : K) ^ (emax + 1) ≤ |(n : K) * (2 : K) ^ (e - ((p : ℤ) - 1))|) :
    roundTo p emin emax x = none := by
  have hx : x ≠ 0 := by
    intro h0
    rw [h0, abs_zero] at h1
    exact absurd h1 (not_le.mpr (zpow_pos (by norm_num) e))
  have hlog : Int.log 2 |x| = e := log_two_eq |x| e h1 h2
  unfold roundTo
  rw [if_neg hx, hlog, max_eq_left hemin, hr, if_neg (not_lt.mpr hmax)]

/-- An integer of magnitude below `2 ^ p` is a number of the format: rounding leaves it
as it is. -/
theorem roundTo_intCast (p : ℕ) (emin emax : ℤ) (z : ℤ) (hz : |z| < 2 ^ p)
    (hemin : emin ≤ 0) (hemax : (p : ℤ) ≤ emax + 1) :
    roundTo p emin emax (z : K) = some (z : K) := by
  by_cases h0 : z = 0
  · subst h0
    unfold roundTo
    simp
  have hzK : |(z : K)| = ((|z| : ℤ) : K) := by push_cast; rfl
  have hone : (1 : K) ≤ |(z : K)| := by
    rw [hzK]
    have : (1 : ℤ) ≤ |z| := Int.one_le_abs h0
    exact_mod_cast this
  have hpos : (0 : K) < |(z : K)| := lt_of_lt_of_le one_pos hone
  have hlt : |(z : K)| < (2 : K) ^ (p : ℤ) := by
    rw [hzK, zpow_natCast]
    exact_mod_cast hz
  have h1 : (2 : K) ^ Int.log 2 |(z : K)| ≤ |(z : K)| := by
    have := Int.zpow_log_le_self (b := 2) (by norm_num) hpos
    exact_mod_cast this
  have h2 : |(z : K)| < (2 : K) ^ (Int.log 2 |(z : K)| + 1) := by
    have := Int.lt_zpow_succ_log_self (b := 2) (by norm_num) |(z : K)|
    exact_mod_cast this
  have he0 : 0 ≤ Int.log 2 |(z : K)| :=
    (Int.zpow_le_iff_le_log (b := 2) (by norm_num) hpos).mp (by simpa using hone)
  have hep : Int.log 2 |(z : K)| < (p : ℤ) :=
    (Int.lt_zpow_iff_log_lt (b := 2) (by norm_num) hpos).mp (by exact_mod_cast hlt)
  generalize Int.log 2 |(z : K)| = e at h1 h2 he0 hep
  obtain ⟨k, hk⟩ : ∃ k : ℕ, (k : ℤ) = (p : ℤ) - 1 - e := ⟨((p : ℤ) - 1 - e).toNat, by omega⟩
  have hq : (2 : K) ^ (e - ((p : ℤ) - 1)) = ((2 : K) ^ k)⁻¹ := by
    have : e - ((p : ℤ) - 1) = -(k : ℤ) := by omega
    rw [this, zpow_neg, zpow_natCast]
  have hk0 : (0 : K) < (2 : K) ^ k := pow_pos (by norm_num) k
  have hquot : (z : K) / (2 : K) ^ (e - ((p : ℤ) - 1)) = ((z * 2 ^ k : ℤ) : K) := by
    rw [hq, div_inv_eq_mul]
    push_cast
    ring
  have hval : ((z * 2 ^ k : ℤ) : K) * (2 : K) ^ (e - ((p : ℤ) - 1)) = (z : K) := by
    rw [hq]
    push_cast
    field_simp
  have h := roundTo_eq p emin emax (z : K) e (z * 2 ^ k) h1 h2 (le_trans hemin he0)
    (by rw [hquot]; exact roundHalfEven_of_abs_lt _ _ (by simp))
    (by
      rw [hval]
      refine lt_of_lt_of_le hlt ?_
      exact zpow_le_zpow_right₀ (by norm_num) hemax)
  rw [h, hval]

end Rounding

section RoundingReal

/-- A real number that is an integer of magnitude below `2 ^ 24` is a `float`. -/
theorem binary32_int (x : ℝ) (z : ℤ) (hx : x = (z : ℝ)) (hz : |z| < 2 ^ 24) :
    binary32 x = some x := by
  rw [hx]
  exact roundTo_intCast 24 (-126) 127 z hz (by norm_num) (by norm_num)

/-- A real number that is an integer of magnitude below `2 ^ 53` is a `double`. -/
theorem binary64_int (x : ℝ) (z : ℤ) (hx : x = (z : ℝ)) (hz : |z| < 2 ^ 53) :
    binary64 x = some x := by
  rw [hx]
  exact roundTo_intCast 53 (-1022) 1023 z hz (by norm_num) (by norm_num)

/-- The `sqrt` of IEEE 754 arithmetic on the square of an integer below `2 ^ 53`. -/
theorem ieee_sqrt_sq (x : ℝ) (z : ℤ) (hz0 : 0 ≤ z) (hz : |z| < 2 ^ 53)
    (hx : x = (z : ℝ) * (z : ℝ)) : ieee.sqrt x = some (z : ℝ) := by
  have hz0r : (0 : ℝ) ≤ (z : ℝ) := by exact_mod_cast hz0
  have hnn : ¬ x < 0 := by rw [hx]; exact not_lt.mpr (mul_self_nonneg _)
  show (if x < 0 then none else binary64 (Real.sqrt x)) = some (z : ℝ)
  rw [if_neg hnn, hx, Real.sqrt_mul_self hz0r]
  exact binary64_int _ z rfl hz

end RoundingReal

/-! ## The distances of the closed examples -/

section ExampleDistances

/-- Length of a real vector whose squared length is a known square. -/
theorem real_length_eq (x y l : ℝ) (hl : 0 ≤ l) (h : x * x + y * y = l * l) :
    (⟨x, y⟩ : Vector2D ℝ).length realMath = l := by
  unfold Vector2D.length realMath
  simp only
  rw [h]
  exact Real.sqrt_mul_self hl

/-- The distance computed in IEEE 754 arithmetic when both coordinate differences are
integers, their squares and the sum of the squares are below `2 ^ 24`, and that sum is
the square of an integer: no operation rounds. -/
theorem ieee_distance_int (s : Server ℝ) (point : Vector2D ℝ) (dx dy l : ℤ)
    (hx : s.position.x - point.x = (dx : ℝ)) (hy : s.position.y - point.y = (dy : ℝ))
    (hdx : |dx| < 2 ^ 24) (hdy : |dy| < 2 ^ 24)
    (hxx : |dx * dx| < 2 ^ 24) (hyy : |dy * dy| < 2 ^ 24)
    (hsum : |dx * dx + dy * dy| < 2 ^ 24)
    (hl : 0 ≤ l) (hl2 : |l| < 2 ^ 53) (hsq : dx * dx + dy * dy = l * l) :
    serverDistance ieee point s = some (l : ℝ) := by
  have e1 : ieee.fsub s.position.x point.x = some (dx : ℝ) := by
    show binary32 (s.position.x - point.x) = _
    rw [hx]
    exact binary32_int _ dx rfl hdx
  have e2 : ieee.fsub s.position.y point.y = some (dy : ℝ) := by
    show binary32 (s.position.y - point.y) = _
    rw [hy]
    exact binary32_int _ dy rfl hdy
  have e3 : ieee.fmul (dx : ℝ) (dx : ℝ) = some ((dx * dx : ℤ) : ℝ) := by
    show binary32 ((dx : ℝ) * (dx : ℝ)) = _
    have h : (dx : ℝ) * (dx : ℝ) = ((dx * dx : ℤ) : ℝ) := by push_cast; rfl
    rw [h]
    exact binary32_int _ (dx * dx) rfl hxx
  have e4 : ieee.fmul (dy : ℝ) (dy : ℝ) = some ((dy * dy : ℤ) : ℝ) := by
    show binary32 ((dy : ℝ) * (dy : ℝ)) = _
    have h : (dy : ℝ) * (dy : ℝ) = ((dy * dy : ℤ) : ℝ) := by push_cast; rfl
    rw [h]
    exact binary32_int _ (dy * dy) rfl hyy
  have e5 : ieee.fadd ((dx * dx : ℤ) : ℝ) ((dy * dy : ℤ) : ℝ)
      = some ((dx * dx + dy * dy : ℤ) : ℝ) := by
    show binary32 (((dx * dx : ℤ) : ℝ) + ((dy * dy : ℤ) : ℝ)) = _
    have h : ((dx * dx : ℤ) : ℝ) + ((dy * dy : ℤ) : ℝ) = ((dx * dx + dy * dy : ℤ) : ℝ) := by
      push_cast; rfl
    rw [h]
    exact binary32_int _ (dx * dx + dy * dy) rfl hsum
  have e6 : ieee.sqrt ((dx * dx + dy * dy : ℤ) : ℝ) = some (l : ℝ) :=
    ieee_sqrt_sq _ l hl hl2 (by rw [hsq]; push_cast; rfl)
  simp only [serverDistance, Vector2D.subF, Vector2D.lengthF, Server.getPosition, e1, e2,
    Option.some_bind, e3, e4, e5, e6]

theorem distance_A_10 : serverDistance ieee ⟨10, 0⟩ serverA = some 10 := by
  have h := ieee_distance_int serverA ⟨10, 0⟩ (-10) 0 10 (by norm_num [serverA])
    (by norm_num [serverA]) (by norm_num) (by norm_num) (by norm_num) (by norm_num)
    (by norm_num) (by norm_num) (by norm_num) (by norm_num)
  rw [h]; norm_num

theorem distance_B_10 : serverDistance ieee ⟨10, 0⟩ serverB = some 90 := by
  have h := ieee_distance_int serverB ⟨10, 0⟩ 90 0 90 (by norm_num [serverB])
    (by norm_num [serverB]) (by norm_num) (by norm_num) (by norm_num) (by norm_num)
    (by norm_num) (by norm_num) (by norm_num) (by norm_num)
  rw [h]; norm_num

theorem distance_A_90 : serverDistance ieee ⟨90, 0⟩ serverA = some 90 := by
  have h := ieee_distance_int serverA ⟨90, 0⟩ (-90) 0 90 (by norm_num [serverA])
    (by norm_num [serverA]) (by norm_num) (by norm_num) (by norm_num) (by norm_num)
    (by norm_num) (by norm_num) (by norm_num) (by norm_num)
  rw [h]; norm_num

theorem distance_B_90 : serverDistance ieee ⟨90, 0⟩ serverB = some 10 := by
  have h := ieee_distance_int serverB ⟨90, 0⟩ 10 0 10 (by norm_num [serverB])
    (by norm_num [serverB]) (by norm_num) (by norm_num) (by norm_num) (by norm_num)
    (by norm_num) (by norm_num) (by norm_num) (by norm_num)
  rw [h]; norm_num

theorem distance_A_50 : serverDistance ieee ⟨50, 0⟩ serverA = some 50 := by
  have h := ieee_distance_int serverA ⟨50, 0⟩ (-50) 0 50 (by norm_num [serverA])
    (by norm_num [serverA]) (by norm_num) (by norm_num) (by norm_num) (by norm_num)
    (by norm_num) (by norm_num) (by norm_num) (by norm_num)
  rw [h]; norm_num

theorem distance_B_50 : serverDistance ieee ⟨50, 0⟩ serverB = some 50 := by
  have h := ieee_distance_int serverB ⟨50, 0⟩ 50 0 50 (by norm_num [serverB])
    (by norm_num [serverB]) (by norm_num) (by norm_num) (by norm_num) (by norm_num)
    (by norm_num) (by norm_num) (by norm_num) (by norm_num)
  rw [h]; norm_num

theorem distance_C_10 : serverDistance ieee ⟨10, 0⟩ serverC = some 10 := by
  have h := ieee_distance_int serverC ⟨10, 0⟩ (-10) 0 10 (by norm_num [serverC])
    (by norm_num [serverC]) (by norm_num) (by norm_num) (by norm_num) (by norm_num)
    (by norm_num) (by norm_num) (by norm_num) (by norm_num)
  rw [h]; norm_num

/-- The product 4097 * 4097 = 16785409 lies halfway between the two `float` numbers
16785408 and 16785410 and rounds to the first, whose significand is even. -/
theorem binary32_16785409 : binary32 (16785409 : ℝ) = some 16785408 := by
  have h := roundTo_eq 24 (-126) 127 (16785409 : ℝ) 24 8392704 (by norm_num) (by norm_num)
    (by norm_num) (roundHalfEven_tie_floor _ _ (by norm_num) (by norm_num)) (by norm_num)
  unfold binary32
  rw [h]
  norm_num

/-- The number 16785408 is a `float`. -/
theorem binary32_16785408 : binary32 (16785408 : ℝ) = some 16785408 := by
  have h := roundTo_eq 24 (-126) 127 (16785408 : ℝ) 24 8392704 (by norm_num) (by norm_num)
    (by norm_num) (roundHalfEven_of_abs_lt _ _ (by norm_num)) (by norm_num)
  unfold binary32
  rw [h]
  norm_num

/-- The `double` nearest to the square root of 16785408. -/
theorem ieee_sqrt_16785408 :
    ieee.sqrt (16785408 : ℝ) = some (2252349502406651 / 549755813888) := by
  have hs0 : (0 : ℝ) ≤ Real.sqrt 16785408 := Real.sqrt_nonneg _
  have hlo : (4504699004813302 - 1 / 2 : ℝ) * (2 : ℝ) ^ (-40 : ℤ) < Real.sqrt 16785408 :=
    (Real.lt_sqrt (by norm_num)).mpr (by norm_num)
  have hhi : Real.sqrt 16785408 < (4504699004813302 + 1 / 2 : ℝ) * (2 : ℝ) ^ (-40 : ℤ) :=
    (Real.sqrt_lt' (by norm_num)).mpr (by norm_num)
  have h1 : (2 : ℝ) ^ (12 : ℤ) ≤ |Real.sqrt 16785408| := by
    rw [abs_of_nonneg hs0]
    exact (Real.le_sqrt (by norm_num) (by norm_num)).mpr (by norm_num)
  have h2 : |Real.sqrt 16785408| < (2 : ℝ) ^ ((12 : ℤ) + 1) := by
    rw [abs_of_nonneg hs0]
    exact (Real.sqrt_lt' (by norm_num)).mpr (by norm_num)
  have hr : roundHalfEven (Real.sqrt 16785408 / (2 : ℝ) ^ ((12 : ℤ) - (((53 : ℕ) : ℤ) - 1)))
      = 4504699004813302 := by
    apply roundHalfEven_of_abs_lt
    have hq : (2 : ℝ) ^ ((12 : ℤ) - (((53 : ℕ) : ℤ) - 1)) = (2 : ℝ) ^ (-40 : ℤ) := by norm_num
    rw [hq, abs_lt]
    have hpos : (0 : ℝ) < (2 : ℝ) ^ (-40 : ℤ) := zpow_pos (by norm_num) _
    constructor
    · rw [lt_sub_iff_add_lt, lt_div_iff₀ hpos]
      push_cast
      linarith
    · rw [sub_lt_iff_lt_add, div_lt_iff₀ hpos]
      push_cast
      linarith
  have hmax : |((4504699004813302 : ℤ) : ℝ) * (2 : ℝ) ^ ((12 : ℤ) - (((53 : ℕ) : ℤ) - 1))|
      < (2 : ℝ) ^ ((1023 : ℤ) + 1) := by
    have hnn : (0 : ℝ) ≤ ((4504699004813302 : ℤ) : ℝ)
        * (2 : ℝ) ^ ((12 : ℤ) - (((53 : ℕ) : ℤ) - 1)) := by positivity
    rw [abs_of_nonneg hnn]
    norm_num
  have h := roundTo_eq 53 (-1022) 1023 (Real.sqrt 16785408) 12 4504699004813302 h1 h2
    (by norm_num) hr hmax
  show (if (16785408 : ℝ) < 0 then none else binary64 (Real.sqrt 16785408)) = _
  rw [if_neg (by norm_num)]
  unfold binary64
  rw [h]
  norm_num

/-- The distance from (0, 0) to the server `P` at (4097, 1), as computed: the square
16785409 of 4097 rounds to 16785408, and adding the square 1 of the other coordinate
rounds to 16785408 again. -/
theorem distance_P : serverDistance ieee ⟨0, 0⟩ serverP
    = some (2252349502406651 / 549755813888) := by
  have e1 : ieee.fsub (4097 : ℝ) 0 = some 4097 := by
    show binary32 ((4097 : ℝ) - 0) = _
    rw [binary32_int _ 4097 (by norm_num) (by norm_num)]; norm_num
  have e2 : ieee.fsub (1 : ℝ) 0 = some 1 := by
    show binary32 ((1 : ℝ) - 0) = _
    rw [binary32_int _ 1 (by norm_num) (by norm_num)]; norm_num
  have e3 : ieee.fmul (4097 : ℝ) 4097 = some 16785408 := by
    show binary32 ((4097 : ℝ) * 4097) = _
    have h : (4097 : ℝ) * 4097 = 16785409 := by norm_num
    rw [h]; exact binary32_16785409
  have e4 : ieee.fmul (1 : ℝ) 1 = some 1 := by
    show binary32 ((1 : ℝ) * 1) = _
    rw [binary32_int _ 1 (by norm_num) (by norm_num)]; norm_num
  have e5 : ieee.fadd (16785408 : ℝ) 1 = some 16785408 := by
    show binary32 ((16785408 : ℝ) + 1) = _
    have h : (16785408 : ℝ) + 1 = 16785409 := by norm_num
    rw [h]; exact binary32_16785409
  simp only [serverDistance, Vector2D.subF, Vector2D.lengthF, Server.getPosition, serverP,
    e1, e2, Option.some_bind, e3, e4, e5, ieee_sqrt_16785408]

/-- The distance from (0, 0) to the server `Q` at (4097, 0), as computed: the same
number as for `P`. -/
theorem distance_Q : serverDistance ieee ⟨0, 0⟩ serverQ
    = some (2252349502406651 / 549755813888) := by
  have e1 : ieee.fsub (4097 : ℝ) 0 = some 4097 := by
    show binary32 ((4097 : ℝ) - 0) = _
    rw [binary32_int _ 4097 (by norm_num) (by norm_num)]; norm_num
  have e2 : ieee.fsub (0 : ℝ) 0 = some 0 := by
    show binary32 ((0 : ℝ) - 0) = _
    rw [binary32_int _ 0 (by norm_num) (by norm_num)]; norm_num
  have e3 : ieee.fmul (4097 : ℝ) 4097 = some 16785408 := by
    show binary32 ((4097 : ℝ) * 4097) = _
    have h : (4097 : ℝ) * 4097 = 16785409 := by norm_num
    rw [h]; exact binary32_16785409
  have e4 : ieee.fmul (0 : ℝ) 0 = some 0 := by
    show binary32 ((0 : ℝ) * 0) = _
    rw [binary32_int _ 0 (by norm_num) (by norm_num)]; norm_num
  have e5 : ieee.fadd (16785408 : ℝ) 0 = some 16785408 := by
    show binary32 ((16785408 : ℝ) + 0) = _
    have h : (16785408 : ℝ) + 0 = 16785408 := by norm_num
    rw [h]; exact binary32_16785408
  simp only [serverDistance, Vector2D.subF, Vector2D.lengthF, Server.getPosition, serverQ,
    e1, e2, Option.some_bind, e3, e4, e5, ieee_sqrt_16785408]

/-- The distance from (0, 0) to the server `F` at (2 ^ 65, 0), as computed: the `float`
square of the coordinate overflows, so the distance is not finite. -/
theorem distance_F : serverDistance ieee ⟨0, 0⟩ serverF = none := by
  have e1 : ieee.fsub (36893488147419103232 : ℝ) 0 = some 36893488147419103232 := by
    show binary32 ((36893488147419103232 : ℝ) - 0) = _
    have h := roundTo_eq 24 (-126) 127 (36893488147419103232 - 0 : ℝ) 65 8388608
      (by norm_num) (by norm_num) (by norm_num)
      (roundHalfEven_of_abs_lt _ _ (by norm_num)) (by norm_num)
    unfold binary32
    rw [h]
    norm_num
  have e2 : ieee.fsub (0 : ℝ) 0 = some 0 := by
    show binary32 ((0 : ℝ) - 0) = _
    rw [binary32_int _ 0 (by norm_num) (by norm_num)]; norm_num
  have e3 : ieee.fmul (36893488147419103232 : ℝ) 36893488147419103232 = none := by
    show binary32 ((36893488147419103232 : ℝ) * 36893488147419103232) = _
    exact roundTo_overflow 24 (-126) 127 _ 130 8388608 (by norm_num) (by norm_num)
      (by norm_num) (roundHalfEven_of_abs_lt _ _ (by norm_num)) (by norm_num)
  simp only [serverDistance, Vector2D.subF, Vector2D.lengthF, Server.getPosition, serverF,
    e1, e2, Option.some_bind, e3, Option.none_bind]

end ExampleDistances

/-! ## The classifier `Voronoi::getColorForPoint` -/

section Classifier

variable {K : Type} [LinearOrderedField K]

/-- The shaded colours of the closed examples. -/
theorem shadedColor_examples :
    shadedColor qtSample serverA.getColor (10 : ℝ) = QColor.hsl 0 255 148 ∧
    shadedColor qtSample serverB.getColor (10 : ℝ) = QColor.hsl 240 255 148 ∧
    shadedColor qtSample serverA.getColor (50 : ℝ) = QColor.hsl 0 255 118 ∧
    shadedColor qtSample serverP.getColor (2252349502406651 / 549755813888 : ℝ)
      = QColor.hsl 0 255 118 ∧
    shadedColor qtSample serverC.getColor (10 : ℝ) = QColor.hsl 0 128 116 := by
  refine ⟨?_, ?_, ?_, ?_, ?_⟩ <;>
    norm_num [shadedColor, qtSample, serverA, serverB, serverP, serverC, Server.getColor,
      qBound]

/-- C1, amended: the distance of a server is the one the code computes,
`(server.getPosition() - point).length()` in machine arithmetic (`serverDistance`, which
is `none` when the result is not finite). For every server list and every query point:
if no server has a finite distance (the empty list included), `getColorForPoint` returns
the default-constructed, invalid colour; otherwise the server whose colour it takes as
its base colour is the server of least index among those of least finite computed
distance: whenever the list splits at a server `s` of finite distance `d` with every
finite distance before it above `d` and every finite distance after it at least `d`, the
result is the colour of `s` shaded for distance `d`, and such a split exists as soon as
one server has a finite distance. In exact arithmetic the computed distance is the
Euclidean distance and is always finite. -/
theorem getColorForPoint_first_of_least_distance (f : FloatOps K) (q : QtColor)
    (servers : List (Server K)) (point : Vector2D K) :
    ((∀ t ∈ servers, serverDistance f point t = none) →
      Voronoi.getColorForPoint f q servers point = QColor.invalid) ∧
    (∀ (pre : List (Server K)) (s : Server K) (post : List (Server K)) (d : K),
      servers = pre ++ s :: post → serverDistance f point s = some d →
      (∀ t ∈ pre, ∀ e : K, serverDistance f point t = some e → d < e) →
      (∀ t ∈ post, ∀ e : K, serverDistance f point t = some e → d ≤ e) →
      Voronoi.getColorForPoint f q servers point = shadedColor q s.getColor d) ∧
    ((∃ t ∈ servers, serverDistance f point t ≠ none) →
      ∃ (pre : List (Server K)) (s : Server K) (post : List (Server K)) (d : K),
        servers = pre ++ s :: post ∧ serverDistance f point s = some d ∧
        (∀ t ∈ pre, ∀ e : K, serverDistance f point t = some e → d < e) ∧
        (∀ t ∈ post, ∀ e : K, serverDistance f point t = some e → d ≤ e)) ∧
    (∀ (m : CMath K) (s : Server K),
      serverDistance (FloatOps.exact m) point s
        = some ((s.getPosition.sub point).length m)) := by
  refine ⟨getColorForPoint_of_none f q servers point, ?_, exists_least_split _ servers,
    fun m s => serverDistance_exact m point s⟩
  intro pre s post d hl hd hpre hpost
  rw [hl]
  exact getColorForPoint_of_split f q point pre s post d hd hpre hpost

/-- Instance of the amended C1 in IEEE 754 arithmetic. On the two-server scenario `A` at
(0, 0), `B` at (100, 0): the point (10, 0) takes the colour of `A`, the point (90, 0) the
colour of `B`, and the point (50, 0), at the computed distance 50 from both, the colour
of `A`, the first in the list. On the single server `F` at (2 ^ 65, 0), whose computed
distance from (0, 0) is not finite: the invalid colour. -/
theorem getColorForPoint_first_of_least_distance_witness :
    Voronoi.getColorForPoint ieee qtSample [serverA, serverB] ⟨10, 0⟩
      = shadedColor qtSample serverA.getColor (10 : ℝ) ∧
    Voronoi.getColorForPoint ieee qtSample [serverA, serverB] ⟨90, 0⟩
      = shadedColor qtSample serverB.getColor (10 : ℝ) ∧
    Voronoi.getColorForPoint ieee qtSample [serverA, serverB] ⟨50, 0⟩
      = shadedColor qtSample serverA.getColor (50 : ℝ) ∧
    serverDistance ieee ⟨50, 0⟩ serverA = some 50 ∧
    serverDistance ieee ⟨50, 0⟩ serverB = some 50 ∧
    serverDistance ieee ⟨0, 0⟩ serverF = none ∧
    Voronoi.getColorForPoint ieee qtSample [serverF] ⟨0, 0⟩ = QColor.invalid := by
  refine ⟨?_, ?_, ?_, distance_A_50, distance_B_50, distance_F, ?_⟩
  · refine (getColorForPoint_first_of_least_distance ieee qtSample [serverA, serverB]
      ⟨10, 0⟩).2.1 [] serverA [serverB] 10 rfl distance_A_10 (fun t ht => by cases ht) ?_
    intro t ht e he
    rw [List.mem_singleton.mp ht, distance_B_10] at he
    rw [← Option.some.inj he]
    norm_num
  · refine (getColorForPoint_first_of_least_distance ieee qtSample [serverA, serverB]
      ⟨90, 0⟩).2.1 [serverA] serverB [] 10 rfl distance_B_90 ?_ (fun t ht => by cases ht)
    intro t ht e he
    rw [List.mem_singleton.mp ht, distance_A_90] at he
    rw [← Option.some.inj he]
    norm_num
  · refine (getColorForPoint_first_of_least_distance ieee qtSample [serverA, serverB]
      ⟨50, 0⟩).2.1 [] serverA [serverB] 50 rfl distance_A_50 (fun t ht => by cases ht) ?_
    intro t ht e he
    rw [List.mem_singleton.mp ht, distance_B_50] at he
    rw [← Option.some.inj he]
  · refine (getColorForPoint_first_of_least_distance ieee qtSample [serverF] ⟨0, 0⟩).1 ?_
    intro t ht
    rw [List.mem_singleton.mp ht]
    exact distance_F

/-- C1, as stated, fails in the arithmetic of the machine: with the servers `P` at
(4097, 1), red, and `Q` at (4097, 0), blue, in that order, and the query point (0, 0),
`Q` is strictly nearer in Euclidean distance, yet the two computed distances are the same
number (the `float` square of 4097 absorbs the 1 added to it), so the scan keeps `P`,
the first: the colour returned is the red of `P` shaded, not a colour made from `Q`. -/
theorem nearer_server_not_chosen :
    (serverQ.getPosition.sub ⟨0, 0⟩).length realMath
      < (serverP.getPosition.sub ⟨0, 0⟩).length realMath ∧
    serverDistance ieee ⟨0, 0⟩ serverP = some (2252349502406651 / 549755813888) ∧
    serverDistance ieee ⟨0, 0⟩ serverQ = some (2252349502406651 / 549755813888) ∧
    Voronoi.getColorForPoint ieee qtSample [serverP, serverQ] ⟨0, 0⟩
      = shadedColor qtSample serverP.getColor (2252349502406651 / 549755813888 : ℝ) ∧
    Voronoi.getColorForPoint ieee qtSample [serverP, serverQ] ⟨0, 0⟩ = QColor.hsl 0 255 118 ∧
    (∀ d : ℝ, Voronoi.getColorForPoint ieee qtSample [serverP, serverQ] ⟨0, 0⟩
      ≠ shadedColor qtSample serverQ.getColor d) := by
  have hres : Voronoi.getColorForPoint ieee qtSample [serverP, serverQ] ⟨0, 0⟩
      = shadedColor qtSample serverP.getColor (2252349502406651 / 549755813888 : ℝ) := by
    refine getColorForPoint_of_split ieee qtSample ⟨0, 0⟩ [] serverP [serverQ] _ distance_P
      (fun t ht => by cases ht) ?_
    intro t ht e he
    rw [List.mem_singleton.mp ht, distance_Q] at he
    rw [← Option.some.inj he]
  refine ⟨?_, distance_P, distance_Q, hres, ?_, ?_⟩
  · unfold Vector2D.length realMath
    simp only [Vector2D.sub, Server.getPosition, serverP, serverQ]
    exact Real.sqrt_lt_sqrt (by norm_num) (by norm_num)
  · rw [hres]
    exact shadedColor_examples.2.2.2.1
  · intro d
    rw [hres, shadedColor_examples.2.2.2.1]
    simp [shadedColor, qtSample, serverQ, Server.getColor]

/-- C2: at the query point (10, 0), for the single server of colour `#804040` at (0, 0)
(for which `hue()` is 0, `saturation()`, the HSV saturation, is 128, and `lightness()`,
the HSL lightness, is 96), `getColorForPoint` returns the colour made by
`setHsl(0, 128, 116)`: the HSV saturation of the server has become the HSL saturation of
the result. -/
theorem getColorForPoint_hsv_into_hsl :
    serverDistance ieee ⟨10, 0⟩ serverC = some 10 ∧
    qtSample.hue serverC.getColor = 0 ∧
    qtSample.saturation serverC.getColor = 128 ∧
    qtSample.lightness serverC.getColor = 96 ∧
    Voronoi.getColorForPoint ieee qtSample [serverC] ⟨10, 0⟩
      = qtSample.setHsl serverC.getColor 0 128 116 ∧
    Voronoi.getColorForPoint ieee qtSample [serverC] ⟨10, 0⟩ = QColor.hsl 0 128 116 := by
  have hres : Voronoi.getColorForPoint ieee qtSample [serverC] ⟨10, 0⟩
      = shadedColor qtSample serverC.getColor (10 : ℝ) :=
    getColorForPoint_of_split ieee qtSample ⟨10, 0⟩ [] serverC [] 10 distance_C_10
      (fun t ht => by cases ht) (fun t ht => by cases ht)
  refine ⟨distance_C_10, by simp [qtSample, serverC, Server.getColor],
    by simp [qtSample, serverC, Server.getColor], by simp [qtSample, serverC, Server.getColor],
    ?_, ?_⟩
  · rw [hres, shadedColor_examples.2.2.2.2]
    rfl
  · rw [hres, shadedColor_examples.2.2.2.2]

end Classifier

/-! ## The coverage map of `Canvas::generateVoronoiImage` -/

section CoverageMap

variable {K : Type} [LinearOrderedField K]

/-- C20, as stated, fails: for the empty server list the renderer paints `Qt::white`
where the classifier returns the default-constructed, invalid colour; and for the single
red server `A` at (0, 0) and the sample point (10, 0) the renderer paints the red of `A`
as it is, where the classifier returns the colour made by `setHsl(0, 255, 148)`. -/
theorem pixelColor_not_classifier :
    Canvas.pixelColor ieee [] ⟨10, 0⟩ = QColor.white ∧
    Voronoi.getColorForPoint ieee qtSample [] ⟨10, 0⟩ = QColor.invalid ∧
    Canvas.pixelColor ieee [] ⟨10, 0⟩ ≠ Voronoi.getColorForPoint ieee qtSample [] ⟨10, 0⟩ ∧
    Canvas.pixelColor ieee [serverA] ⟨10, 0⟩ = QColor.rgb 255 0 0 ∧
    Voronoi.getColorForPoint ieee qtSample [serverA] ⟨10, 0⟩ = QColor.hsl 0 255 148 ∧
    Canvas.pixelColor ieee [serverA] ⟨10, 0⟩
      ≠ Voronoi.getColorForPoint ieee qtSample [serverA] ⟨10, 0⟩ := by
  have h1 : Canvas.pixelColor ieee [] ⟨10, 0⟩ = QColor.white := rfl
  have h2 : Voronoi.getColorForPoint ieee qtSample [] ⟨10, 0⟩ = QColor.invalid := rfl
  have h3 : Canvas.pixelColor ieee [serverA] ⟨10, 0⟩ = QColor.rgb 255 0 0 :=
    pixelColor_of_split ieee ⟨10, 0⟩ [] serverA [] 10 distance_A_10
      (fun t ht => by cases ht) (fun t ht => by cases ht)
  have h4 : Voronoi.getColorForPoint ieee qtSample [serverA] ⟨10, 0⟩ = QColor.hsl 0 255 148 :=
    (getColorForPoint_of_split ieee qtSample ⟨10, 0⟩ [] serverA [] 10 distance_A_10
      (fun t ht => by cases ht) (fun t ht => by cases ht)).trans shadedColor_examples.1
  refine ⟨h1, h2, ?_, h3, h4, ?_⟩
  · rw [h1, h2]; decide
  · rw [h3, h4]; decide

/-- C20, amended: for every server list and every sample point, the renderer
`Canvas::generateVoronoiImage` and the classifier `Voronoi::getColorForPoint` choose the
same server, the first one of least finite computed distance, but not the same colour:
the renderer paints the colour of that server as it is, the classifier returns that
colour after `setHsl(hue(), saturation(), qBound(0, l, 255))` with the shaded lightness;
when no server has a finite computed distance (the empty list included) the renderer
paints `Qt::white` and the classifier returns the default-constructed, invalid colour. -/
theorem pixelColor_same_server_unshaded (f : FloatOps K) (q : QtColor)
    (servers : List (Server K)) (point : Vector2D K) :
    ((∀ t ∈ servers, serverDistance f point t = none) →
      Canvas.pixelColor f servers point = QColor.white ∧
      Voronoi.getColorForPoint f q servers point = QColor.invalid) ∧
    (∀ (pre : List (Server K)) (s : Server K) (post : List (Server K)) (d : K),
      servers = pre ++ s :: post → serverDistance f point s = some d →
      (∀ t ∈ pre, ∀ e : K, serverDistance f point t = some e → d < e) →
      (∀ t ∈ post, ∀ e : K, serverDistance f point t = some e → d ≤ e) →
      Canvas.pixelColor f servers point = s.getColor ∧
      Voronoi.getColorForPoint f q servers point
        = q.setHsl s.getColor (q.hue s.getColor) (q.saturation s.getColor)
            (qBound 0 (if d < 50 then q.lightness s.getColor + 20
              else q.lightness s.getColor - 10) 255)) ∧
    ((∃ t ∈ servers, serverDistance f point t ≠ none) →
      ∃ (pre : List (Server K)) (s : Server K) (post : List (Server K)) (d : K),
        servers = pre ++ s :: post ∧ serverDistance f point s = some d ∧
        (∀ t ∈ pre, ∀ e : K, serverDistance f point t = some e → d < e) ∧
        (∀ t ∈ post, ∀ e : K, serverDistance f point t = some e → d ≤ e)) := by
  refine ⟨fun h => ⟨pixelColor_of_none f servers point h,
    getColorForPoint_of_none f q servers point h⟩, ?_, exists_least_split _ servers⟩
  intro pre s post d hl hd hpre hpost
  rw [hl]
  exact ⟨pixelColor_of_split f point pre s post d hd hpre hpost,
    getColorForPoint_of_split f q point pre s post d hd hpre hpost⟩

/-- Instance of the amended C20 in IEEE 754 arithmetic. On the two-server scenario at the
point (50, 0), at the computed distance 50 from both servers: the renderer paints the red
of `A`, the classifier returns the colour made by `setHsl(0, 255, 118)`. On the single
server `F` at (2 ^ 65, 0), whose computed distance from (0, 0) is not finite: the
renderer paints `Qt::white`, the classifier returns the invalid colour. -/
theorem pixelColor_same_server_unshaded_witness :
    Canvas.pixelColor ieee [serverA, serverB] ⟨50, 0⟩ = QColor.rgb 255 0 0 ∧
    Voronoi.getColorForPoint ieee qtSample [serverA, serverB] ⟨50, 0⟩
      = QColor.hsl 0 255 118 ∧
    Canvas.pixelColor ieee [serverF] ⟨0, 0⟩ = QColor.white ∧
    Voronoi.getColorForPoint ieee qtSample [serverF] ⟨0, 0⟩ = QColor.invalid := by
  have hF : ∀ t ∈ [serverF], serverDistance ieee ⟨0, 0⟩ t = none := by
    intro t ht
    rw [List.mem_singleton.mp ht]
    exact distance_F
  have hfar := (pixelColor_same_server_unshaded ieee qtSample [serverF] ⟨0, 0⟩).1 hF
  have hpost : ∀ t ∈ [serverB], ∀ e : ℝ, serverDistance ieee ⟨50, 0⟩ t = some e → 50 ≤ e := by
    intro t ht e he
    rw [List.mem_singleton.mp ht, distance_B_50] at he
    rw [← Option.some.inj he]
  have h := (pixelColor_same_server_unshaded ieee qtSample [serverA, serverB] ⟨50, 0⟩).2.1
    [] serverA [serverB] 50 rfl distance_A_50 (fun t ht => by cases ht) hpost
  refine ⟨h.1, ?_, hfar.1, hfar.2⟩
  rw [h.2]
  norm_num [qtSample, serverA, Server.getColor, qBound]

end CoverageMap

/-! ## `Canvas::findServerByName` -/

section FindServer

variable {K : Type}

/-- C3: for every server list and every name, `Canvas::findServerByName` returns a
server exactly when that server is the first one in list order whose name equals the
given name, and returns none (`nullptr`) if and only if no server of the list has that
name. -/
theorem findServerByName_first (servers : List (Server K)) (name : String) :
    (∀ s : Server K, Canvas.findServerByName servers name = some s ↔
      ∃ (pre post : List (Server K)), servers = pre ++ s :: post ∧ s.getName = name ∧
        ∀ t ∈ pre, t.getName ≠ name) ∧
    (Canvas.findServerByName servers name = none ↔ ∀ t ∈ servers, t.getName ≠ name) := by
  induction servers with
  | nil =>
    refine ⟨fun s => ⟨fun h => ?_, fun h => ?_⟩, ⟨fun _ t ht => ?_, fun _ => rfl⟩⟩
    · simp [Canvas.findServerByName] at h
    · obtain ⟨pre, post, hl, _⟩ := h
      simp at hl
    · cases ht
  | cons a rest ih =>
    obtain ⟨ihs, ihn⟩ := ih
    by_cases ha : a.getName = name
    · have hfind : Canvas.findServerByName (a :: rest) name = some a := by
        simp [Canvas.findServerByName, ha]
      refine ⟨fun s => ⟨fun h => ?_, fun h => ?_⟩, ⟨fun h => ?_, fun h => ?_⟩⟩
      · rw [hfind] at h
        have hs : a = s := Option.some.inj h
        subst hs
        exact ⟨[], rest, rfl, ha, fun t ht => by cases ht⟩
      · obtain ⟨pre, post, hl, _, hpre⟩ := h
        cases pre with
        | nil =>
          simp only [List.nil_append, List.cons.injEq] at hl
          rw [hfind, hl.1]
        | cons b pre =>
          simp only [List.cons_append, List.cons.injEq] at hl
          exact absurd (hl.1 ▸ ha) (hpre b (List.mem_cons_self b pre))
      · rw [hfind] at h; cases h
      · exact absurd ha (h a (List.mem_cons_self a rest))
    · have hfind : Canvas.findServerByName (a :: rest) name
          = Canvas.findServerByName rest name := by
        simp [Canvas.findServerByName, ha]
      refine ⟨fun s => ⟨fun h => ?_, fun h => ?_⟩, ⟨fun h => ?_, fun h => ?_⟩⟩
      · rw [hfind] at h
        obtain ⟨pre, post, hl, hs, hpre⟩ := (ihs s).mp h
        refine ⟨a :: pre, post, by rw [hl]; rfl, hs, ?_⟩
        intro t ht
        rcases List.mem_cons.mp ht with rfl | ht
        · exact ha
        · exact hpre t ht
      · obtain ⟨pre, post, hl, hs, hpre⟩ := h
        rw [hfind]
        cases pre with
        | nil =>
          simp only [List.nil_append, List.cons.injEq] at hl
          exact absurd (hl.1 ▸ hs) ha
        | cons b pre =>
          simp only [List.cons_append, List.cons.injEq] at hl
          exact (ihs s).mpr ⟨pre, post, hl.2, hs,
            fun t ht => hpre t (List.mem_cons_of_mem b ht)⟩
      · rw [hfind] at h
        intro t ht
        rcases List.mem_cons.mp ht with rfl | ht
        · exact ha
        · exact ihn.mp h t ht
      · rw [hfind]
        exact ihn.mpr (fun t ht => h t (List.mem_cons_of_mem a ht))

end FindServer

/-! ## Drone commands: `start`, `setInitialPosition`, `setSpeed` -/

section DroneCommands

variable {K : Type} [LinearOrderedField K]

/-- C4, as stated, fails: `start()` on a hovering drone at height 5 is not a no-op, it
puts the drone in takeoff at height 0. -/
theorem start_airborne_not_noop :
    hoveringDrone.status = .hovering ∧ hoveringDrone.height = 5 ∧
    hoveringDrone.start.status = .takeoff ∧ hoveringDrone.start.height = 0 ∧
    hoveringDrone.start ≠ hoveringDrone := by
  decide

/-- C4, amended: `start()` moves a drone of any status, landed or not, to takeoff with
height 0 and changes no other field; it leaves the drone as it was only when the drone
is already in takeoff at height 0. -/
theorem start_unconditional (d : Drone K) :
    d.start.status = .takeoff ∧ d.start.height = 0 ∧
    d.start.name = d.name ∧ d.start.position = d.position ∧
    d.start.goalPosition = d.goalPosition ∧ d.start.direction = d.direction ∧
    d.start.V = d.V ∧ d.start.ForceCollision = d.ForceCollision ∧
    d.start.speed = d.speed ∧ d.start.speedSetpoint = d.speedSetpoint ∧
    d.start.power = d.power ∧ d.start.azimut = d.azimut ∧
    d.start.showCollision = d.showCollision ∧ d.start.targetServer = d.targetServer ∧
    (d.start = d ↔ d.status = .takeoff ∧ d.height = 0) := by
  refine ⟨rfl, rfl, rfl, rfl, rfl, rfl, rfl, rfl, rfl, rfl, rfl, rfl, rfl, rfl, ?_⟩
  constructor
  · intro h
    have h1 : d.start.status = d.status := by rw [h]
    have h2 : d.start.height = d.height := by rw [h]
    exact ⟨h1.symm, h2.symm⟩
  · rintro ⟨h1, h2⟩
    cases d
    simp only [Drone.start] at *
    subst h1 h2
    rfl

end DroneCommands

section DronePosition

variable {K : Type}

/-- C5: `setInitialPosition(p)` on a landed drone followed by `getPosition()` returns
exactly `p`; on a drone in any other status `setInitialPosition(p)` leaves the position
and every other field unchanged. -/
theorem setInitialPosition_roundtrip (d : Drone K) (p : Vector2D K) :
    (d.status = .landed → (d.setInitialPosition p).getPosition = p) ∧
    (d.status ≠ .landed → d.setInitialPosition p = d) := by
  constructor
  · intro h
    simp [Drone.setInitialPosition, Drone.getPosition, h]
  · intro h
    simp [Drone.setInitialPosition, h]

/-- Instance of C5: a landed drone takes the position (7, 9); a hovering drone keeps
its own. -/
theorem setInitialPosition_roundtrip_witness :
    (landedDrone.setInitialPosition ⟨7, 9⟩).getPosition = ⟨7, 9⟩ ∧
    hoveringDrone.setInitialPosition ⟨7, 9⟩ = hoveringDrone :=
  ⟨(setInitialPosition_roundtrip landedDrone ⟨7, 9⟩).1 (by decide),
   (setInitialPosition_roundtrip hoveringDrone ⟨7, 9⟩).2 (by decide)⟩

end DronePosition

section DroneSetpoint

variable {K : Type} [LinearOrderedField K]

/-- C6, as stated, fails: after `setSpeed(-1)` the stored setpoint is -1, which is not
in [0, maxSpeed]. -/
theorem setSpeed_negative_not_clamped :
    (landedDrone.setSpeed (-1)).speedSetpoint = -1 ∧
    ¬ (0 ≤ (landedDrone.setSpeed (-1)).speedSetpoint) := by
  constructor
  · simp [Drone.setSpeed, Drone.maxSpeed]
    norm_num
  · simp [Drone.setSpeed, Drone.maxSpeed]
    norm_num

/-- C6, amended: after `setSpeed(s)` the stored setpoint is `min(s, maxSpeed)` with
`maxSpeed = 50`: it is `s` when `s <= maxSpeed` and `maxSpeed` when `s > maxSpeed`, so it
never exceeds `maxSpeed`, and it lies in `[0, maxSpeed]` whenever `s >= 0`. -/
theorem setSpeed_upper_clamp (d : Drone K) (s : K) :
    (d.setSpeed s).speedSetpoint = min s Drone.maxSpeed ∧
    (Drone.maxSpeed : K) = 50 ∧
    (s ≤ Drone.maxSpeed → (d.setSpeed s).speedSetpoint = s) ∧
    (s > Drone.maxSpeed → (d.setSpeed s).speedSetpoint = Drone.maxSpeed) ∧
    (d.setSpeed s).speedSetpoint ≤ Drone.maxSpeed ∧
    (0 ≤ s → 0 ≤ (d.setSpeed s).speedSetpoint) := by
  have key : (d.setSpeed s).speedSetpoint = min s Drone.maxSpeed := by
    simp only [Drone.setSpeed]
    split_ifs with h
    · exact (min_eq_right (le_of_lt h)).symm
    · exact (min_eq_left (not_lt.mp h)).symm
  have hmax : (0 : K) ≤ Drone.maxSpeed := by unfold Drone.maxSpeed; norm_num
  refine ⟨key, rfl, ?_, ?_, ?_, ?_⟩
  · intro h; rw [key]; exact min_eq_left h
  · intro h; rw [key]; exact min_eq_right (le_of_lt h)
  · rw [key]; exact min_le_right _ _
  · intro h; rw [key]; exact le_min h hmax

/-- Instance of the amended C6: 30 is stored as is, 70 is stored as 50. -/
theorem setSpeed_upper_clamp_witness :
    (landedDrone.setSpeed 30).speedSetpoint = 30 ∧
    (landedDrone.setSpeed 70).speedSetpoint = Drone.maxSpeed :=
  ⟨(setSpeed_upper_clamp landedDrone 30).2.2.1 (by unfold Drone.maxSpeed; norm_num),
   (setSpeed_upper_clamp landedDrone 70).2.2.2.1 (by unfold Drone.maxSpeed; norm_num)⟩

end DroneSetpoint

/-! ## `Drone::update`, branch by branch -/

section UpdateLemmas

variable {K : Type} [LinearOrderedField K]

theorem lowPower_threshold : (20 + Drone.powerConsumption / Drone.takeoffSpeed : K) = 22 := by
  unfold Drone.powerConsumption Drone.takeoffSpeed
  norm_num

/-- The landed branch of `update`. -/
theorem update_landed (m : CMath K) (d : Drone K) (dt : K) (h : d.status = .landed) :
    d.update m dt
      = { d with power := min Drone.maxPower (d.power + dt * Drone.chargingSpeed) } := by
  unfold Drone.update
  simp only [h, if_true]
  split_ifs with hp
  · simp only at hp
    rw [min_eq_left (le_of_lt hp)]
  · simp only at hp
    rw [min_eq_right (not_lt.mp hp)]

/-- The cruise branch of `update`, as one state. -/
theorem update_cruise (m : CMath K) (d : Drone K) (dt : K)
    (hs : d.status = .hovering ∨ d.status = .turning ∨ d.status = .flying) :
    d.update m dt =
      { status := if d.cruiseLands m dt then .landing else d.status
        height := d.height
        name := d.name
        position := d.position.add (Vector2D.smul dt (d.cruiseV m dt))
        goalPosition := d.goalPosition
        direction := d.direction
        V := if d.cruiseLands m dt then ⟨0, 0⟩ else d.cruiseV m dt
        ForceCollision := d.ForceCollision
        speed := if d.cruiseLands m dt then 0 else (d.cruiseV m dt).length m
        speedSetpoint := d.speedSetpoint
        power := d.power - dt * Drone.powerConsumption
        azimut := Drone.cruiseAzimut m (d.cruiseV m dt)
        showCollision := d.showCollision
        targetServer := d.targetServer } := by
  have h1 : d.status ≠ .landed := by rcases hs with h | h | h <;> rw [h] <;> decide
  have h2 : d.status ≠ .takeoff := by rcases hs with h | h | h <;> rw [h] <;> decide
  have h3 : d.status ≠ .landing := by rcases hs with h | h | h <;> rw [h] <;> decide
  have h4 : d.status.toNat ≥ Drone.droneStatus.hovering.toNat := by
    rcases hs with h | h | h <;> rw [h] <;> decide
  unfold Drone.update
  rw [if_neg h1, if_neg h2, if_neg h3, if_pos h4]
  have hproj : ∀ (c : Prop) [Decidable c] (a b : Drone K),
      (if c then a else b).speed = (if c then a.speed else b.speed) ∧
      (if c then a else b).V = (if c then a.V else b.V) ∧
      (if c then a else b).power = (if c then a.power else b.power) := by
    intro c _ a b
    split_ifs <;> exact ⟨rfl, rfl, rfl⟩
  by_cases harr : (d.goalPosition.sub d.position).length m < 1 ∧ (d.cruiseV m dt).length m < 10 <;>
  by_cases hlp : d.power - dt * Drone.powerConsumption < 22
  all_goals
    simp only [Drone.cruiseLands, Drone.cruiseV, Drone.cruiseAzimut, lowPower_threshold] at harr ⊢
    simp only [(hproj _ _ _).1, (hproj _ _ _).2.1, (hproj _ _ _).2.2, ite_self, harr, hlp,
      if_true, if_false, and_self, true_or, or_true, or_self, Vector2D.set]
  all_goals split_ifs <;> rfl

/-- Any number of `update` calls on a landed drone. -/
theorem updates_landed (m : CMath K) (dts : List K) :
    ∀ d : Drone K, d.status = .landed →
      (dts.foldl (Drone.update m) d).status = .landed ∧
      (dts.foldl (Drone.update m) d).position = d.position ∧
      (dts.foldl (Drone.update m) d).V = d.V ∧
      (dts.foldl (Drone.update m) d).height = d.height ∧
      (dts ≠ [] → (dts.foldl (Drone.update m) d).power ≤ Drone.maxPower) := by
  induction dts with
  | nil => intro d h; exact ⟨h, rfl, rfl, rfl, fun hne => absurd rfl hne⟩
  | cons dt rest ih =>
    intro d h
    rw [List.foldl_cons]
    have hu := update_landed m d dt h
    have hst : (d.update m dt).status = .landed := by rw [hu]; exact h
    obtain ⟨i1, i2, i3, i4, i5⟩ := ih (d.update m dt) hst
    refine ⟨i1, ?_, ?_, ?_, fun _ => ?_⟩
    · rw [i2, hu]
    · rw [i3, hu]
    · rw [i4, hu]
    · by_cases hr : rest = []
      · subst hr
        rw [List.foldl_nil, hu]
        exact min_le_left _ _
      · exact i5 hr

end UpdateLemmas

/-! ## Charging, takeoff, low power and arrival -/

section UpdateClaims

variable {K : Type} [LinearOrderedField K]

/-- C7: for every landed drone and every `dt`, `update(dt)` sets the power to
`min(maxPower, power + dt * chargingSpeed)` and leaves status, position, velocity and
height unchanged; hence after any positive number of `update` calls on a landed drone,
with whatever time steps, the drone is still landed where it was and its power is at
most `maxPower`. -/
theorem update_landed_charges (m : CMath K) (d : Drone K) (dt : K) (h : d.status = .landed) :
    (d.update m dt).power = min Drone.maxPower (d.power + dt * Drone.chargingSpeed) ∧
    (d.update m dt).status = d.status ∧
    (d.update m dt).position = d.position ∧
    (d.update m dt).V = d.V ∧
    (d.update m dt).height = d.height ∧
    ∀ dts : List K, dts ≠ [] →
      (dts.foldl (Drone.update m) d).power ≤ Drone.maxPower ∧
      (dts.foldl (Drone.update m) d).status = .landed ∧
      (dts.foldl (Drone.update m) d).position = d.position ∧
      (dts.foldl (Drone.update m) d).V = d.V ∧
      (dts.foldl (Drone.update m) d).height = d.height := by
  have hu := update_landed m d dt h
  refine ⟨by rw [hu], by rw [hu], by rw [hu], by rw [hu], by rw [hu], ?_⟩
  intro dts hne
  obtain ⟨i1, i2, i3, i4, i5⟩ := updates_landed m dts d h
  exact ⟨i5 hne, i1, i2, i3, i4⟩

/-- Instance of C7: a newly constructed drone (power 100) charged for 3 s, then for
1000 s. -/
theorem update_landed_charges_witness :
    (Drone.new "d1" 0 0 : Drone ℝ).status = .landed ∧
    ((Drone.new "d1" 0 0 : Drone ℝ).update realMath 3).power
      = min Drone.maxPower ((Drone.new "d1" 0 0 : Drone ℝ).power + 3 * Drone.chargingSpeed) ∧
    ([3, 1000].foldl (Drone.update realMath) (Drone.new "d1" 0 0 : Drone ℝ)).power
      ≤ Drone.maxPower :=
  ⟨rfl, (update_landed_charges realMath (Drone.new "d1" 0 0) 3 rfl).1,
   ((update_landed_charges realMath (Drone.new "d1" 0 0) 3 rfl).2.2.2.2.2 [3, 1000]
      (by simp)).1⟩

/-- C9: for every drone in cruise (hovering, turning or flying) whose power is below
`20 + powerConsumption / takeoffSpeed = 22` and every `dt >= 0`, one call of `update(dt)`
ends with status landing, `V = (0, 0)` and speed 0, whatever the goal, the position, the
velocity and the collision force were. -/
theorem update_low_power_lands (m : CMath K) (d : Drone K) (dt : K)
    (hs : d.status = .hovering ∨ d.status = .turning ∨ d.status = .flying)
    (hp : d.power < 20 + Drone.powerConsumption / Drone.takeoffSpeed) (hdt : 0 ≤ dt) :
    (20 + Drone.powerConsumption / Drone.takeoffSpeed : K) = 22 ∧
    (d.update m dt).status = .landing ∧
    (d.update m dt).V = ⟨0, 0⟩ ∧
    (d.update m dt).speed = 0 := by
  have hland : d.cruiseLands m dt := by
    left
    rw [lowPower_threshold] at hp
    have : 0 ≤ dt * (Drone.powerConsumption : K) :=
      mul_nonneg hdt (by unfold Drone.powerConsumption; norm_num)
    linarith
  rw [update_cruise m d dt hs]
  exact ⟨lowPower_threshold, if_pos hland, if_pos hland, if_pos hland⟩

/-- Instance of C9: the hovering drone with power 19.9, one call of `update(1/10)`. -/
theorem update_low_power_lands_witness :
    (lowPowerDrone.status = .hovering ∨ lowPowerDrone.status = .turning ∨
      lowPowerDrone.status = .flying) ∧
    lowPowerDrone.power < 20 + Drone.powerConsumption / Drone.takeoffSpeed ∧
    (0 : ℝ) ≤ 1 / 10 ∧
    (20 + Drone.powerConsumption / Drone.takeoffSpeed : ℝ) = 22 ∧
    (lowPowerDrone.update realMath (1 / 10)).status = .landing ∧
    (lowPowerDrone.update realMath (1 / 10)).V = ⟨0, 0⟩ ∧
    (lowPowerDrone.update realMath (1 / 10)).speed = 0 :=
  ⟨Or.inl rfl, by norm_num [lowPowerDrone, Drone.powerConsumption, Drone.takeoffSpeed],
   by norm_num,
   update_low_power_lands realMath lowPowerDrone (1 / 10) (Or.inl rfl)
     (by norm_num [lowPowerDrone, Drone.powerConsumption, Drone.takeoffSpeed])
     (by norm_num)⟩

/-- C10, as stated, fails: the hovering drone at rest (speed 0) half a unit from its
goal, with power 100 and no collision force, is still hovering after `update(1/10)`: the
speed tested by `update` is the new one, 20, which is not below 10. -/
theorem update_near_goal_not_landing :
    nearGoalDrone.status = .hovering ∧
    (nearGoalDrone.goalPosition.sub nearGoalDrone.position).length realMath < 1 ∧
    nearGoalDrone.speed < 10 ∧
    nearGoalDrone.ForceCollision = ⟨0, 0⟩ ∧
    (0 : ℝ) ≤ 1 / 10 ∧
    (nearGoalDrone.update realMath (1 / 10)).speed = 20 ∧
    (nearGoalDrone.update realMath (1 / 10)).status = .hovering ∧
    (nearGoalDrone.update realMath (1 / 10)).status ≠ .landing := by
  have hlen : (nearGoalDrone.goalPosition.sub nearGoalDrone.position).length realMath
      = 1 / 2 :=
    real_length_eq _ _ (1 / 2) (by norm_num)
      (by norm_num [nearGoalDrone, Drone.new, Vector2D.sub])
  have hv : nearGoalDrone.cruiseV realMath (1 / 10) = ⟨20, 0⟩ := by
    unfold Drone.cruiseV
    rw [hlen]
    norm_num [nearGoalDrone, Drone.new, Vector2D.sub, Vector2D.add, Vector2D.smul,
      Drone.maxPower, Drone.damping]
  have hvl : (nearGoalDrone.cruiseV realMath (1 / 10)).length realMath = 20 := by
    rw [hv]
    exact real_length_eq _ _ 20 (by norm_num) (by norm_num)
  have hnot : ¬ nearGoalDrone.cruiseLands realMath (1 / 10) := by
    unfold Drone.cruiseLands
    rw [hvl]
    norm_num [nearGoalDrone, Drone.new, Drone.maxPower, Drone.powerConsumption]
  have hu := update_cruise realMath nearGoalDrone (1 / 10) (Or.inl rfl)
  have hsp : (nearGoalDrone.update realMath (1 / 10)).speed = 20 := by
    rw [hu]
    show (if nearGoalDrone.cruiseLands realMath (1 / 10) then (0 : ℝ) else _) = 20
    rw [if_neg hnot, hvl]
  have hst : (nearGoalDrone.update realMath (1 / 10)).status = .hovering := by
    rw [hu]
    show (if nearGoalDrone.cruiseLands realMath (1 / 10) then Drone.droneStatus.landing
      else nearGoalDrone.status) = .hovering
    rw [if_neg hnot]
    rfl
  refine ⟨rfl, by rw [hlen]; norm_num, by norm_num [nearGoalDrone, Drone.new], rfl,
    by norm_num, hsp, hst, ?_⟩
  rw [hst]
  decide

/-- C10, amended: for every hovering drone whose distance from position to goalPosition
is non-zero and below 1.0 and whose speed as recomputed by this call, the length of
`damp * V + (maxPower * dt / distance) * toGoal + dt * ForceCollision`, is below 10, one
call of `update(dt)` leaves the drone in status landing, with `V = (0, 0)` and speed 0. -/
theorem update_arrival_lands (m : CMath K) (d : Drone K) (dt : K)
    (hs : d.status = .hovering)
    (_hne : (d.goalPosition.sub d.position).length m ≠ 0)
    (hd : (d.goalPosition.sub d.position).length m < 1)
    (hv : (d.cruiseV m dt).length m < 10) :
    (d.update m dt).status = .landing ∧
    (d.update m dt).V = ⟨0, 0⟩ ∧
    (d.update m dt).speed = 0 := by
  have hland : d.cruiseLands m dt := Or.inr ⟨hd, hv⟩
  rw [update_cruise m d dt (Or.inl hs)]
  exact ⟨if_pos hland, if_pos hland, if_pos hland⟩

/-- Instance of the amended C10: the drone at rest half a unit from its goal, with
`dt = 1/100`; the recomputed speed is 2. -/
theorem update_arrival_lands_witness :
    nearGoalDrone.status = .hovering ∧
    (nearGoalDrone.goalPosition.sub nearGoalDrone.position).length realMath ≠ 0 ∧
    (nearGoalDrone.goalPosition.sub nearGoalDrone.position).length realMath < 1 ∧
    (nearGoalDrone.cruiseV realMath (1 / 100)).length realMath < 10 ∧
    (nearGoalDrone.update realMath (1 / 100)).status = .landing ∧
    (nearGoalDrone.update realMath (1 / 100)).V = ⟨0, 0⟩ ∧
    (nearGoalDrone.update realMath (1 / 100)).speed = 0 := by
  have hlen : (nearGoalDrone.goalPosition.sub nearGoalDrone.position).length realMath
      = 1 / 2 :=
    real_length_eq _ _ (1 / 2) (by norm_num)
      (by norm_num [nearGoalDrone, Drone.new, Vector2D.sub])
  have hv : nearGoalDrone.cruiseV realMath (1 / 100) = ⟨2, 0⟩ := by
    unfold Drone.cruiseV
    rw [hlen]
    norm_num [nearGoalDrone, Drone.new, Vector2D.sub, Vector2D.add, Vector2D.smul,
      Drone.maxPower, Drone.damping]
  have hvl : (nearGoalDrone.cruiseV realMath (1 / 100)).length realMath = 2 := by
    rw [hv]
    exact real_length_eq _ _ 2 (by norm_num) (by norm_num)
  have h1 : (nearGoalDrone.goalPosition.sub nearGoalDrone.position).length realMath ≠ 0 := by
    rw [hlen]; norm_num
  have h2 : (nearGoalDrone.goalPosition.sub nearGoalDrone.position).length realMath < 1 := by
    rw [hlen]; norm_num
  have h3 : (nearGoalDrone.cruiseV realMath (1 / 100)).length realMath < 10 := by
    rw [hvl]; norm_num
  exact ⟨rfl, h1, h2, h3, update_arrival_lands realMath nearGoalDrone (1 / 100) rfl h1 h2 h3⟩

end UpdateClaims

/-! ## `Drone::update`: takeoff and landing branches as states -/

section UpdateStates

variable {K : Type} [LinearOrderedField K]

/-- The takeoff branch of `update`, as one state. -/
theorem update_takeoff_state (m : CMath K) (d : Drone K) (dt : K) (h : d.status = .takeoff) :
    d.update m dt =
      { status := if d.power - dt * Drone.powerConsumption < 22 then .landing
          else if d.height + dt * Drone.takeoffSpeed ≥ Drone.hoveringHeight then .hovering
          else .takeoff
        height := if d.height + dt * Drone.takeoffSpeed ≥ Drone.hoveringHeight
          then Drone.hoveringHeight else d.height + dt * Drone.takeoffSpeed
        name := d.name
        position := d.position
        goalPosition := d.goalPosition
        direction := d.direction
        V := d.V
        ForceCollision := d.ForceCollision
        speed := if d.power - dt * Drone.powerConsumption < 22 then 0 else d.speed
        speedSetpoint := d.speedSetpoint
        power := d.power - dt * Drone.powerConsumption
        azimut := d.azimut
        showCollision := d.showCollision
        targetServer := d.targetServer } := by
  have h1 : d.status ≠ .landed := by rw [h]; decide
  unfold Drone.update
  rw [if_neg h1, if_pos h]
  by_cases hc1 : d.height + dt * Drone.takeoffSpeed ≥ Drone.hoveringHeight <;>
  by_cases hc2 : d.power - dt * Drone.powerConsumption < 22 <;>
  simp only [hc1, hc2, if_true, if_false, lowPower_threshold, h]

/-- The landing branch of `update`, as one state. -/
theorem update_landing_state (m : CMath K) (d : Drone K) (dt : K) (h : d.status = .landing) :
    d.update m dt =
      { status := if d.height - dt * Drone.takeoffSpeed ≤ 0 then .landed else .landing
        height := if d.height - dt * Drone.takeoffSpeed ≤ 0 then 0
          else d.height - dt * Drone.takeoffSpeed
        name := d.name
        position := d.position
        goalPosition := d.goalPosition
        direction := d.direction
        V := d.V
        ForceCollision := d.ForceCollision
        speed := d.speed
        speedSetpoint := d.speedSetpoint
        power := d.power - dt * Drone.powerConsumption
        azimut := d.azimut
        showCollision := if d.height - dt * Drone.takeoffSpeed ≤ 0 then false
          else d.showCollision
        targetServer := d.targetServer } := by
  have h1 : d.status ≠ .landed := by rw [h]; decide
  have h2 : d.status ≠ .takeoff := by rw [h]; decide
  unfold Drone.update
  rw [if_neg h1, if_neg h2, if_pos h]
  by_cases hc1 : d.height - dt * Drone.takeoffSpeed ≤ 0 <;>
  simp only [hc1, if_true, if_false, h]

/-- The six statuses, grouped as `update` tests them. -/
theorem status_cases (s : Drone.droneStatus) :
    s = .landed ∨ s = .takeoff ∨ s = .landing ∨
      (s = .hovering ∨ s = .turning ∨ s = .flying) := by
  cases s <;> simp

/-- No branch of `update` assigns `goalPosition`. -/
theorem update_goalPosition (m : CMath K) (d : Drone K) (dt : K) :
    (d.update m dt).goalPosition = d.goalPosition := by
  rcases status_cases d.status with h | h | h | h
  · rw [update_landed m d dt h]
  · rw [update_takeoff_state m d dt h]
  · rw [update_landing_state m d dt h]
  · rw [update_cruise m d dt h]

end UpdateStates

/-! ## Collision force -/

section Collision

variable {K : Type} [LinearOrderedField K]

/-- The length of `u - v` and of `v - u` are the square root of the same number. -/
theorem length_sub_comm (m : CMath K) (u v : Vector2D K) :
    (u.sub v).length m = (v.sub u).length m := by
  unfold Vector2D.length Vector2D.sub
  congr 1
  ring

/-- The branch `l < threshold` of `addCollision`. -/
theorem addCollision_near (m : CMath K) (d : Drone K) (B : Vector2D K) (threshold : K)
    (h : (B.sub d.position).length m < threshold) :
    d.addCollision m B threshold =
      { d with
        ForceCollision := d.ForceCollision.add
          (Vector2D.smul (-Drone.coefCollision / threshold) (B.sub d.position)),
        showCollision := true } := by
  unfold Drone.addCollision
  simp only [h, if_true]

/-- The branch `l >= threshold` of `addCollision`. -/
theorem addCollision_far (m : CMath K) (d : Drone K) (B : Vector2D K) (threshold : K)
    (h : ¬ (B.sub d.position).length m < threshold) :
    d.addCollision m B threshold = d := by
  unfold Drone.addCollision
  simp only [h, if_false]

/-- `addCollision` changes neither the goal nor the status. -/
theorem addCollision_fields (m : CMath K) (d : Drone K) (B : Vector2D K) (threshold : K) :
    (d.addCollision m B threshold).goalPosition = d.goalPosition ∧
    (d.addCollision m B threshold).status = d.status := by
  by_cases h : (B.sub d.position).length m < threshold
  · rw [addCollision_near m d B threshold h]
    exact ⟨rfl, rfl⟩
  · rw [addCollision_far m d B threshold h]
    exact ⟨rfl, rfl⟩

/-- One drone of a close pair: after `initCollision` and `addCollision` the force is not
zero, has a negative dot product with the vector to the other drone, and the collision
flag is set. -/
theorem collision_one_side (m : CMath K) (A : Drone K) (P : Vector2D K) (t : K)
    (ht : 0 < t) (hne : A.position ≠ P) (hd : (P.sub A.position).length m < t) :
    (A.initCollision.addCollision m P t).ForceCollision ≠ ⟨0, 0⟩ ∧
    (A.initCollision.addCollision m P t).ForceCollision.dot (P.sub A.position) < 0 ∧
    (A.initCollision.addCollision m P t).hasCollision = true := by
  have hd2 : (P.sub A.initCollision.position).length m < t := hd
  rw [addCollision_near m A.initCollision P t hd2]
  have hc : (-Drone.coefCollision / t : K) < 0 := by
    unfold Drone.coefCollision
    exact div_neg_of_neg_of_pos (by norm_num) ht
  have hxy : P.x - A.position.x ≠ 0 ∨ P.y - A.position.y ≠ 0 := by
    by_contra hcon
    push_neg at hcon
    apply hne
    cases hA : A.position with
    | mk ax ay =>
      cases P with
      | mk px py =>
        rw [hA] at hcon
        simp only at hcon
        have h1 : ax = px := by linarith [hcon.1]
        have h2 : ay = py := by linarith [hcon.2]
        rw [h1, h2]
  have hsq : 0 < (P.x - A.position.x) * (P.x - A.position.x)
      + (P.y - A.position.y) * (P.y - A.position.y) := by
    rcases hxy with h | h
    · have := mul_self_pos.mpr h
      have := mul_self_nonneg (P.y - A.position.y)
      linarith
    · have := mul_self_pos.mpr h
      have := mul_self_nonneg (P.x - A.position.x)
      linarith
  refine ⟨?_, ?_, rfl⟩
  · intro h0
    simp only [Drone.initCollision, Vector2D.set, Vector2D.add, Vector2D.smul, Vector2D.sub,
      Vector2D.mk.injEq, zero_add, mul_eq_zero] at h0
    rcases hxy with h | h
    · rcases h0.1 with h' | h'
      · exact absurd h' (ne_of_lt hc)
      · exact h h'
    · rcases h0.2 with h' | h'
      · exact absurd h' (ne_of_lt hc)
      · exact h h'
  · simp only [Drone.initCollision, Vector2D.set, Vector2D.add, Vector2D.smul, Vector2D.sub,
      Vector2D.dot, zero_add]
    have e : -Drone.coefCollision / t * (P.x - A.position.x) * (P.x - A.position.x)
        + -Drone.coefCollision / t * (P.y - A.position.y) * (P.y - A.position.y)
        = (-Drone.coefCollision / t) * ((P.x - A.position.x) * (P.x - A.position.x)
          + (P.y - A.position.y) * (P.y - A.position.y)) := by ring
    rw [e]
    exact mul_neg_of_neg_of_pos hc hsq

/-- C11, as stated, fails: two hovering drones at the same place (50, 50) are at distance
0, below `droneCollisionDistance = 96`, yet after `initCollision` and `addCollision` the
collision force of the first is (0, 0), although its collision flag is set. -/
theorem collision_coincident_zero_force :
    (hoverAt "d1" ⟨50, 50⟩).status = .hovering ∧ (hoverAt "d2" ⟨50, 50⟩).status = .hovering ∧
    (Canvas.droneCollisionDistance : ℝ) = 96 ∧
    (((hoverAt "d2" ⟨50, 50⟩).position.sub (hoverAt "d1" ⟨50, 50⟩).position).length realMath
      < Canvas.droneCollisionDistance) ∧
    ((hoverAt "d1" ⟨50, 50⟩).initCollision.addCollision realMath
      (hoverAt "d2" ⟨50, 50⟩).position Canvas.droneCollisionDistance).ForceCollision
        = ⟨0, 0⟩ ∧
    ((hoverAt "d1" ⟨50, 50⟩).initCollision.addCollision realMath
      (hoverAt "d2" ⟨50, 50⟩).position Canvas.droneCollisionDistance).hasCollision
        = true := by
  have h96 : (Canvas.droneCollisionDistance : ℝ) = 96 := by
    unfold Canvas.droneCollisionDistance Canvas.droneIconSize
    norm_num
  have hlen : ((hoverAt "d2" ⟨50, 50⟩).position.sub
      (hoverAt "d1" ⟨50, 50⟩).position).length realMath = 0 :=
    real_length_eq _ _ 0 (le_refl 0) (by norm_num [hoverAt, Vector2D.sub])
  have hlt : ((hoverAt "d2" ⟨50, 50⟩).position.sub
      (hoverAt "d1" ⟨50, 50⟩).position).length realMath < Canvas.droneCollisionDistance := by
    rw [hlen, h96]; norm_num
  refine ⟨rfl, rfl, h96, hlt, ?_, ?_⟩
  · rw [addCollision_near realMath (hoverAt "d1" ⟨50, 50⟩).initCollision _ _ hlt]
    norm_num [Drone.initCollision, hoverAt, Vector2D.set, Vector2D.add, Vector2D.smul,
      Vector2D.sub]
  · rw [addCollision_near realMath (hoverAt "d1" ⟨50, 50⟩).initCollision _ _ hlt]
    rfl

/-- C11, amended: for every two drones `A` and `B` at different positions whose distance
is below a threshold `t > 0`: after `initCollision()` followed by `addCollision(position
of the other, t)` on each, the collision force of each drone is non-zero and has a
negative dot product with the vector from this drone to the other, and `hasCollision()`
is true for both. -/
theorem collision_repels (m : CMath K) (A B : Drone K) (t : K) (ht : 0 < t)
    (hne : A.position ≠ B.position) (hd : (B.position.sub A.position).length m < t) :
    ((A.initCollision.addCollision m B.position t).ForceCollision ≠ ⟨0, 0⟩ ∧
     (A.initCollision.addCollision m B.position t).ForceCollision.dot
        (B.position.sub A.position) < 0 ∧
     (A.initCollision.addCollision m B.position t).hasCollision = true) ∧
    ((B.initCollision.addCollision m A.position t).ForceCollision ≠ ⟨0, 0⟩ ∧
     (B.initCollision.addCollision m A.position t).ForceCollision.dot
        (A.position.sub B.position) < 0 ∧
     (B.initCollision.addCollision m A.position t).hasCollision = true) := by
  refine ⟨collision_one_side m A B.position t ht hne hd, ?_⟩
  have hd2 : (A.position.sub B.position).length m < t := by
    rw [length_sub_comm]; exact hd
  exact collision_one_side m B A.position t ht (fun h => hne h.symm) hd2

/-- Instance of the amended C11: drones hovering at (0, 0) and (30, 40), at distance 50,
with the threshold `droneCollisionDistance`. -/
theorem collision_repels_witness :
    (0 : ℝ) < Canvas.droneCollisionDistance ∧
    (hoverAt "d1" ⟨0, 0⟩).position ≠ (hoverAt "d2" ⟨30, 40⟩).position ∧
    ((hoverAt "d2" ⟨30, 40⟩).position.sub (hoverAt "d1" ⟨0, 0⟩).position).length realMath
      < Canvas.droneCollisionDistance ∧
    (((hoverAt "d1" ⟨0, 0⟩).initCollision.addCollision realMath
        (hoverAt "d2" ⟨30, 40⟩).position Canvas.droneCollisionDistance).ForceCollision
          ≠ ⟨0, 0⟩ ∧
     ((hoverAt "d1" ⟨0, 0⟩).initCollision.addCollision realMath
        (hoverAt "d2" ⟨30, 40⟩).position Canvas.droneCollisionDistance).ForceCollision.dot
          ((hoverAt "d2" ⟨30, 40⟩).position.sub (hoverAt "d1" ⟨0, 0⟩).position) < 0 ∧
     ((hoverAt "d1" ⟨0, 0⟩).initCollision.addCollision realMath
        (hoverAt "d2" ⟨30, 40⟩).position Canvas.droneCollisionDistance).hasCollision
          = true) ∧
    (((hoverAt "d2" ⟨30, 40⟩).initCollision.addCollision realMath
        (hoverAt "d1" ⟨0, 0⟩).position Canvas.droneCollisionDistance).ForceCollision
          ≠ ⟨0, 0⟩ ∧
     ((hoverAt "d2" ⟨30, 40⟩).initCollision.addCollision realMath
        (hoverAt "d1" ⟨0, 0⟩).position Canvas.droneCollisionDistance).ForceCollision.dot
          ((hoverAt "d1" ⟨0, 0⟩).position.sub (hoverAt "d2" ⟨30, 40⟩).position) < 0 ∧
     ((hoverAt "d2" ⟨30, 40⟩).initCollision.addCollision realMath
        (hoverAt "d1" ⟨0, 0⟩).position Canvas.droneCollisionDistance).hasCollision
          = true) := by
  have h96 : (Canvas.droneCollisionDistance : ℝ) = 96 := by
    unfold Canvas.droneCollisionDistance Canvas.droneIconSize
    norm_num
  have h0 : (0 : ℝ) < Canvas.droneCollisionDistance := by rw [h96]; norm_num
  have hne : (hoverAt "d1" ⟨0, 0⟩).position ≠ (hoverAt "d2" ⟨30, 40⟩).position := by
    simp [hoverAt]
  have hlen : ((hoverAt "d2" ⟨30, 40⟩).position.sub
      (hoverAt "d1" ⟨0, 0⟩).position).length realMath = 50 :=
    real_length_eq _ _ 50 (by norm_num) (by norm_num [hoverAt, Vector2D.sub])
  have hlt : ((hoverAt "d2" ⟨30, 40⟩).position.sub
      (hoverAt "d1" ⟨0, 0⟩).position).length realMath < Canvas.droneCollisionDistance := by
    rw [hlen, h96]; norm_num
  have key := collision_repels realMath (hoverAt "d1" ⟨0, 0⟩) (hoverAt "d2" ⟨30, 40⟩)
    Canvas.droneCollisionDistance h0 hne hlt
  exact ⟨h0, hne, hlt, key.1, key.2⟩

end Collision

/-! ## `Vector2D::orthoNormed` -/

section OrthoNormed

variable {K : Type} [LinearOrderedField K]

/-- C16: for every vector `(x, y)` of non-zero length `l`, `orthoNormed()` returns
`(y / l, -x / l)`, and this result has length 1 and dot product 0 with the original
vector, in exact arithmetic, that is when `sqrt` is the non-negative square root. -/
theorem orthoNormed_unit_orthogonal (m : CMath K)
    (hsqrt : ∀ a : K, 0 ≤ a → 0 ≤ m.sqrt a ∧ m.sqrt a * m.sqrt a = a)
    (v : Vector2D K) (hl : v.length m ≠ 0) :
    v.orthoNormed m = ⟨v.y / v.length m, -v.x / v.length m⟩ ∧
    (v.orthoNormed m).length m = 1 ∧
    (v.orthoNormed m).dot v = 0 := by
  have hnn : 0 ≤ v.x * v.x + v.y * v.y := by
    have := mul_self_nonneg v.x
    have := mul_self_nonneg v.y
    linarith
  have hll : v.length m * v.length m = v.x * v.x + v.y * v.y := (hsqrt _ hnn).2
  have h1 : m.sqrt 1 = 1 := by
    obtain ⟨hs0, hs1⟩ := hsqrt 1 (by norm_num)
    have hfac : (m.sqrt 1 - 1) * (m.sqrt 1 + 1) = 0 := by
      have e : (m.sqrt 1 - 1) * (m.sqrt 1 + 1) = m.sqrt 1 * m.sqrt 1 - 1 := by ring
      rw [e, hs1]
      ring
    rcases mul_eq_zero.mp hfac with h | h
    · linarith
    · linarith
  refine ⟨rfl, ?_, ?_⟩
  · have harg : v.y / v.length m * (v.y / v.length m)
        + -v.x / v.length m * (-v.x / v.length m) = 1 := by
      field_simp
      rw [hll]
      ring
    show m.sqrt (v.y / v.length m * (v.y / v.length m)
      + -v.x / v.length m * (-v.x / v.length m)) = 1
    rw [harg, h1]
  · show v.y / v.length m * v.x + -v.x / v.length m * v.y = 0
    field_simp
    ring

/-- Instance of C16 over the reals: the vector (3, 4), of length 5. -/
theorem orthoNormed_unit_orthogonal_witness :
    (∀ a : ℝ, 0 ≤ a → 0 ≤ realMath.sqrt a ∧ realMath.sqrt a * realMath.sqrt a = a) ∧
    (⟨3, 4⟩ : Vector2D ℝ).length realMath ≠ 0 ∧
    (⟨3, 4⟩ : Vector2D ℝ).orthoNormed realMath
      = ⟨4 / (⟨3, 4⟩ : Vector2D ℝ).length realMath,
         -3 / (⟨3, 4⟩ : Vector2D ℝ).length realMath⟩ ∧
    ((⟨3, 4⟩ : Vector2D ℝ).orthoNormed realMath).length realMath = 1 ∧
    ((⟨3, 4⟩ : Vector2D ℝ).orthoNormed realMath).dot ⟨3, 4⟩ = 0 := by
  have hsqrt : ∀ a : ℝ, 0 ≤ a → 0 ≤ realMath.sqrt a ∧ realMath.sqrt a * realMath.sqrt a = a :=
    fun a ha => ⟨Real.sqrt_nonneg a, Real.mul_self_sqrt ha⟩
  have hlen : (⟨3, 4⟩ : Vector2D ℝ).length realMath = 5 :=
    real_length_eq 3 4 5 (by norm_num) (by norm_num)
  have hl : (⟨3, 4⟩ : Vector2D ℝ).length realMath ≠ 0 := by rw [hlen]; norm_num
  exact ⟨hsqrt, hl, orthoNormed_unit_orthogonal realMath hsqrt ⟨3, 4⟩ hl⟩

end OrthoNormed

/-! ## `MainWindow::update`: step count and goal resolution -/

section Simulator

variable {K : Type} [LinearOrderedField K]

/-- The new step count of one tick. -/
theorem update_steps (m : CMath K) (servers : List (Server K)) (st : MainWindow.State K)
    (current d : Int) :
    (MainWindow.update m servers st current d).steps
      = (if d > 90 then st.steps.tdiv 2
          else if st.steps < 10 then st.steps + 1 else st.steps) := rfl

/-- The step count is never negative along a run that starts with a non-negative count. -/
theorem run_steps_nonneg (m : CMath K) (servers : List (Server K))
    (ticks : List (Int × Int)) :
    ∀ st : MainWindow.State K, 0 ≤ st.steps →
      0 ≤ (MainWindow.run m servers st ticks).steps := by
  induction ticks with
  | nil => intro st h; exact h
  | cons t rest ih =>
    intro st h
    unfold MainWindow.run
    rw [List.foldl_cons]
    apply ih
    rw [update_steps]
    split_ifs
    · exact Int.tdiv_nonneg h (by norm_num)
    · linarith
    · exact h

/-- C12: the sub-step count starts at 5, and after each tick with measured cost `d` it
becomes `floor(steps / 2)` when `d > 90`, `steps + 1` when `d <= 90` and `steps < 10`,
and stays as it is when `d <= 90` and `steps >= 10`; the sub-steps of the tick all use
`dt = delta / (1000 * steps)` with the value of `steps` held at the start of the tick,
and there are `steps` of them. -/
theorem substep_count_policy (m : CMath K) (servers : List (Server K)) (elapsed : Int)
    (mapDrones : List (Drone K)) (ticks : List (Int × Int)) (current d : Int) :
    (MainWindow.State.initial elapsed mapDrones : MainWindow.State K).steps = 5 ∧
    (MainWindow.update m servers
        (MainWindow.run m servers (MainWindow.State.initial elapsed mapDrones) ticks)
        current d).steps
      = (if d > 90 then
          ⌊((MainWindow.run m servers
              (MainWindow.State.initial elapsed mapDrones) ticks).steps : ℚ) / 2⌋
         else if (MainWindow.run m servers
              (MainWindow.State.initial elapsed mapDrones) ticks).steps < 10 then
          (MainWindow.run m servers
              (MainWindow.State.initial elapsed mapDrones) ticks).steps + 1
         else (MainWindow.run m servers
              (MainWindow.State.initial elapsed mapDrones) ticks).steps) ∧
    MainWindow.tickDt
        (MainWindow.run m servers (MainWindow.State.initial elapsed mapDrones) ticks) current
      = (((current - (MainWindow.run m servers
            (MainWindow.State.initial elapsed mapDrones) ticks).last : Int) : K)
          / (1000 * ((MainWindow.run m servers
            (MainWindow.State.initial elapsed mapDrones) ticks).steps : K))) ∧
    (MainWindow.update m servers
        (MainWindow.run m servers (MainWindow.State.initial elapsed mapDrones) ticks)
        current d).mapDrones
      = (MainWindow.subStep m servers
          (MainWindow.tickDt
            (MainWindow.run m servers (MainWindow.State.initial elapsed mapDrones) ticks)
            current))^[(MainWindow.run m servers
              (MainWindow.State.initial elapsed mapDrones) ticks).steps.toNat]
          (MainWindow.run m servers
            (MainWindow.State.initial elapsed mapDrones) ticks).mapDrones := by
  have hnn : 0 ≤ (MainWindow.run m servers
      (MainWindow.State.initial elapsed mapDrones) ticks).steps :=
    run_steps_nonneg m servers ticks _ (by show (0 : Int) ≤ 5; norm_num)
  refine ⟨rfl, ?_, rfl, rfl⟩
  rw [update_steps]
  have hfloor : ⌊((MainWindow.run m servers
      (MainWindow.State.initial elapsed mapDrones) ticks).steps : ℚ) / 2⌋
      = (MainWindow.run m servers
          (MainWindow.State.initial elapsed mapDrones) ticks).steps.tdiv 2 := by
    have h := Rat.floor_intCast_div_natCast (MainWindow.run m servers
      (MainWindow.State.initial elapsed mapDrones) ticks).steps 2
    rw [Int.tdiv_eq_ediv hnn (by norm_num)]
    simpa using h
  rw [hfloor]

/-- The obstacle loop of `collisions` changes neither the goal nor the status. -/
theorem collisions_fold_fields (m : CMath K) (obstacles : List (Drone K)) :
    ∀ d0 : Drone K,
      (obstacles.foldl
        (fun drone obs =>
          if obs.getStatus ≠ .landed ∧ obs.getName ≠ drone.getName then
            drone.addCollision m obs.getPosition Canvas.droneCollisionDistance
          else drone) d0).goalPosition = d0.goalPosition ∧
      (obstacles.foldl
        (fun drone obs =>
          if obs.getStatus ≠ .landed ∧ obs.getName ≠ drone.getName then
            drone.addCollision m obs.getPosition Canvas.droneCollisionDistance
          else drone) d0).status = d0.status := by
  induction obstacles with
  | nil => intro d0; exact ⟨rfl, rfl⟩
  | cons obs rest ih =>
    intro d0
    rw [List.foldl_cons]
    obtain ⟨i1, i2⟩ := ih (if obs.getStatus ≠ .landed ∧ obs.getName ≠ d0.getName then
        d0.addCollision m obs.getPosition Canvas.droneCollisionDistance else d0)
    rw [i1, i2]
    have ha := addCollision_fields m d0 obs.getPosition Canvas.droneCollisionDistance
    constructor
    · split_ifs
      · exact ha.1
      · rfl
    · split_ifs
      · exact ha.2
      · rfl

/-- The collision handling of a sub-step changes neither the goal nor the status. -/
theorem collisions_fields (m : CMath K) (mapDrones : List (Drone K)) (drone : Drone K) :
    (MainWindow.collisions m mapDrones drone).goalPosition = drone.goalPosition ∧
    (MainWindow.collisions m mapDrones drone).status = drone.status := by
  unfold MainWindow.collisions
  split_ifs
  · obtain ⟨i1, i2⟩ := collisions_fold_fields m mapDrones drone.initCollision
    rw [i1, i2]
    exact ⟨rfl, rfl⟩
  · exact ⟨rfl, rfl⟩

/-- Goal resolution in the body of the drone loop: if `findServerByName` on the target
server of the drone finds a server, the goal of the drone is the position of that server
when `Drone::update` runs, whatever the goal was before, and still after it; if it finds
none, `Drone::update` runs on the drone with its goal and its status as they were. -/
theorem goal_resolution (m : CMath K) (servers : List (Server K)) (dt : K)
    (mapDrones : List (Drone K)) (drone : Drone K) :
    (∀ t : Server K, Canvas.findServerByName servers drone.getTargetServer = some t →
      MainWindow.updateDrone m servers dt mapDrones drone
        = (MainWindow.collisions m mapDrones
            (drone.setGoalPosition t.getPosition)).update m dt ∧
      (MainWindow.collisions m mapDrones
        (drone.setGoalPosition t.getPosition)).goalPosition = t.getPosition ∧
      (MainWindow.collisions m mapDrones
        (drone.setGoalPosition t.getPosition)).status = drone.status ∧
      (MainWindow.updateDrone m servers dt mapDrones drone).goalPosition = t.getPosition) ∧
    (Canvas.findServerByName servers drone.getTargetServer = none →
      MainWindow.updateDrone m servers dt mapDrones drone
        = (MainWindow.collisions m mapDrones drone).update m dt ∧
      (MainWindow.collisions m mapDrones drone).goalPosition = drone.goalPosition ∧
      (MainWindow.collisions m mapDrones drone).status = drone.status ∧
      (MainWindow.updateDrone m servers dt mapDrones drone).goalPosition
        = drone.goalPosition) := by
  constructor
  · intro t ht
    have hr : MainWindow.resolveGoal servers drone = drone.setGoalPosition t.getPosition := by
      unfold MainWindow.resolveGoal
      rw [ht]
    have hu : MainWindow.updateDrone m servers dt mapDrones drone
        = (MainWindow.collisions m mapDrones
            (drone.setGoalPosition t.getPosition)).update m dt := by
      unfold MainWindow.updateDrone
      rw [hr]
    obtain ⟨c1, c2⟩ := collisions_fields m mapDrones (drone.setGoalPosition t.getPosition)
    refine ⟨hu, ?_, ?_, ?_⟩
    · rw [c1]; rfl
    · rw [c2]; rfl
    · rw [hu, update_goalPosition, c1]; rfl
  · intro hnone
    have hr : MainWindow.resolveGoal servers drone = drone := by
      unfold MainWindow.resolveGoal
      rw [hnone]
    have hu : MainWindow.updateDrone m servers dt mapDrones drone
        = (MainWindow.collisions m mapDrones drone).update m dt := by
      unfold MainWindow.updateDrone
      rw [hr]
    obtain ⟨c1, c2⟩ := collisions_fields m mapDrones drone
    exact ⟨hu, c1, c2, by rw [hu, update_goalPosition, c1]⟩

/-- The loop body with the servers `A` and `B`: a drone whose target is "A" gets the
position of `A` as goal; a drone whose target is "Z", which no server bears, keeps its
goal. -/
theorem goal_resolution_witness :
    Canvas.findServerByName [serverA, serverB]
      ((Drone.new "d1" 0 0 : Drone ℝ).setTargetServer "A").getTargetServer = some serverA ∧
    (MainWindow.updateDrone realMath [serverA, serverB] (1 / 50) []
      ((Drone.new "d1" 0 0 : Drone ℝ).setTargetServer "A")).goalPosition
        = serverA.getPosition ∧
    Canvas.findServerByName [serverA, serverB]
      ((Drone.new "d1" 0 0 : Drone ℝ).setTargetServer "Z").getTargetServer = none ∧
    (MainWindow.updateDrone realMath [serverA, serverB] (1 / 50) []
      ((Drone.new "d1" 0 0 : Drone ℝ).setTargetServer "Z")).goalPosition
        = ((Drone.new "d1" 0 0 : Drone ℝ).setTargetServer "Z").goalPosition := by
  have hA : Canvas.findServerByName [serverA, serverB]
      ((Drone.new "d1" 0 0 : Drone ℝ).setTargetServer "A").getTargetServer = some serverA := by
    simp [Canvas.findServerByName, Drone.getTargetServer, Drone.setTargetServer,
      Server.getName, serverA]
  have hZ : Canvas.findServerByName [serverA, serverB]
      ((Drone.new "d1" 0 0 : Drone ℝ).setTargetServer "Z").getTargetServer = none := by
    simp [Canvas.findServerByName, Drone.getTargetServer, Drone.setTargetServer,
      Server.getName, serverA, serverB]
  exact ⟨hA,
    ((goal_resolution realMath [serverA, serverB] (1 / 50) []
      ((Drone.new "d1" 0 0 : Drone ℝ).setTargetServer "A")).1 serverA hA).2.2.2,
    hZ,
    ((goal_resolution realMath [serverA, serverB] (1 / 50) []
      ((Drone.new "d1" 0 0 : Drone ℝ).setTargetServer "Z")).2 hZ).2.2.2⟩

end Simulator

/-! ## Power and height ranges, status cycle -/

section Ranges

variable {K : Type} [LinearOrderedField K]

/-- The upper half of the power range is kept by `update`: with `dt >= 0`, a power at
most `maxPower` stays at most `maxPower`. -/
theorem update_power_le_maxPower (m : CMath K) (d : Drone K) (dt : K) (hdt : 0 ≤ dt)
    (h : d.power ≤ Drone.maxPower) : (d.update m dt).power ≤ Drone.maxPower := by
  have hc : 0 ≤ dt * (Drone.powerConsumption : K) :=
    mul_nonneg hdt (by unfold Drone.powerConsumption; norm_num)
  rcases status_cases d.status with hs | hs | hs | hs
  · rw [update_landed m d dt hs]
    exact min_le_left _ _
  · rw [update_takeoff_state m d dt hs]
    show d.power - dt * Drone.powerConsumption ≤ Drone.maxPower
    linarith
  · rw [update_landing_state m d dt hs]
    show d.power - dt * Drone.powerConsumption ≤ Drone.maxPower
    linarith
  · rw [update_cruise m d dt hs]
    show d.power - dt * Drone.powerConsumption ≤ Drone.maxPower
    linarith

/-- C14 fails on the code at the lower bound: a newly constructed drone (power 100) on
which `start()` and then `update(16)` twice are called ends landed with power -60. The
first call climbs past the hovering height and, the power being 20, switches to landing;
the second lands and still subtracts `dt * powerConsumption = 80`. -/
theorem power_negative_after_landing :
    (Drone.new "d1" 0 0 : Drone ℝ).power = Drone.maxPower / 2 ∧
    (Drone.updates realMath 16 1 (Drone.new "d1" 0 0).start).power = 20 ∧
    (Drone.updates realMath 16 2 (Drone.new "d1" 0 0).start).status = .landed ∧
    (Drone.updates realMath 16 2 (Drone.new "d1" 0 0).start).power = -60 ∧
    ¬ (0 ≤ (Drone.updates realMath 16 2 (Drone.new "d1" 0 0).start).power) ∧
    (Drone.updates realMath 16 2 (Drone.new "d1" 0 0).start).getPower = -30 := by
  have hstep1 : Drone.updates realMath 16 1 (Drone.new "d1" 0 0).start
      = ((Drone.new "d1" 0 0).start : Drone ℝ).update realMath 16 := rfl
  have hstep2 : Drone.updates realMath 16 2 (Drone.new "d1" 0 0).start
      = (((Drone.new "d1" 0 0).start : Drone ℝ).update realMath 16).update realMath 16 := rfl
  have e1 := update_takeoff_state realMath ((Drone.new "d1" 0 0).start : Drone ℝ) 16 rfl
  have hs1 : (((Drone.new "d1" 0 0).start : Drone ℝ).update realMath 16).status
      = .landing := by
    rw [e1]
    norm_num [Drone.start, Drone.new, Drone.maxPower, Drone.powerConsumption]
  have hp1 : (((Drone.new "d1" 0 0).start : Drone ℝ).update realMath 16).power = 20 := by
    rw [e1]
    norm_num [Drone.start, Drone.new, Drone.maxPower, Drone.powerConsumption]
  have hh1 : (((Drone.new "d1" 0 0).start : Drone ℝ).update realMath 16).height = 5 := by
    rw [e1]
    norm_num [Drone.start, Drone.new, Drone.takeoffSpeed, Drone.hoveringHeight]
  have e2 := update_landing_state realMath
    (((Drone.new "d1" 0 0).start : Drone ℝ).update realMath 16) 16 hs1
  have hs2 : (Drone.updates realMath 16 2 (Drone.new "d1" 0 0).start).status = .landed := by
    rw [hstep2, e2]
    simp only [hh1]
    norm_num [Drone.takeoffSpeed]
  have hp2 : (Drone.updates realMath 16 2 (Drone.new "d1" 0 0).start).power = -60 := by
    rw [hstep2, e2]
    simp only [hp1]
    norm_num [Drone.powerConsumption]
  refine ⟨rfl, by rw [hstep1]; exact hp1, hs2, hp2, by rw [hp2]; norm_num, ?_⟩
  unfold Drone.getPower
  rw [hp2]
  norm_num [Drone.maxPower]

/-- C15: for every drone state with `0 <= height <= hoveringHeight`, each of `start()`,
`stop()` and `update(dt)` with `dt >= 0`, in every status, yields a state with
`0 <= height <= hoveringHeight`; the height is `hoveringHeight` when `update` switches
takeoff to hovering and 0 when it switches landing to landed. -/
theorem height_in_range (m : CMath K) (d : Drone K) (dt : K)
    (h0 : 0 ≤ d.height) (h1 : d.height ≤ Drone.hoveringHeight) (hdt : 0 ≤ dt) :
    (0 ≤ d.start.height ∧ d.start.height ≤ Drone.hoveringHeight) ∧
    (0 ≤ d.stop.height ∧ d.stop.height ≤ Drone.hoveringHeight) ∧
    (0 ≤ (d.update m dt).height ∧ (d.update m dt).height ≤ Drone.hoveringHeight) ∧
    (d.status = .takeoff → d.height + dt * Drone.takeoffSpeed ≥ Drone.hoveringHeight →
      (d.update m dt).height = Drone.hoveringHeight) ∧
    (d.status = .takeoff → (d.update m dt).status = .hovering →
      (d.update m dt).height = Drone.hoveringHeight) ∧
    (d.status = .landing → (d.update m dt).status = .landed →
      (d.update m dt).height = 0) := by
  have hhh : (0 : K) ≤ Drone.hoveringHeight := by unfold Drone.hoveringHeight; norm_num
  have hts : 0 ≤ dt * (Drone.takeoffSpeed : K) :=
    mul_nonneg hdt (by unfold Drone.takeoffSpeed; norm_num)
  refine ⟨⟨le_refl _, hhh⟩, ⟨h0, h1⟩, ?_, ?_, ?_, ?_⟩
  · rcases status_cases d.status with hs | hs | hs | hs
    · rw [update_landed m d dt hs]; exact ⟨h0, h1⟩
    · rw [update_takeoff_state m d dt hs]
      show 0 ≤ (if d.height + dt * Drone.takeoffSpeed ≥ Drone.hoveringHeight
          then Drone.hoveringHeight else d.height + dt * Drone.takeoffSpeed) ∧
        (if d.height + dt * Drone.takeoffSpeed ≥ Drone.hoveringHeight
          then Drone.hoveringHeight else d.height + dt * Drone.takeoffSpeed)
          ≤ Drone.hoveringHeight
      split_ifs with hc
      · exact ⟨hhh, le_refl _⟩
      · exact ⟨by linarith, le_of_lt (not_le.mp hc)⟩
    · rw [update_landing_state m d dt hs]
      show 0 ≤ (if d.height - dt * Drone.takeoffSpeed ≤ 0 then 0
          else d.height - dt * Drone.takeoffSpeed) ∧
        (if d.height - dt * Drone.takeoffSpeed ≤ 0 then 0
          else d.height - dt * Drone.takeoffSpeed) ≤ Drone.hoveringHeight
      split_ifs with hc
      · exact ⟨le_refl _, hhh⟩
      · exact ⟨le_of_lt (not_le.mp hc), by linarith⟩
    · rw [update_cruise m d dt hs]; exact ⟨h0, h1⟩
  · intro hs hreach
    rw [update_takeoff_state m d dt hs]
    show (if d.height + dt * Drone.takeoffSpeed ≥ Drone.hoveringHeight
      then Drone.hoveringHeight else d.height + dt * Drone.takeoffSpeed) = _
    rw [if_pos hreach]
  · intro hs
    rw [update_takeoff_state m d dt hs]
    intro hst
    show (if d.height + dt * Drone.takeoffSpeed ≥ Drone.hoveringHeight
      then Drone.hoveringHeight else d.height + dt * Drone.takeoffSpeed) = _
    have hst2 : (if d.power - dt * Drone.powerConsumption < 22 then Drone.droneStatus.landing
        else if d.height + dt * Drone.takeoffSpeed ≥ Drone.hoveringHeight
          then Drone.droneStatus.hovering else Drone.droneStatus.takeoff)
        = Drone.droneStatus.hovering := hst
    by_cases hreach : d.height + dt * Drone.takeoffSpeed ≥ Drone.hoveringHeight
    · rw [if_pos hreach]
    · rw [if_neg hreach] at hst2
      split_ifs at hst2
  · intro hs
    rw [update_landing_state m d dt hs]
    intro hst
    show (if d.height - dt * Drone.takeoffSpeed ≤ 0 then 0
      else d.height - dt * Drone.takeoffSpeed) = 0
    have hst2 : (if d.height - dt * Drone.takeoffSpeed ≤ 0 then Drone.droneStatus.landed
        else Drone.droneStatus.landing) = Drone.droneStatus.landed := hst
    by_cases hc : d.height - dt * Drone.takeoffSpeed ≤ 0
    · rw [if_pos hc]
    · rw [if_neg hc] at hst2
      cases hst2

/-- C17: `update(dt)` changes the status only along the cycle: a landed drone stays
landed; a drone in takeoff ends in takeoff, hovering or landing; a drone in cruise
(hovering, turning, flying) keeps its status or ends in landing; a landing drone ends in
landing or landed, and landed exactly when `height - dt * takeoffSpeed <= 0`. So
`update` never takes a drone out of landed and never moves a drone in takeoff or in
cruise directly to landed. -/
theorem update_status_cycle (m : CMath K) (d : Drone K) (dt : K) :
    (d.status = .landed → (d.update m dt).status = .landed) ∧
    (d.status = .takeoff →
      (d.update m dt).status = .takeoff ∨ (d.update m dt).status = .hovering ∨
        (d.update m dt).status = .landing) ∧
    (d.status = .hovering ∨ d.status = .turning ∨ d.status = .flying →
      (d.update m dt).status = d.status ∨ (d.update m dt).status = .landing) ∧
    (d.status = .landing →
      ((d.update m dt).status = .landing ∨ (d.update m dt).status = .landed) ∧
      ((d.update m dt).status = .landed ↔ d.height - dt * Drone.takeoffSpeed ≤ 0)) ∧
    (d.status ≠ .landed → d.status ≠ .landing → (d.update m dt).status ≠ .landed) := by
  have hland : d.status = .landed → (d.update m dt).status = .landed := by
    intro hs
    rw [update_landed m d dt hs]
    exact hs
  have htake : d.status = .takeoff →
      (d.update m dt).status = .takeoff ∨ (d.update m dt).status = .hovering ∨
        (d.update m dt).status = .landing := by
    intro hs
    rw [update_takeoff_state m d dt hs]
    show (if d.power - dt * Drone.powerConsumption < 22 then Drone.droneStatus.landing
        else if d.height + dt * Drone.takeoffSpeed ≥ Drone.hoveringHeight
          then Drone.droneStatus.hovering else Drone.droneStatus.takeoff) = _ ∨
      (if d.power - dt * Drone.powerConsumption < 22 then Drone.droneStatus.landing
        else if d.height + dt * Drone.takeoffSpeed ≥ Drone.hoveringHeight
          then Drone.droneStatus.hovering else Drone.droneStatus.takeoff) = _ ∨
      (if d.power - dt * Drone.powerConsumption < 22 then Drone.droneStatus.landing
        else if d.height + dt * Drone.takeoffSpeed ≥ Drone.hoveringHeight
          then Drone.droneStatus.hovering else Drone.droneStatus.takeoff) = _
    split_ifs
    · exact Or.inr (Or.inr rfl)
    · exact Or.inr (Or.inl rfl)
    · exact Or.inl rfl
  have hcruise : d.status = .hovering ∨ d.status = .turning ∨ d.status = .flying →
      (d.update m dt).status = d.status ∨ (d.update m dt).status = .landing := by
    intro hs
    rw [update_cruise m d dt hs]
    show (if d.cruiseLands m dt then Drone.droneStatus.landing else d.status) = _ ∨
      (if d.cruiseLands m dt then Drone.droneStatus.landing else d.status) = _
    split_ifs
    · exact Or.inr rfl
    · exact Or.inl rfl
  refine ⟨hland, htake, hcruise, ?_, ?_⟩
  · intro hs
    rw [update_landing_state m d dt hs]
    show ((if d.height - dt * Drone.takeoffSpeed ≤ 0 then Drone.droneStatus.landed
        else Drone.droneStatus.landing) = _ ∨
      (if d.height - dt * Drone.takeoffSpeed ≤ 0 then Drone.droneStatus.landed
        else Drone.droneStatus.landing) = _) ∧
      ((if d.height - dt * Drone.takeoffSpeed ≤ 0 then Drone.droneStatus.landed
        else Drone.droneStatus.landing) = Drone.droneStatus.landed ↔ _)
    by_cases hc : d.height - dt * Drone.takeoffSpeed ≤ 0
    · rw [if_pos hc]
      exact ⟨Or.inr rfl, fun _ => hc, fun _ => rfl⟩
    · rw [if_neg hc]
      refine ⟨Or.inl rfl, fun h => ?_, fun h => absurd h hc⟩
      cases h
  · intro hnl hnlg
    rcases status_cases d.status with hs | hs | hs | hs
    · exact absurd hs hnl
    · rcases htake hs with h | h | h <;> rw [h] <;> decide
    · exact absurd hs hnlg
    · rcases hcruise hs with h | h
      · rw [h]; exact hnl
      · rw [h]; decide

/-- Instance of C15: the first `update(1)` of a newly constructed and started drone. -/
theorem height_in_range_witness :
    (0 : ℝ) ≤ ((Drone.new "d1" 0 0).start : Drone ℝ).height ∧
    ((Drone.new "d1" 0 0).start : Drone ℝ).height ≤ Drone.hoveringHeight ∧
    (0 : ℝ) ≤ 1 ∧
    0 ≤ (((Drone.new "d1" 0 0).start : Drone ℝ).update realMath 1).height ∧
    (((Drone.new "d1" 0 0).start : Drone ℝ).update realMath 1).height
      ≤ Drone.hoveringHeight :=
  ⟨le_refl _, by norm_num [Drone.start, Drone.hoveringHeight], by norm_num,
   (height_in_range realMath ((Drone.new "d1" 0 0).start : Drone ℝ) 1 (le_refl _)
      (by norm_num [Drone.start, Drone.hoveringHeight]) (by norm_num)).2.2.1⟩

/-- Instance of C17: the hovering drone with power 19.9 keeps its status or lands. -/
theorem update_status_cycle_witness :
    (lowPowerDrone.status = .hovering ∨ lowPowerDrone.status = .turning ∨
      lowPowerDrone.status = .flying) ∧
    ((lowPowerDrone.update realMath 1).status = lowPowerDrone.status ∨
      (lowPowerDrone.update realMath 1).status = .landing) :=
  ⟨Or.inl rfl, (update_status_cycle realMath lowPowerDrone 1).2.2.1 (Or.inl rfl)⟩

end Ranges

/-! ## Azimuth -/

section Azimuth

variable {K : Type} [LinearOrderedField K]

/-- The azimuth after a cruise `update`. -/
theorem update_cruise_azimut (m : CMath K) (d : Drone K) (dt : K)
    (hs : d.status = .hovering ∨ d.status = .turning ∨ d.status = .flying) :
    (d.update m dt).azimut = Drone.cruiseAzimut m (d.cruiseV m dt) := by
  rw [update_cruise m d dt hs]

/-- The velocity that `update(1/10)` gives to the drone heading along +y is (0, 20). -/
theorem plusYDrone_cruiseV :
    plusYDrone.cruiseV realMath (1 / 10) = ⟨0, 20⟩ ∧
    (plusYDrone.cruiseV realMath (1 / 10)).length realMath = 20 := by
  have hlen : (plusYDrone.goalPosition.sub plusYDrone.position).length realMath = 10 :=
    real_length_eq _ _ 10 (by norm_num)
      (by norm_num [plusYDrone, hoverAt, Drone.new, Vector2D.sub])
  have hv : plusYDrone.cruiseV realMath (1 / 10) = ⟨0, 20⟩ := by
    unfold Drone.cruiseV
    rw [hlen]
    norm_num [plusYDrone, hoverAt, Drone.new, Vector2D.sub, Vector2D.add, Vector2D.smul,
      Drone.maxPower, Drone.damping]
  refine ⟨hv, ?_⟩
  rw [hv]
  exact real_length_eq _ _ 20 (by norm_num) (by norm_num)

/-- C18, as stated, fails: for the hovering drone whose velocity after `update(1/10)` is
(0, 20), so that `Vn = (0, 1)`, the azimuth set by `update` is 180 degrees, not 0. -/
theorem azimut_plus_y_is_180 :
    plusYDrone.status = .hovering ∧
    Vector2D.smul (1 / (plusYDrone.cruiseV realMath (1 / 10)).length realMath)
      (plusYDrone.cruiseV realMath (1 / 10)) = ⟨0, 1⟩ ∧
    (plusYDrone.update realMath (1 / 10)).azimut = 180 ∧
    (plusYDrone.update realMath (1 / 10)).getAzimut ≠ 0 := by
  obtain ⟨hv, hl⟩ := plusYDrone_cruiseV
  have hVn : Vector2D.smul (1 / (plusYDrone.cruiseV realMath (1 / 10)).length realMath)
      (plusYDrone.cruiseV realMath (1 / 10)) = ⟨0, 1⟩ := by
    rw [hl, hv]
    norm_num [Vector2D.smul]
  have haz : (plusYDrone.update realMath (1 / 10)).azimut = 180 := by
    rw [update_cruise_azimut realMath plusYDrone (1 / 10) (Or.inl rfl)]
    unfold Drone.cruiseAzimut
    rw [hVn]
    norm_num [realMath]
  refine ⟨rfl, hVn, haz, ?_⟩
  unfold Drone.getAzimut
  rw [haz]
  norm_num

/-- C18, amended: for a drone in cruise whose velocity after the update points in the +y
direction (`Vn = (0, 1)`), the azimuth set by `update` is 180 degrees; it is 0 degrees
when the velocity points in the -y direction (`Vn = (0, -1)`). Here `atan(0) = 0`. -/
theorem azimut_along_y (m : CMath K) (d : Drone K) (dt : K)
    (hs : d.status = .hovering ∨ d.status = .turning ∨ d.status = .flying)
    (hatan : m.atan 0 = 0) :
    (Vector2D.smul (1 / (d.cruiseV m dt).length m) (d.cruiseV m dt) = ⟨0, 1⟩ →
      (d.update m dt).azimut = 180) ∧
    (Vector2D.smul (1 / (d.cruiseV m dt).length m) (d.cruiseV m dt) = ⟨0, -1⟩ →
      (d.update m dt).azimut = 0) := by
  constructor
  · intro hVn
    rw [update_cruise_azimut m d dt hs]
    unfold Drone.cruiseAzimut
    rw [hVn]
    have h1 : ¬ ((1 : K) = 0) := one_ne_zero
    have h2 : (1 : K) > 0 := one_pos
    simp only [h1, h2, if_true, if_false, zero_div, hatan, mul_zero, sub_zero]
  · intro hVn
    rw [update_cruise_azimut m d dt hs]
    unfold Drone.cruiseAzimut
    rw [hVn]
    have h1 : ¬ ((-1 : K) = 0) := by norm_num
    have h2 : ¬ ((-1 : K) > 0) := by norm_num
    simp only [h1, h2, if_false, zero_div, hatan, mul_zero]

/-- Instance of the amended C18: the drone heading along +y, over the reals. -/
theorem azimut_along_y_witness :
    (plusYDrone.status = .hovering ∨ plusYDrone.status = .turning ∨
      plusYDrone.status = .flying) ∧
    realMath.atan 0 = 0 ∧
    Vector2D.smul (1 / (plusYDrone.cruiseV realMath (1 / 10)).length realMath)
      (plusYDrone.cruiseV realMath (1 / 10)) = ⟨0, 1⟩ ∧
    (plusYDrone.update realMath (1 / 10)).azimut = 180 := by
  obtain ⟨hv, hl⟩ := plusYDrone_cruiseV
  have hVn : Vector2D.smul (1 / (plusYDrone.cruiseV realMath (1 / 10)).length realMath)
      (plusYDrone.cruiseV realMath (1 / 10)) = ⟨0, 1⟩ := by
    rw [hl, hv]
    norm_num [Vector2D.smul]
  have hatan : realMath.atan 0 = 0 := Real.arctan_zero
  exact ⟨Or.inl rfl, hatan, hVn,
    (azimut_along_y realMath plusYDrone (1 / 10) (Or.inl rfl) hatan).1 hVn⟩

/-- C19 fails on the code: for the hovering drone at rest with no collision force and
`dt = 0`, the speed computed by `update` is 0 and `update` still divides by it (`1.0 /
speed`), and the azimuth after the call is not the azimuth before it. In the exact model,
where a quotient by 0 is 0, the new azimuth is 90; the old one is 0. -/
theorem zero_speed_not_guarded :
    plusYDrone.status = .hovering ∧ plusYDrone.V = ⟨0, 0⟩ ∧
    plusYDrone.ForceCollision = ⟨0, 0⟩ ∧
    (plusYDrone.cruiseV realMath 0).length realMath = 0 ∧
    (0 : ℝ) ∈ Drone.updateDivisors realMath plusYDrone 0 ∧
    plusYDrone.azimut = 0 ∧
    (plusYDrone.update realMath 0).azimut = 90 ∧
    (plusYDrone.update realMath 0).azimut ≠ plusYDrone.azimut := by
  have hv : plusYDrone.cruiseV realMath 0 = ⟨0, 0⟩ := by
    unfold Drone.cruiseV
    norm_num [plusYDrone, hoverAt, Drone.new, Vector2D.add, Vector2D.smul]
  have hl : (plusYDrone.cruiseV realMath 0).length realMath = 0 := by
    rw [hv]
    exact real_length_eq _ _ 0 (le_refl 0) (by norm_num)
  have hdiv : (0 : ℝ) ∈ Drone.updateDivisors realMath plusYDrone 0 := by
    unfold Drone.updateDivisors
    rw [hl]
    simp [plusYDrone, hoverAt]
  have haz : (plusYDrone.update realMath 0).azimut = 90 := by
    rw [update_cruise_azimut realMath plusYDrone 0 (Or.inl rfl)]
    unfold Drone.cruiseAzimut
    rw [hl, hv]
    norm_num [Vector2D.smul]
  refine ⟨rfl, rfl, rfl, hl, hdiv, rfl, haz, ?_⟩
  rw [haz]
  show (90 : ℝ) ≠ 0
  norm_num

end Azimuth

/-! ## The step count along a run -/

section StepCount

variable {K : Type} [LinearOrderedField K]

theorem run_nil (m : CMath K) (servers : List (Server K)) (st : MainWindow.State K) :
    MainWindow.run m servers st [] = st := rfl

theorem run_cons (m : CMath K) (servers : List (Server K)) (st : MainWindow.State K)
    (t : Int × Int) (ts : List (Int × Int)) :
    MainWindow.run m servers st (t :: ts)
      = MainWindow.run m servers (MainWindow.update m servers st t.1 t.2) ts := rfl

/-- A step count in 0..10 stays in 0..10 along a run. -/
theorem run_steps_range (m : CMath K) (servers : List (Server K))
    (ticks : List (Int × Int)) :
    ∀ st : MainWindow.State K, 0 ≤ st.steps → st.steps ≤ 10 →
      0 ≤ (MainWindow.run m servers st ticks).steps ∧
      (MainWindow.run m servers st ticks).steps ≤ 10 := by
  induction ticks with
  | nil => intro st h0 h1; exact ⟨h0, h1⟩
  | cons t rest ih =>
    intro st h0 h1
    rw [run_cons]
    apply ih
    · rw [update_steps]
      split_ifs
      · exact Int.tdiv_nonneg h0 (by norm_num)
      · linarith
      · exact h0
    · rw [update_steps]
      split_ifs with hd hs
      · rw [Int.tdiv_eq_ediv h0 (by norm_num)]
        omega
      · omega
      · exact h1

/-- C21: starting from `steps = 5`, for every finite sequence of ticks, with whatever
measured costs `d`, the sub-step count is within `0 <= steps <= 10` after the last
tick, hence after every tick. -/
theorem steps_in_range (m : CMath K) (servers : List (Server K)) (elapsed : Int)
    (mapDrones : List (Drone K)) (ticks : List (Int × Int)) :
    (MainWindow.State.initial elapsed mapDrones : MainWindow.State K).steps = 5 ∧
    0 ≤ (MainWindow.run m servers (MainWindow.State.initial elapsed mapDrones) ticks).steps ∧
    (MainWindow.run m servers (MainWindow.State.initial elapsed mapDrones) ticks).steps
      ≤ 10 := by
  refine ⟨rfl, ?_⟩
  exact run_steps_range m servers ticks _ (by show (0 : Int) ≤ 5; norm_num)
    (by show (5 : Int) ≤ 10; norm_num)

/-- C22: after three consecutive ticks with `d > 90` from the initial state the sub-step
count is 0 (5, then 2, 1, 0); in the tick that follows, the divisor `1000 * steps` of the
`dt` computation is zero, the sub-step loop runs no time and the drones are left as they
were, while `last` takes the new time. -/
theorem steps_reach_zero (m : CMath K) (servers : List (Server K)) (elapsed : Int)
    (mapDrones : List (Drone K)) (c1 d1 c2 d2 c3 d3 : Int)
    (h1 : d1 > 90) (h2 : d2 > 90) (h3 : d3 > 90) :
    (MainWindow.run m servers (MainWindow.State.initial elapsed mapDrones)
      [(c1, d1)]).steps = 2 ∧
    (MainWindow.run m servers (MainWindow.State.initial elapsed mapDrones)
      [(c1, d1), (c2, d2)]).steps = 1 ∧
    (MainWindow.run m servers (MainWindow.State.initial elapsed mapDrones)
      [(c1, d1), (c2, d2), (c3, d3)]).steps = 0 ∧
    (1000 * ((MainWindow.run m servers (MainWindow.State.initial elapsed mapDrones)
      [(c1, d1), (c2, d2), (c3, d3)]).steps : K) = 0) ∧
    ∀ current d : Int,
      (MainWindow.update m servers
        (MainWindow.run m servers (MainWindow.State.initial elapsed mapDrones)
          [(c1, d1), (c2, d2), (c3, d3)]) current d).mapDrones
        = (MainWindow.run m servers (MainWindow.State.initial elapsed mapDrones)
          [(c1, d1), (c2, d2), (c3, d3)]).mapDrones ∧
      (MainWindow.update m servers
        (MainWindow.run m servers (MainWindow.State.initial elapsed mapDrones)
          [(c1, d1), (c2, d2), (c3, d3)]) current d).last = current := by
  have e1 : (MainWindow.run m servers (MainWindow.State.initial elapsed mapDrones)
      [(c1, d1)]).steps = 2 := by
    rw [run_cons, run_nil, update_steps, if_pos h1]
    rfl
  have e2 : (MainWindow.run m servers (MainWindow.State.initial elapsed mapDrones)
      [(c1, d1), (c2, d2)]).steps = 1 := by
    have e1' : (MainWindow.update m servers (MainWindow.State.initial elapsed mapDrones)
        c1 d1).steps = 2 := by rw [update_steps, if_pos h1]; rfl
    rw [run_cons, run_cons, run_nil, update_steps, if_pos h2, e1']
    rfl
  have e3 : (MainWindow.run m servers (MainWindow.State.initial elapsed mapDrones)
      [(c1, d1), (c2, d2), (c3, d3)]).steps = 0 := by
    have e1' : (MainWindow.update m servers (MainWindow.State.initial elapsed mapDrones)
        c1 d1).steps = 2 := by rw [update_steps, if_pos h1]; rfl
    have e2' : (MainWindow.update m servers
        (MainWindow.update m servers (MainWindow.State.initial elapsed mapDrones) c1 d1)
        c2 d2).steps = 1 := by rw [update_steps, if_pos h2, e1']; rfl
    rw [run_cons, run_cons, run_cons, run_nil, update_steps, if_pos h3, e2']
    rfl
  refine ⟨e1, e2, e3, by rw [e3]; simp, ?_⟩
  intro current d
  refine ⟨?_, rfl⟩
  show (MainWindow.subStep m servers _)^[(MainWindow.run m servers
      (MainWindow.State.initial elapsed mapDrones)
      [(c1, d1), (c2, d2), (c3, d3)]).steps.toNat] _ = _
  rw [e3]
  rfl

/-- Instance of C22: three ticks measured at 100 ms each. -/
theorem steps_reach_zero_witness :
    (100 : Int) > 90 ∧
    (MainWindow.run realMath [serverA, serverB]
      (MainWindow.State.initial 0 [hoverAt "d1" ⟨0, 0⟩])
      [(100, 100), (200, 100), (300, 100)]).steps = 0 ∧
    (MainWindow.update realMath [serverA, serverB]
      (MainWindow.run realMath [serverA, serverB]
        (MainWindow.State.initial 0 [hoverAt "d1" ⟨0, 0⟩])
        [(100, 100), (200, 100), (300, 100)]) 400 10).mapDrones
      = (MainWindow.run realMath [serverA, serverB]
        (MainWindow.State.initial 0 [hoverAt "d1" ⟨0, 0⟩])
        [(100, 100), (200, 100), (300, 100)]).mapDrones :=
  ⟨by norm_num,
   (steps_reach_zero realMath [serverA, serverB] 0 [hoverAt "d1" ⟨0, 0⟩]
      100 100 200 100 300 100 (by norm_num) (by norm_num) (by norm_num)).2.2.1,
   ((steps_reach_zero realMath [serverA, serverB] 0 [hoverAt "d1" ⟨0, 0⟩]
      100 100 200 100 300 100 (by norm_num) (by norm_num) (by norm_num)).2.2.2.2
      400 10).1⟩

end StepCount

/-! ## The drone loop of a sub-step, entry by entry -/

section SubStepEntries

variable {K : Type} [LinearOrderedField K]

/-- The drone loop of `subStep` run on the first `n` drones: the list keeps its
length, each of the first `n` entries is the loop body applied to the former entry (with
the list as it stood then), and the other entries are untouched. -/
theorem subStep_range (m : CMath K) (servers : List (Server K)) (dt : K)
    (ds : List (Drone K)) :
    ∀ n : Nat, n ≤ ds.length →
      ((List.range n).foldl
        (fun ds i =>
          match ds[i]? with
          | some drone => ds.set i (MainWindow.updateDrone m servers dt ds drone)
          | none => ds) ds).length = ds.length ∧
      (∀ i : Nat, i < n → ∃ ctx : List (Drone K),
        ((List.range n).foldl
          (fun ds i =>
            match ds[i]? with
            | some drone => ds.set i (MainWindow.updateDrone m servers dt ds drone)
            | none => ds) ds)[i]?
          = (ds[i]?).map (MainWindow.updateDrone m servers dt ctx)) ∧
      (∀ i : Nat, n ≤ i →
        ((List.range n).foldl
          (fun ds i =>
            match ds[i]? with
            | some drone => ds.set i (MainWindow.updateDrone m servers dt ds drone)
            | none => ds) ds)[i]? = ds[i]?) := by
  intro n
  induction n with
  | zero =>
    intro _
    refine ⟨rfl, fun i hi => absurd hi (Nat.not_lt_zero i), fun i _ => rfl⟩
  | succ n ih =>
    intro hn
    obtain ⟨hlen, hlow, hhigh⟩ := ih (Nat.le_of_succ_le hn)
    have hnlt : n < ds.length := hn
    rw [List.range_succ, List.foldl_append, List.foldl_cons, List.foldl_nil]
    generalize hc : List.foldl _ ds (List.range n) = cur at hlen hlow hhigh ⊢
    have hcur : cur[n]? = some ds[n] := by
      rw [hhigh n (le_refl n)]
      exact List.getElem?_eq_getElem hnlt
    simp only [hcur]
    refine ⟨?_, ?_, ?_⟩
    · rw [List.length_set]; exact hlen
    · intro i hi
      rcases Nat.lt_succ_iff_lt_or_eq.mp hi with h | h
      · obtain ⟨ctx, hctx⟩ := hlow i h
        refine ⟨ctx, ?_⟩
        rw [List.getElem?_set_ne (Nat.ne_of_gt h)]
        exact hctx
      · subst h
        refine ⟨cur, ?_⟩
        rw [List.getElem?_set_self (by rw [hlen]; exact hnlt),
          List.getElem?_eq_getElem hnlt]
        rfl
    · intro i hi
      rw [List.getElem?_set_ne (Nat.ne_of_lt (Nat.lt_of_succ_le hi))]
      exact hhigh i (Nat.le_of_succ_le hi)

/-- Every entry of the list after a sub-step is the loop body applied to the entry of
the same index before it. -/
theorem subStep_entries (m : CMath K) (servers : List (Server K)) (dt : K)
    (ds : List (Drone K)) :
    (MainWindow.subStep m servers dt ds).length = ds.length ∧
    ∀ i : Nat, ∃ ctx : List (Drone K),
      (MainWindow.subStep m servers dt ds)[i]?
        = (ds[i]?).map (MainWindow.updateDrone m servers dt ctx) := by
  obtain ⟨hlen, hlow, hhigh⟩ := subStep_range m servers dt ds ds.length (le_refl _)
  refine ⟨hlen, ?_⟩
  intro i
  by_cases hi : i < ds.length
  · exact hlow i hi
  · refine ⟨[], ?_⟩
    have hge : ds.length ≤ i := Nat.le_of_not_lt hi
    unfold MainWindow.subStep
    rw [hhigh i hge, List.getElem?_eq_none hge]
    rfl

end SubStepEntries

/-! ## Goal resolution in every sub-step -/

section GoalResolution

variable {K : Type} [LinearOrderedField K]

/-- The drone loop of `subStep` run on the first `n` drones, with the list that the loop
body sees: each of the first `n` entries is the loop body applied to the former entry
with a list `ctx` of the same length that still holds the former entries from that index
on. -/
theorem subStep_range_ctx (m : CMath K) (servers : List (Server K)) (dt : K)
    (ds : List (Drone K)) :
    ∀ n : Nat, n ≤ ds.length →
      ((List.range n).foldl
        (fun ds i =>
          match ds[i]? with
          | some drone => ds.set i (MainWindow.updateDrone m servers dt ds drone)
          | none => ds) ds).length = ds.length ∧
      (∀ i : Nat, i < n → ∃ ctx : List (Drone K),
        ctx.length = ds.length ∧ (∀ j : Nat, i ≤ j → ctx[j]? = ds[j]?) ∧
        ((List.range n).foldl
          (fun ds i =>
            match ds[i]? with
            | some drone => ds.set i (MainWindow.updateDrone m servers dt ds drone)
            | none => ds) ds)[i]?
          = (ds[i]?).map (MainWindow.updateDrone m servers dt ctx)) ∧
      (∀ i : Nat, n ≤ i →
        ((List.range n).foldl
          (fun ds i =>
            match ds[i]? with
            | some drone => ds.set i (MainWindow.updateDrone m servers dt ds drone)
            | none => ds) ds)[i]? = ds[i]?) := by
  intro n
  induction n with
  | zero =>
    intro _
    refine ⟨rfl, fun i hi => absurd hi (Nat.not_lt_zero i), fun i _ => rfl⟩
  | succ n ih =>
    intro hn
    obtain ⟨hlen, hlow, hhigh⟩ := ih (Nat.le_of_succ_le hn)
    have hnlt : n < ds.length := hn
    rw [List.range_succ, List.foldl_append, List.foldl_cons, List.foldl_nil]
    generalize hc : List.foldl _ ds (List.range n) = cur at hlen hlow hhigh ⊢
    have hcur : cur[n]? = some ds[n] := by
      rw [hhigh n (le_refl n)]
      exact List.getElem?_eq_getElem hnlt
    simp only [hcur]
    refine ⟨?_, ?_, ?_⟩
    · rw [List.length_set]; exact hlen
    · intro i hi
      rcases Nat.lt_succ_iff_lt_or_eq.mp hi with h | h
      · obtain ⟨ctx, hctxlen, hctxhigh, hctx⟩ := hlow i h
        refine ⟨ctx, hctxlen, hctxhigh, ?_⟩
        rw [List.getElem?_set_ne (Nat.ne_of_gt h)]
        exact hctx
      · subst h
        refine ⟨cur, hlen, fun j hj => hhigh j hj, ?_⟩
        rw [List.getElem?_set_self (by rw [hlen]; exact hnlt),
          List.getElem?_eq_getElem hnlt]
        rfl
    · intro i hi
      rw [List.getElem?_set_ne (Nat.ne_of_lt (Nat.lt_of_succ_le hi))]
      exact hhigh i (Nat.le_of_succ_le hi)

/-- C13: in every sub-step and for every drone of the map, the entry of the drone after
the sub-step is `Drone::update` run on the drone after goal resolution and collision
handling (the latter against the list `ctx` that the loop holds at that point: same
length, the entries from the drone on not yet updated). If `findServerByName` on the
target server of the drone finds a server, `update` runs with the goal equal to the
position of that server, whatever the goal was before (a goal set by a mouse command
included), and the goal is still that position afterwards; if it finds none, `update`
runs on the drone with its goal and its status as they were, so the miss forces no
transition, and the goal is unchanged afterwards. A tick of `MainWindow::update` is
`steps` such sub-steps in a row. -/
theorem subStep_goal_resolution (m : CMath K) (servers : List (Server K)) (dt : K)
    (ds : List (Drone K)) :
    (MainWindow.subStep m servers dt ds).length = ds.length ∧
    (∀ (i : Nat) (drone : Drone K), ds[i]? = some drone →
      ∃ ctx : List (Drone K),
        ctx.length = ds.length ∧ (∀ j : Nat, i ≤ j → ctx[j]? = ds[j]?) ∧
        (∀ t : Server K, Canvas.findServerByName servers drone.getTargetServer = some t →
          (MainWindow.subStep m servers dt ds)[i]?
            = some ((MainWindow.collisions m ctx
                (drone.setGoalPosition t.getPosition)).update m dt) ∧
          (MainWindow.collisions m ctx
            (drone.setGoalPosition t.getPosition)).goalPosition = t.getPosition ∧
          (MainWindow.collisions m ctx
            (drone.setGoalPosition t.getPosition)).status = drone.status ∧
          ((MainWindow.collisions m ctx
            (drone.setGoalPosition t.getPosition)).update m dt).goalPosition
              = t.getPosition) ∧
        (Canvas.findServerByName servers drone.getTargetServer = none →
          (MainWindow.subStep m servers dt ds)[i]?
            = some ((MainWindow.collisions m ctx drone).update m dt) ∧
          (MainWindow.collisions m ctx drone).goalPosition = drone.goalPosition ∧
          (MainWindow.collisions m ctx drone).status = drone.status ∧
          ((MainWindow.collisions m ctx drone).update m dt).goalPosition
            = drone.goalPosition)) ∧
    (∀ (st : MainWindow.State K) (current d : Int),
      (MainWindow.update m servers st current d).mapDrones
        = (MainWindow.subStep m servers (MainWindow.tickDt st current))^[st.steps.toNat]
            st.mapDrones) := by
  obtain ⟨hlen, hlow, _⟩ := subStep_range_ctx m servers dt ds ds.length (le_refl _)
  refine ⟨hlen, ?_, fun st current d => rfl⟩
  intro i drone hi
  have hilt : i < ds.length := by
    by_contra hge
    rw [List.getElem?_eq_none (Nat.le_of_not_lt hge)] at hi
    cases hi
  obtain ⟨ctx, hctxlen, hctxhigh, hctx⟩ := hlow i hilt
  have hentry : (MainWindow.subStep m servers dt ds)[i]?
      = some (MainWindow.updateDrone m servers dt ctx drone) := by
    unfold MainWindow.subStep
    rw [hctx, hi]
    rfl
  obtain ⟨hfound, hmiss⟩ := goal_resolution m servers dt ctx drone
  refine ⟨ctx, hctxlen, hctxhigh, ?_, ?_⟩
  · intro t ht
    obtain ⟨h1, h2, h3, h4⟩ := hfound t ht
    exact ⟨by rw [hentry, h1], h2, h3, by rw [← h1]; exact h4⟩
  · intro hnone
    obtain ⟨h1, h2, h3, h4⟩ := hmiss hnone
    exact ⟨by rw [hentry, h1], h2, h3, by rw [← h1]; exact h4⟩

/-- Instance of C13 with the servers `A` and `B` and two drones: `d1`, whose target is
"A", has been sent to (7, 7) by a mouse press; `d2` has the target "Z", which no server
bears. After one sub-step the goal of `d1` is the position of `A`, and the goal of `d2`
is the goal it had, (550, 600). -/
theorem subStep_goal_resolution_witness :
    ((Canvas.mousePressEvent goalFleet ⟨7, 7⟩)[0]?).map Drone.goalPosition = some ⟨7, 7⟩ ∧
    ((Canvas.mousePressEvent goalFleet ⟨7, 7⟩)[1]?).map Drone.goalPosition
      = some ⟨550, 600⟩ ∧
    ((MainWindow.subStep realMath [serverA, serverB] (1 / 50)
      (Canvas.mousePressEvent goalFleet ⟨7, 7⟩))[0]?).map Drone.goalPosition
        = some serverA.getPosition ∧
    ((MainWindow.subStep realMath [serverA, serverB] (1 / 50)
      (Canvas.mousePressEvent goalFleet ⟨7, 7⟩))[1]?).map Drone.goalPosition
        = some ⟨550, 600⟩ := by
  have hfleet : Canvas.mousePressEvent goalFleet ⟨7, 7⟩
      = [(((Drone.new "d1" 0 0).setTargetServer "A").setGoalPosition ⟨7, 7⟩).start,
         (Drone.new "d2" 0 0).setTargetServer "Z"] := by
    simp [Canvas.mousePressEvent, goalFleet, Drone.getStatus, Drone.setTargetServer,
      Drone.new]
  have hA : Canvas.findServerByName [serverA, serverB]
      ((((Drone.new "d1" 0 0 : Drone ℝ).setTargetServer "A").setGoalPosition
        ⟨7, 7⟩).start).getTargetServer = some serverA := by
    simp [Canvas.findServerByName, Drone.getTargetServer, Drone.setTargetServer,
      Drone.setGoalPosition, Drone.start, Server.getName, serverA]
  have hZ : Canvas.findServerByName [serverA, serverB]
      ((Drone.new "d2" 0 0 : Drone ℝ).setTargetServer "Z").getTargetServer = none := by
    simp [Canvas.findServerByName, Drone.getTargetServer, Drone.setTargetServer,
      Server.getName, serverA, serverB]
  rw [hfleet]
  obtain ⟨c0, -, -, hfound, -⟩ :=
    (subStep_goal_resolution realMath [serverA, serverB] (1 / 50)
      [(((Drone.new "d1" 0 0).setTargetServer "A").setGoalPosition ⟨7, 7⟩).start,
       (Drone.new "d2" 0 0).setTargetServer "Z"]).2.1 0 _ rfl
  obtain ⟨c1, -, -, -, hmiss⟩ :=
    (subStep_goal_resolution realMath [serverA, serverB] (1 / 50)
      [(((Drone.new "d1" 0 0).setTargetServer "A").setGoalPosition ⟨7, 7⟩).start,
       (Drone.new "d2" 0 0).setTargetServer "Z"]).2.1 1 _ rfl
  obtain ⟨e0, -, -, g0⟩ := hfound serverA hA
  obtain ⟨e1, -, -, g1⟩ := hmiss hZ
  refine ⟨rfl, rfl, ?_, ?_⟩
  · rw [e0, Option.map_some', g0]
  · rw [e1, Option.map_some', g1]
    rfl

end GoalResolution

section GoalFields

variable {K : Type}

/-- Goal resolution changes the goal only. -/
theorem resolveGoal_fields (servers : List (Server K)) (d : Drone K) :
    (MainWindow.resolveGoal servers d).status = d.status ∧
    (MainWindow.resolveGoal servers d).power = d.power ∧
    (MainWindow.resolveGoal servers d).V = d.V ∧
    (MainWindow.resolveGoal servers d).speed = d.speed := by
  unfold MainWindow.resolveGoal
  cases Canvas.findServerByName servers d.getTargetServer with
  | none => exact ⟨rfl, rfl, rfl, rfl⟩
  | some t => exact ⟨rfl, rfl, rfl, rfl⟩

end GoalFields

section LandedCharging

variable {K : Type} [LinearOrderedField K]

/-- The loop body on a landed drone: the drone stays landed and is charged. -/
theorem updateDrone_landed (m : CMath K) (servers : List (Server K)) (dt : K)
    (ctx : List (Drone K)) (d : Drone K) (h : d.status = .landed) :
    (MainWindow.updateDrone m servers dt ctx d).status = .landed ∧
    (MainWindow.updateDrone m servers dt ctx d).power
      = min Drone.maxPower (d.power + dt * Drone.chargingSpeed) := by
  obtain ⟨r1, r2, _, _⟩ := resolveGoal_fields servers d
  have hrs : (MainWindow.resolveGoal servers d).status = .landed := by rw [r1]; exact h
  have hcol : MainWindow.collisions m ctx (MainWindow.resolveGoal servers d)
      = MainWindow.resolveGoal servers d := by
    unfold MainWindow.collisions
    rw [if_neg]
    intro hne
    exact hne hrs
  unfold MainWindow.updateDrone
  rw [hcol, update_landed m _ dt hrs]
  exact ⟨hrs, by show min _ _ = _; rw [r2]⟩

/-- Capping twice is capping once, for a non-negative increment. -/
theorem min_cap_add (M a c : K) (hc : 0 ≤ c) : min M (min M a + c) = min M (a + c) := by
  rcases le_total a M with h | h
  · rw [min_eq_right h]
  · rw [min_eq_left h, min_eq_left (by linarith), min_eq_left (by linarith)]

/-- A landed drone over `k` sub-steps: it stays landed at its index and its power is
`min(maxPower, power + k * dt * chargingSpeed)`. -/
theorem subSteps_landed (m : CMath K) (servers : List (Server K)) (dt : K) (hdt : 0 ≤ dt)
    (i : Nat) (drone : Drone K) (hl : drone.status = .landed)
    (hp : drone.power ≤ Drone.maxPower) :
    ∀ (k : Nat) (ds : List (Drone K)), ds[i]? = some drone →
      ∃ drone2 : Drone K,
        ((MainWindow.subStep m servers dt)^[k] ds)[i]? = some drone2 ∧
        drone2.status = .landed ∧
        drone2.power = min Drone.maxPower (drone.power + (k : K) * (dt * Drone.chargingSpeed)) := by
  intro k
  induction k with
  | zero =>
    intro ds hget
    refine ⟨drone, hget, hl, ?_⟩
    simp only [Nat.cast_zero, zero_mul, add_zero]
    exact (min_eq_right hp).symm
  | succ k ih =>
    intro ds hget
    obtain ⟨d2, hget2, hl2, hp2⟩ := ih ds hget
    rw [Function.iterate_succ_apply']
    obtain ⟨_, hent⟩ := subStep_entries m servers dt ((MainWindow.subStep m servers dt)^[k] ds)
    obtain ⟨ctx, hctx⟩ := hent i
    rw [hget2] at hctx
    obtain ⟨u1, u2⟩ := updateDrone_landed m servers dt ctx d2 hl2
    refine ⟨_, hctx, u1, ?_⟩
    rw [u2, hp2]
    have hc : 0 ≤ dt * (Drone.chargingSpeed : K) :=
      mul_nonneg hdt (by unfold Drone.chargingSpeed; norm_num)
    rw [min_cap_add _ _ _ hc]
    congr 1
    push_cast
    ring

/-- C23: for every wall-clock delta `>= 0` and every sub-step count `steps >= 1`, a
drone that is landed with `power <= maxPower` at the start of a tick ends the tick
landed with `power = min(maxPower, power + chargingSpeed * delta / 1000)`, a value in
which `steps` does not occur; the `steps` sub-step durations `dt` sum to `delta / 1000`. -/
theorem charging_independent_of_steps (m : CMath K) (servers : List (Server K))
    (st : MainWindow.State K) (current d : Int) (i : Nat) (drone : Drone K)
    (hsteps : 1 ≤ st.steps) (hdelta : 0 ≤ current - st.last)
    (hget : st.mapDrones[i]? = some drone) (hl : drone.status = .landed)
    (hp : drone.power ≤ Drone.maxPower) :
    (∃ drone2 : Drone K,
      (MainWindow.update m servers st current d).mapDrones[i]? = some drone2 ∧
      drone2.status = .landed ∧
      drone2.power = min Drone.maxPower
        (drone.power + Drone.chargingSpeed * ((current - st.last : Int) : K) / 1000)) ∧
    (st.steps.toNat : K) * MainWindow.tickDt st current
      = ((current - st.last : Int) : K) / 1000 := by
  have hs0 : (0 : Int) ≤ st.steps := by linarith
  have hcast : ((st.steps.toNat : Nat) : K) = ((st.steps : Int) : K) := by
    rw [← Int.cast_natCast, Int.toNat_of_nonneg hs0]
  have hspos : (0 : K) < ((st.steps : Int) : K) := by
    have : (0 : Int) < st.steps := by linarith
    exact_mod_cast this
  have hdpos : (0 : K) ≤ ((current - st.last : Int) : K) := by exact_mod_cast hdelta
  have hdt : 0 ≤ MainWindow.tickDt st current := by
    unfold MainWindow.tickDt
    exact div_nonneg hdpos (mul_nonneg (by norm_num) (le_of_lt hspos))
  have hsum : (st.steps.toNat : K) * MainWindow.tickDt st current
      = ((current - st.last : Int) : K) / 1000 := by
    rw [hcast]
    unfold MainWindow.tickDt
    field_simp
    ring
  refine ⟨?_, hsum⟩
  obtain ⟨d2, hget2, hl2, hp2⟩ :=
    subSteps_landed m servers (MainWindow.tickDt st current) hdt i drone hl hp
      st.steps.toNat st.mapDrones hget
  refine ⟨d2, hget2, hl2, ?_⟩
  rw [hp2]
  congr 1
  have e : (st.steps.toNat : K) * (MainWindow.tickDt st current * Drone.chargingSpeed)
      = Drone.chargingSpeed * ((st.steps.toNat : K) * MainWindow.tickDt st current) := by ring
  rw [e, hsum]
  ring

/-- Instance of C23: a newly constructed drone (power 100) over a tick of 100 ms in 5
sub-steps ends landed with power `min(200, 100 + 10 * 100 / 1000)`. -/
theorem charging_independent_of_steps_witness :
    (1 : Int) ≤ (⟨0, 5, [Drone.new "d1" 0 0]⟩ : MainWindow.State ℝ).steps ∧
    (0 : Int) ≤ 100 - (⟨0, 5, [Drone.new "d1" 0 0]⟩ : MainWindow.State ℝ).last ∧
    (∃ drone2 : Drone ℝ,
      (MainWindow.update realMath [serverA, serverB]
        (⟨0, 5, [Drone.new "d1" 0 0]⟩ : MainWindow.State ℝ) 100 10).mapDrones[0]?
          = some drone2 ∧
      drone2.status = .landed ∧
      drone2.power = min Drone.maxPower
        ((Drone.new "d1" 0 0 : Drone ℝ).power + Drone.chargingSpeed
          * ((100 - (⟨0, 5, [Drone.new "d1" 0 0]⟩ : MainWindow.State ℝ).last : Int) : ℝ)
          / 1000)) :=
  ⟨by show (1 : Int) ≤ 5; norm_num, by show (0 : Int) ≤ 100 - 0; norm_num,
   (charging_independent_of_steps realMath [serverA, serverB]
      (⟨0, 5, [Drone.new "d1" 0 0]⟩ : MainWindow.State ℝ) 100 10 0 (Drone.new "d1" 0 0)
      (by show (1 : Int) ≤ 5; norm_num) (by show (0 : Int) ≤ 100 - 0; norm_num) rfl rfl
      (by show (Drone.maxPower : ℝ) / 2 ≤ Drone.maxPower; unfold Drone.maxPower; norm_num)).1⟩

end LandedCharging

/-! ## The collision force in machine arithmetic -/

section ForceRounded

variable {K : Type} [LinearOrderedField K]

/-- In exact arithmetic the machine-arithmetic `addCollision` is `addCollision`. -/
theorem addCollisionF_exact (m : CMath K) (d : Drone K) (B : Vector2D K) (t : K) :
    Drone.addCollisionF (FloatOps.exact m) d B t = some (d.addCollision m B t) := by
  unfold Drone.addCollisionF Drone.addCollision
  simp only [Vector2D.subF, Vector2D.lengthF, Vector2D.smulF, Vector2D.addF, FloatOps.exact,
    Option.some_bind]
  by_cases h : (B.sub d.position).length m < t
  · have h2 : m.sqrt ((B.x - d.position.x) * (B.x - d.position.x)
        + (B.y - d.position.y) * (B.y - d.position.y)) < t := h
    rw [if_pos h, if_pos h2]
    rfl
  · have h2 : ¬ m.sqrt ((B.x - d.position.x) * (B.x - d.position.x)
        + (B.y - d.position.y) * (B.y - d.position.y)) < t := h
    rw [if_neg h, if_neg h2]

/-- The quotient `-1000.0 / 96` in `double`. -/
theorem ieee_ddiv_example :
    ieee.ddiv (-1000 : ℝ) 96 = some (-5864062014805333 / 562949953421312) := by
  have h := roundTo_eq 53 (-1022) 1023 (-1000 / 96 : ℝ) 3 (-5864062014805333)
    (by norm_num [abs_of_neg]) (by norm_num [abs_of_neg])
    (by norm_num) (roundHalfEven_of_abs_lt _ _ (by norm_num [abs_lt])) (by norm_num [abs_of_neg])
  show (if (96 : ℝ) = 0 then none else binary64 (-1000 / 96 : ℝ)) = _
  rw [if_neg (by norm_num)]
  unfold binary64
  rw [h]
  norm_num

/-- The product of that quotient with 30, in `double`: exactly -312.5 after rounding. -/
theorem ieee_dmul_example_x :
    ieee.dmul (-5864062014805333 / 562949953421312 : ℝ) 30 = some (-625 / 2) := by
  have h := roundTo_eq 53 (-1022) 1023 (-5864062014805333 / 562949953421312 * 30 : ℝ) 8
    (-5497558138880000)
    (by norm_num [abs_of_neg]) (by norm_num [abs_of_neg])
    (by norm_num) (roundHalfEven_of_abs_lt _ _ (by norm_num [abs_lt])) (by norm_num [abs_of_neg])
  show binary64 (-5864062014805333 / 562949953421312 * 30 : ℝ) = _
  unfold binary64
  rw [h]
  norm_num

/-- The product of that quotient with 40, in `double`. -/
theorem ieee_dmul_example_y :
    ieee.dmul (-5864062014805333 / 562949953421312 : ℝ) 40
      = some (-3665038759253333 / 8796093022208) := by
  have h := roundTo_eq 53 (-1022) 1023 (-5864062014805333 / 562949953421312 * 40 : ℝ) 8
    (-7330077518506666)
    (by norm_num [abs_of_neg]) (by norm_num [abs_of_neg])
    (by norm_num) (roundHalfEven_of_abs_lt _ _ (by norm_num [abs_lt])) (by norm_num [abs_of_neg])
  show binary64 (-5864062014805333 / 562949953421312 * 40 : ℝ) = _
  unfold binary64
  rw [h]
  norm_num

/-- The number -312.5 is a `float`. -/
theorem binary32_example_x : binary32 (-625 / 2 : ℝ) = some (-625 / 2) := by
  have h := roundTo_eq 24 (-126) 127 (-625 / 2 : ℝ) 8 (-10240000)
    (by norm_num [abs_of_neg]) (by norm_num [abs_of_neg])
    (by norm_num) (roundHalfEven_of_abs_lt _ _ (by norm_num [abs_lt])) (by norm_num [abs_of_neg])
  unfold binary32
  rw [h]
  norm_num

/-- The conversion of the second product to `float`: -13653333 / 32768, which is
-416.666656494140625. -/
theorem binary32_example_y :
    binary32 (-3665038759253333 / 8796093022208 : ℝ) = some (-13653333 / 32768) := by
  have h := roundTo_eq 24 (-126) 127 (-3665038759253333 / 8796093022208 : ℝ) 8 (-13653333)
    (by norm_num [abs_of_neg]) (by norm_num [abs_of_neg])
    (by norm_num) (roundHalfEven_of_abs_lt _ _ (by norm_num [abs_lt])) (by norm_num [abs_of_neg])
  unfold binary32
  rw [h]
  norm_num

/-- The number -13653333 / 32768 is a `float`. -/
theorem binary32_example_sum : binary32 (-13653333 / 32768 : ℝ) = some (-13653333 / 32768) := by
  have h := roundTo_eq 24 (-126) 127 (-13653333 / 32768 : ℝ) 8 (-13653333)
    (by norm_num [abs_of_neg]) (by norm_num [abs_of_neg])
    (by norm_num) (roundHalfEven_of_abs_lt _ _ (by norm_num [abs_lt])) (by norm_num [abs_of_neg])
  unfold binary32
  rw [h]
  norm_num

/-- C24, as stated, fails in the arithmetic of the machine: for the drone at (0, 0) with
no collision force, the intruder at (30, 40), at distance 50, and the threshold 96, the
force that `addCollision` stores is (-312.5, -13653333 / 32768), its second coordinate
being the `float` nearest to the `double` product; the magnitude of that force is not
`coefCollision * 50 / 96`. -/
theorem collision_force_rounded :
    Vector2D.subF ieee ⟨30, 40⟩ (hoverAt "d1" ⟨0, 0⟩).position = some ⟨30, 40⟩ ∧
    Vector2D.lengthF ieee (⟨30, 40⟩ : Vector2D ℝ) = some 50 ∧
    (50 : ℝ) < 96 ∧
    Drone.addCollisionF ieee (hoverAt "d1" ⟨0, 0⟩) ⟨30, 40⟩ 96
      = some { hoverAt "d1" ⟨0, 0⟩ with
          ForceCollision := ⟨-625 / 2, -13653333 / 32768⟩, showCollision := true } ∧
    (hoverAt "d1" ⟨0, 0⟩).ForceCollision = ⟨0, 0⟩ ∧
    (⟨-625 / 2, -13653333 / 32768⟩ : Vector2D ℝ).length realMath
      ≠ Drone.coefCollision * 50 / 96 := by
  have s1 : ieee.fsub (30 : ℝ) 0 = some 30 := by
    show binary32 ((30 : ℝ) - 0) = _
    rw [binary32_int _ 30 (by norm_num) (by norm_num)]; norm_num
  have s2 : ieee.fsub (40 : ℝ) 0 = some 40 := by
    show binary32 ((40 : ℝ) - 0) = _
    rw [binary32_int _ 40 (by norm_num) (by norm_num)]; norm_num
  have m1 : ieee.fmul (30 : ℝ) 30 = some 900 := by
    show binary32 ((30 : ℝ) * 30) = _
    rw [binary32_int _ 900 (by norm_num) (by norm_num)]; norm_num
  have m2 : ieee.fmul (40 : ℝ) 40 = some 1600 := by
    show binary32 ((40 : ℝ) * 40) = _
    rw [binary32_int _ 1600 (by norm_num) (by norm_num)]; norm_num
  have a1 : ieee.fadd (900 : ℝ) 1600 = some 2500 := by
    show binary32 ((900 : ℝ) + 1600) = _
    rw [binary32_int _ 2500 (by norm_num) (by norm_num)]; norm_num
  have r1 : ieee.sqrt (2500 : ℝ) = some 50 := by
    rw [ieee_sqrt_sq 2500 50 (by norm_num) (by norm_num) (by norm_num)]; norm_num
  have t1 : ieee.toFloat (-625 / 2 : ℝ) = some (-625 / 2) := binary32_example_x
  have t2 : ieee.toFloat (-3665038759253333 / 8796093022208 : ℝ) = some (-13653333 / 32768) :=
    binary32_example_y
  have f1 : ieee.fadd (0 : ℝ) (-625 / 2) = some (-625 / 2) := by
    show binary32 ((0 : ℝ) + -625 / 2) = _
    rw [zero_add]; exact binary32_example_x
  have f2 : ieee.fadd (0 : ℝ) (-13653333 / 32768) = some (-13653333 / 32768) := by
    show binary32 ((0 : ℝ) + -13653333 / 32768) = _
    rw [zero_add]; exact binary32_example_sum
  have hsub : Vector2D.subF ieee ⟨30, 40⟩ (hoverAt "d1" ⟨0, 0⟩).position = some ⟨30, 40⟩ := by
    simp only [Vector2D.subF, hoverAt, s1, s2, Option.some_bind]
  have hlen : Vector2D.lengthF ieee (⟨30, 40⟩ : Vector2D ℝ) = some 50 := by
    simp only [Vector2D.lengthF, m1, m2, a1, r1, Option.some_bind]
  have hc : (-Drone.coefCollision : ℝ) = -1000 := by unfold Drone.coefCollision; rfl
  refine ⟨hsub, hlen, by norm_num, ?_, rfl, ?_⟩
  · unfold Drone.addCollisionF
    simp only [hsub, hlen]
    rw [if_pos (by norm_num)]
    simp only [hc, ieee_ddiv_example, Option.some_bind, Vector2D.smulF, ieee_dmul_example_x,
      ieee_dmul_example_y, t1, t2, Vector2D.addF]
    have hz : (hoverAt "d1" ⟨0, 0⟩).ForceCollision = (⟨0, 0⟩ : Vector2D ℝ) := rfl
    simp only [hz, f1, f2, Option.some_bind]
  · intro h
    have h2 : (⟨-625 / 2, -13653333 / 32768⟩ : Vector2D ℝ).length realMath
        * (⟨-625 / 2, -13653333 / 32768⟩ : Vector2D ℝ).length realMath
        = (Drone.coefCollision * 50 / 96) * (Drone.coefCollision * 50 / 96) := by rw [h]
    unfold Vector2D.length realMath at h2
    simp only at h2
    rw [Real.mul_self_sqrt (by positivity)] at h2
    unfold Drone.coefCollision at h2
    norm_num at h2

end ForceRounded

/-! ## Magnitude of the collision force -/

section ForceMagnitude

variable {K : Type} [LinearOrderedField K]

/-- The non-negative square root is unique. -/
theorem sqrt_unique (m : CMath K)
    (hsqrt : ∀ a : K, 0 ≤ a → 0 ≤ m.sqrt a ∧ m.sqrt a * m.sqrt a = a)
    (a y : K) (hy : 0 ≤ y) (hyy : y * y = a) : m.sqrt a = y := by
  have ha : 0 ≤ a := by rw [← hyy]; exact mul_self_nonneg y
  obtain ⟨hs0, hs1⟩ := hsqrt a ha
  have hfac : (m.sqrt a - y) * (m.sqrt a + y) = 0 := by
    have e : (m.sqrt a - y) * (m.sqrt a + y) = m.sqrt a * m.sqrt a - y * y := by ring
    rw [e, hs1, hyy]
    ring
  rcases mul_eq_zero.mp hfac with h | h
  · linarith
  · have h1 : m.sqrt a = 0 := by linarith
    have h2 : y = 0 := by linarith
    rw [h1, h2]

/-- The length of a scaled vector. -/
theorem length_smul (m : CMath K)
    (hsqrt : ∀ a : K, 0 ≤ a → 0 ≤ m.sqrt a ∧ m.sqrt a * m.sqrt a = a)
    (a : K) (v : Vector2D K) :
    (Vector2D.smul a v).length m = |a| * v.length m := by
  have hnn : 0 ≤ v.x * v.x + v.y * v.y := by
    have := mul_self_nonneg v.x
    have := mul_self_nonneg v.y
    linarith
  obtain ⟨hl0, hll⟩ := hsqrt _ hnn
  have hl0' : 0 ≤ v.length m := hl0
  have hll' : v.length m * v.length m = v.x * v.x + v.y * v.y := hll
  show m.sqrt (a * v.x * (a * v.x) + a * v.y * (a * v.y)) = _
  apply sqrt_unique m hsqrt
  · exact mul_nonneg (abs_nonneg a) hl0'
  · have e : |a| * v.length m * (|a| * v.length m)
        = (|a| * |a|) * (v.length m * v.length m) := by ring
    rw [e, abs_mul_abs_self, hll']
    ring

/-- C24, amended: in exact arithmetic (no operation rounds and `sqrt` is the non-negative
square root, which is the hypothesis `hsqrt`), for every drone position `P`, intruder
position `B` and threshold `t > 0` with `|B - P| < t`, the force that one
`addCollision(B, t)` call adds has magnitude exactly `coefCollision * |B - P| / t`, which
is strictly less than `coefCollision`, grows with the distance to the intruder, and is
zero when `B = P`; when `|B - P| >= t` the call changes neither the collision force nor
`showCollision`. The exact `addCollision` is the machine-arithmetic `addCollisionF` with
operations that do not round. -/
theorem collision_force_magnitude (m : CMath K)
    (hsqrt : ∀ a : K, 0 ≤ a → 0 ≤ m.sqrt a ∧ m.sqrt a * m.sqrt a = a)
    (d : Drone K) (B : Vector2D K) (t : K) (ht : 0 < t) :
    ((B.sub d.position).length m < t →
      (d.addCollision m B t).ForceCollision
        = d.ForceCollision.add
            (Vector2D.smul (-Drone.coefCollision / t) (B.sub d.position)) ∧
      (Vector2D.smul (-Drone.coefCollision / t) (B.sub d.position)).length m
        = Drone.coefCollision * (B.sub d.position).length m / t ∧
      (Vector2D.smul (-Drone.coefCollision / t) (B.sub d.position)).length m
        < Drone.coefCollision ∧
      (∀ B2 : Vector2D K,
        (B.sub d.position).length m ≤ (B2.sub d.position).length m →
        (Vector2D.smul (-Drone.coefCollision / t) (B.sub d.position)).length m
          ≤ (Vector2D.smul (-Drone.coefCollision / t) (B2.sub d.position)).length m) ∧
      (∀ B2 : Vector2D K,
        (B.sub d.position).length m < (B2.sub d.position).length m →
        (Vector2D.smul (-Drone.coefCollision / t) (B.sub d.position)).length m
          < (Vector2D.smul (-Drone.coefCollision / t) (B2.sub d.position)).length m) ∧
      (B = d.position →
        Vector2D.smul (-Drone.coefCollision / t) (B.sub d.position) = ⟨0, 0⟩ ∧
        (Vector2D.smul (-Drone.coefCollision / t) (B.sub d.position)).length m = 0)) ∧
    (¬ (B.sub d.position).length m < t →
      (d.addCollision m B t).ForceCollision = d.ForceCollision ∧
      (d.addCollision m B t).showCollision = d.showCollision ∧
      d.addCollision m B t = d) ∧
    Drone.addCollisionF (FloatOps.exact m) d B t = some (d.addCollision m B t) := by
  have hc : (0 : K) < Drone.coefCollision := by unfold Drone.coefCollision; norm_num
  have hct : (0 : K) < Drone.coefCollision / t := div_pos hc ht
  have habs : |(-Drone.coefCollision / t : K)| = Drone.coefCollision / t := by
    rw [neg_div, abs_neg, abs_of_pos hct]
  have hmag : ∀ v : Vector2D K,
      (Vector2D.smul (-Drone.coefCollision / t) v).length m
        = Drone.coefCollision / t * v.length m := by
    intro v
    rw [length_smul m hsqrt, habs]
  constructor
  · intro hlt
    refine ⟨?_, ?_, ?_, ?_, ?_, ?_⟩
    · rw [addCollision_near m d B t hlt]
    · rw [hmag]
      field_simp
    · rw [hmag]
      have h1 : Drone.coefCollision / t * (B.sub d.position).length m
          < Drone.coefCollision / t * t := mul_lt_mul_of_pos_left hlt hct
      have h2 : (Drone.coefCollision : K) / t * t = Drone.coefCollision := by
        field_simp
      rw [h2] at h1
      exact h1
    · intro B2 hle
      rw [hmag, hmag]
      exact mul_le_mul_of_nonneg_left hle (le_of_lt hct)
    · intro B2 hlt2
      rw [hmag, hmag]
      exact mul_lt_mul_of_pos_left hlt2 hct
    · intro hBP
      have hzero : B.sub d.position = ⟨0, 0⟩ := by
        rw [hBP]
        unfold Vector2D.sub
        simp
      have hv : Vector2D.smul (-Drone.coefCollision / t) (B.sub d.position) = ⟨0, 0⟩ := by
        rw [hzero]
        unfold Vector2D.smul
        simp
      refine ⟨hv, ?_⟩
      rw [hv]
      show m.sqrt (0 * 0 + 0 * 0) = 0
      exact sqrt_unique m hsqrt _ 0 (le_refl 0) (by ring)
  · refine ⟨fun hge => ?_, addCollisionF_exact m d B t⟩
    have hfar := addCollision_far m d B t hge
    exact ⟨by rw [hfar], by rw [hfar], hfar⟩

/-- Instance of the amended C24 in the exact arithmetic of the reals: a drone at (0, 0),
an intruder at (30, 40), at distance 50, and the threshold 96. -/
theorem collision_force_magnitude_witness :
    (∀ a : ℝ, 0 ≤ a → 0 ≤ realMath.sqrt a ∧ realMath.sqrt a * realMath.sqrt a = a) ∧
    (0 : ℝ) < 96 ∧
    ((⟨30, 40⟩ : Vector2D ℝ).sub (hoverAt "d1" ⟨0, 0⟩).position).length realMath < 96 ∧
    (Vector2D.smul (-Drone.coefCollision / 96)
      ((⟨30, 40⟩ : Vector2D ℝ).sub (hoverAt "d1" ⟨0, 0⟩).position)).length realMath
        = Drone.coefCollision
          * ((⟨30, 40⟩ : Vector2D ℝ).sub (hoverAt "d1" ⟨0, 0⟩).position).length realMath
          / 96 := by
  have hsqrt : ∀ a : ℝ, 0 ≤ a → 0 ≤ realMath.sqrt a ∧ realMath.sqrt a * realMath.sqrt a = a :=
    fun a ha => ⟨Real.sqrt_nonneg a, Real.mul_self_sqrt ha⟩
  have hlen : ((⟨30, 40⟩ : Vector2D ℝ).sub (hoverAt "d1" ⟨0, 0⟩).position).length realMath
      = 50 :=
    real_length_eq _ _ 50 (by norm_num) (by norm_num [hoverAt, Vector2D.sub])
  have hlt : ((⟨30, 40⟩ : Vector2D ℝ).sub (hoverAt "d1" ⟨0, 0⟩).position).length realMath
      < 96 := by rw [hlen]; norm_num
  exact ⟨hsqrt, by norm_num, hlt,
    ((collision_force_magnitude realMath hsqrt (hoverAt "d1" ⟨0, 0⟩) ⟨30, 40⟩ 96
      (by norm_num)).1 hlt).2.1⟩

end ForceMagnitude

/-! ## The rest invariant -/

section Rest

variable {K : Type} [LinearOrderedField K]

/-- `addCollision` changes neither the velocity nor the speed. -/
theorem addCollision_motion (m : CMath K) (d : Drone K) (B : Vector2D K) (threshold : K) :
    (d.addCollision m B threshold).V = d.V ∧
    (d.addCollision m B threshold).speed = d.speed := by
  by_cases h : (B.sub d.position).length m < threshold
  · rw [addCollision_near m d B threshold h]
    exact ⟨rfl, rfl⟩
  · rw [addCollision_far m d B threshold h]
    exact ⟨rfl, rfl⟩

/-- The obstacle loop of `collisions` changes neither the velocity nor the speed. -/
theorem collisions_fold_motion (m : CMath K) (obstacles : List (Drone K)) :
    ∀ d0 : Drone K,
      (obstacles.foldl
        (fun drone obs =>
          if obs.getStatus ≠ .landed ∧ obs.getName ≠ drone.getName then
            drone.addCollision m obs.getPosition Canvas.droneCollisionDistance
          else drone) d0).V = d0.V ∧
      (obstacles.foldl
        (fun drone obs =>
          if obs.getStatus ≠ .landed ∧ obs.getName ≠ drone.getName then
            drone.addCollision m obs.getPosition Canvas.droneCollisionDistance
          else drone) d0).speed = d0.speed := by
  induction obstacles with
  | nil => intro d0; exact ⟨rfl, rfl⟩
  | cons obs rest ih =>
    intro d0
    rw [List.foldl_cons]
    obtain ⟨i1, i2⟩ := ih (if obs.getStatus ≠ .landed ∧ obs.getName ≠ d0.getName then
        d0.addCollision m obs.getPosition Canvas.droneCollisionDistance else d0)
    rw [i1, i2]
    have ha := addCollision_motion m d0 obs.getPosition Canvas.droneCollisionDistance
    constructor
    · split_ifs
      · exact ha.1
      · rfl
    · split_ifs
      · exact ha.2
      · rfl

/-- The collision handling of a sub-step changes neither the velocity nor the speed. -/
theorem collisions_motion (m : CMath K) (mapDrones : List (Drone K)) (drone : Drone K) :
    (MainWindow.collisions m mapDrones drone).V = drone.V ∧
    (MainWindow.collisions m mapDrones drone).speed = drone.speed := by
  unfold MainWindow.collisions
  split_ifs
  · obtain ⟨i1, i2⟩ := collisions_fold_motion m mapDrones drone.initCollision
    rw [i1, i2]
    exact ⟨rfl, rfl⟩
  · exact ⟨rfl, rfl⟩

/-- `update` keeps the rest invariant, and a drone in takeoff that satisfies it comes
out of `update` with velocity (0, 0) and speed 0 whatever its new status. -/
theorem update_rest (m : CMath K) (d : Drone K) (dt : K) (h : d.restInvariant) :
    (d.update m dt).restInvariant ∧
    (d.status = .takeoff → (d.update m dt).V = ⟨0, 0⟩ ∧ (d.update m dt).speed = 0) := by
  rcases status_cases d.status with hs | hs | hs | hs
  · obtain ⟨hV, hsp⟩ := h (Or.inl hs)
    constructor
    · intro _
      rw [update_landed m d dt hs]
      exact ⟨hV, hsp⟩
    · intro ht; rw [hs] at ht; cases ht
  · obtain ⟨hV, hsp⟩ := h (Or.inr (Or.inl hs))
    have hzero : (d.update m dt).V = ⟨0, 0⟩ ∧ (d.update m dt).speed = 0 := by
      rw [update_takeoff_state m d dt hs]
      refine ⟨hV, ?_⟩
      show (if d.power - dt * Drone.powerConsumption < 22 then 0 else d.speed) = 0
      split_ifs
      · rfl
      · exact hsp
    exact ⟨fun _ => hzero, fun _ => hzero⟩
  · obtain ⟨hV, hsp⟩ := h (Or.inr (Or.inr hs))
    constructor
    · intro _
      rw [update_landing_state m d dt hs]
      exact ⟨hV, hsp⟩
    · intro ht; rw [hs] at ht; cases ht
  · constructor
    · rw [update_cruise m d dt hs]
      intro hground
      have hst : (if d.cruiseLands m dt then Drone.droneStatus.landing else d.status)
            = .landed ∨
          (if d.cruiseLands m dt then Drone.droneStatus.landing else d.status)
            = .takeoff ∨
          (if d.cruiseLands m dt then Drone.droneStatus.landing else d.status)
            = .landing := hground
      by_cases hl : d.cruiseLands m dt
      · show (if d.cruiseLands m dt then (⟨0, 0⟩ : Vector2D K) else _) = ⟨0, 0⟩ ∧
          (if d.cruiseLands m dt then (0 : K) else _) = 0
        rw [if_pos hl, if_pos hl]
        exact ⟨rfl, rfl⟩
      · rw [if_neg hl] at hst
        exfalso
        rcases hs with h1 | h1 | h1 <;> rw [h1] at hst <;>
          rcases hst with h2 | h2 | h2 <;> cases h2
    · intro ht
      rcases hs with h1 | h1 | h1 <;> rw [h1] at ht <;> cases ht

/-- The loop body of a sub-step keeps the rest invariant. -/
theorem updateDrone_rest (m : CMath K) (servers : List (Server K)) (dt : K)
    (ctx : List (Drone K)) (d : Drone K) (h : d.restInvariant) :
    (MainWindow.updateDrone m servers dt ctx d).restInvariant := by
  obtain ⟨r1, _, r3, r4⟩ := resolveGoal_fields servers d
  obtain ⟨_, c2⟩ := collisions_fields m ctx (MainWindow.resolveGoal servers d)
  obtain ⟨c3, c4⟩ := collisions_motion m ctx (MainWindow.resolveGoal servers d)
  have hinv : (MainWindow.collisions m ctx (MainWindow.resolveGoal servers d)).restInvariant := by
    unfold Drone.restInvariant
    rw [c2, c3, c4, r1, r3, r4]
    exact h
  unfold MainWindow.updateDrone
  exact (update_rest m _ dt hinv).1

/-- A sub-step keeps the rest invariant of every drone. -/
theorem subStep_rest (m : CMath K) (servers : List (Server K)) (dt : K)
    (ds : List (Drone K)) (h : ∀ d ∈ ds, d.restInvariant) :
    ∀ d ∈ MainWindow.subStep m servers dt ds, d.restInvariant := by
  intro d hd
  obtain ⟨i, hi⟩ := List.mem_iff_getElem?.mp hd
  obtain ⟨_, hent⟩ := subStep_entries m servers dt ds
  obtain ⟨ctx, hctx⟩ := hent i
  rw [hi] at hctx
  cases hget : ds[i]? with
  | none => rw [hget] at hctx; cases hctx
  | some d0 =>
    rw [hget] at hctx
    have hd0 : d = MainWindow.updateDrone m servers dt ctx d0 := Option.some.inj hctx
    rw [hd0]
    exact updateDrone_rest m servers dt ctx d0 (h d0 (List.getElem?_mem hget))

/-- A mouse press keeps the rest invariant of every drone. -/
theorem mousePressEvent_rest (pos : Vector2D K) :
    ∀ ds : List (Drone K), (∀ d ∈ ds, d.restInvariant) →
      ∀ d ∈ Canvas.mousePressEvent ds pos, d.restInvariant := by
  intro ds
  induction ds with
  | nil => intro _ d hd; cases hd
  | cons a rest ih =>
    intro h d hd
    unfold Canvas.mousePressEvent at hd
    by_cases ha : a.getStatus ≠ .landed
    · rw [if_pos ha] at hd
      rcases List.mem_cons.mp hd with h1 | h1
      · rw [h1]; exact h a (List.mem_cons_self a rest)
      · exact ih (fun x hx => h x (List.mem_cons_of_mem a hx)) d h1
    · rw [if_neg ha] at hd
      rcases List.mem_cons.mp hd with h1 | h1
      · have hal : a.status = .landed := not_not.mp ha
        obtain ⟨hV, hsp⟩ := h a (List.mem_cons_self a rest) (Or.inl hal)
        rw [h1]
        intro _
        exact ⟨hV, hsp⟩
      · exact h d (List.mem_cons_of_mem a h1)

/-- The rest invariant along a sequence of events. -/
theorem reach_rest (m : CMath K) (servers : List (Server K))
    (events : List (SimEvent K)) :
    ∀ ds : List (Drone K), (∀ d ∈ ds, d.restInvariant) →
      ∀ d ∈ MainWindow.reach m servers ds events, d.restInvariant := by
  induction events with
  | nil => intro ds h; exact h
  | cons e rest ih =>
    intro ds h
    unfold MainWindow.reach
    rw [List.foldl_cons]
    apply ih
    cases e with
    | subStep dt => exact subStep_rest m servers dt ds h
    | mousePress pos => exact mousePressEvent_rest pos ds h

/-- C25: in every state reached from a freshly loaded fleet by sub-steps of ticks (goal
resolution, collision handling, `update(dt)` for any `dt`) and mouse presses
(`setGoalPosition` then `start()` on the first landed drone), every drone whose status
is landed, takeoff or landing has `V = (0, 0)` and speed 0; and a drone in takeoff comes
out of the loop body of a sub-step with `V = (0, 0)` and speed 0, so it enters hovering
from rest. -/
theorem rest_invariant (m : CMath K) (servers : List (Server K)) (fleet : List (Drone K))
    (hfresh : ∀ d ∈ fleet, ∃ (name : String) (position : Vector2D K) (server : String)
      (height0 speedSetpoint0 : K),
      d = MainWindow.loadDrone name position server height0 speedSetpoint0)
    (events : List (SimEvent K)) :
    ∀ d ∈ MainWindow.reach m servers fleet events,
      ((d.status = .landed ∨ d.status = .takeoff ∨ d.status = .landing) →
        d.V = ⟨0, 0⟩ ∧ d.speed = 0) ∧
      (d.status = .takeoff → ∀ (dt : K) (ctx : List (Drone K)),
        (MainWindow.updateDrone m servers dt ctx d).status = .hovering →
        (MainWindow.updateDrone m servers dt ctx d).V = ⟨0, 0⟩ ∧
        (MainWindow.updateDrone m servers dt ctx d).speed = 0) := by
  have hinit : ∀ d ∈ fleet, d.restInvariant := by
    intro d hd
    obtain ⟨name, position, server, h0, s0, he⟩ := hfresh d hd
    rw [he]
    intro _
    exact ⟨rfl, rfl⟩
  intro d hd
  have hinv := reach_rest m servers events fleet hinit d hd
  refine ⟨hinv, ?_⟩
  intro ht dt ctx _
  obtain ⟨r1, _, r3, r4⟩ := resolveGoal_fields servers d
  obtain ⟨_, c2⟩ := collisions_fields m ctx (MainWindow.resolveGoal servers d)
  obtain ⟨c3, c4⟩ := collisions_motion m ctx (MainWindow.resolveGoal servers d)
  have hinv2 : (MainWindow.collisions m ctx (MainWindow.resolveGoal servers d)).restInvariant := by
    unfold Drone.restInvariant
    rw [c2, c3, c4, r1, r3, r4]
    exact hinv
  have hst : (MainWindow.collisions m ctx (MainWindow.resolveGoal servers d)).status
      = .takeoff := by rw [c2, r1]; exact ht
  unfold MainWindow.updateDrone
  exact (update_rest m _ dt hinv2).2 hst

/-- Instance of C25: a fleet of one freshly loaded drone, a mouse press at (5, 5) and
a sub-step of 1/50 s. -/
theorem rest_invariant_witness :
    (∀ d ∈ [(MainWindow.loadDrone "d1" ⟨0, 0⟩ "A" 0 0 : Drone ℝ)],
      ∃ (name : String) (position : Vector2D ℝ) (server : String)
        (height0 speedSetpoint0 : ℝ),
        d = MainWindow.loadDrone name position server height0 speedSetpoint0) ∧
    ∀ d ∈ MainWindow.reach realMath [serverA, serverB]
        [(MainWindow.loadDrone "d1" ⟨0, 0⟩ "A" 0 0 : Drone ℝ)]
        [SimEvent.mousePress ⟨5, 5⟩, SimEvent.subStep (1 / 50)],
      (d.status = .landed ∨ d.status = .takeoff ∨ d.status = .landing) →
        d.V = ⟨0, 0⟩ ∧ d.speed = 0 := by
  have hfresh : ∀ d ∈ [(MainWindow.loadDrone "d1" ⟨0, 0⟩ "A" 0 0 : Drone ℝ)],
      ∃ (name : String) (position : Vector2D ℝ) (server : String)
        (height0 speedSetpoint0 : ℝ),
        d = MainWindow.loadDrone name position server height0 speedSetpoint0 := by
    intro d hd
    rw [List.mem_singleton] at hd
    exact ⟨"d1", ⟨0, 0⟩, "A", 0, 0, hd⟩
  exact ⟨hfresh, fun d hd =>
    (rest_invariant realMath [serverA, serverB] _ hfresh
      [SimEvent.mousePress ⟨5, 5⟩, SimEvent.subStep (1 / 50)] d hd).1⟩

end Rest

end DroneProject
